import Mathlib

/-! # PIXLMIXR services: a shallow embedding of the `POST /mint` handlers and of the
fallback gradient of the creation services

The handlers of `minting-service/src/index.js` and `minting-service-minimal/index.js`
are embedded as pure functions.  Everything the handler obtains from outside the
process (chain RPC, object store, HTTP fetch, pinning service, signing SDK,
persistence service, clock) is read from a `World` record of outcomes, and every
external call the handler makes is appended to a trace of `Call`s, so that a run
is a pair of the trace and the HTTP response.

Conventions.
* A JSON body field expected to hold a string is a `JsField`: absent, `null` or a string.
* An environment variable is an `Option String`.
* An awaited call that rejects, or an expression that throws, is `Except.error message`.
* Unsigned token amounts, gas and token identifiers (JavaScript `BigInt`) are `Nat`.
* `toLowerCase` is the ASCII lower-casing of `Char.toLower`, which is what JavaScript
  computes on the hexadecimal address strings compared here.
-/

namespace PixlMixr

/-! ## JavaScript values -/

/-- A JSON body field that is expected to hold a string. -/
inductive JsField where
  | undefined
  | null
  | str (s : String)
  deriving DecidableEq, Repr

/-- JavaScript truthiness of a body field: absent, `null` and the empty string are falsy. -/
def JsField.truthy : JsField → Bool
  | .undefined => false
  | .null => false
  | .str s => s != ""

/-- JavaScript truthiness of `process.env.X`. -/
def envTruthy : Option String → Bool
  | none => false
  | some s => s != ""

/-- Template-literal rendering of `process.env.X` (an unset variable prints `undefined`). -/
def envTemplate : Option String → String
  | none => "undefined"
  | some s => s

/-- The method `String.prototype.toLowerCase`, on ASCII. -/
def toLowerCase (s : String) : String := String.mk (s.data.map Char.toLower)

/-- The call `s.slice(0, 8)`: the first eight characters. -/
def slice8 (s : String) : String := String.mk (s.data.take 8)

abbrev Bytes := List UInt8

/-! ## Configuration (module constants and `process.env`) -/

def CHAIN_ID : Nat := 8453

def DEGEN_TOKEN_ADDRESS : String := "0x4ed4E862860beD51a9570b96d89aF5E1B0Efefed"

/-- The value `ethers.parseEther('10')`: ten tokens of eighteen decimals. -/
def expectedAmount : Nat := 10 * 10 ^ 18

def pinataEndpoint : String := "https://api.pinata.cloud/pinning/pinFileToIPFS"

def pinataGateway : String := "https://gateway.pinata.cloud/ipfs/"

structure Config where
  GCS_BUCKET_NAME : Option String
  NFT_CONTRACT_ADDRESS : Option String
  TREASURY_WALLET_ADDRESS : Option String
  PINATA_JWT : Option String
  USE_THIRDWEB : Option String
  THIRDWEB_SECRET_KEY : Option String
  MINTER_PRIVATE_KEY : Option String
  CLOUDFLARE_D1_API_URL : Option String
  CLOUDFLARE_API_TOKEN : Option String
  deriving DecidableEq, Repr

/-- The expression `process.env.X || fallback`. -/
def envOr (v : Option String) (fallback : String) : String :=
  if envTruthy v then envTemplate v else fallback

def Config.bucketName (cfg : Config) : String := envOr cfg.GCS_BUCKET_NAME "pixlmixr-images"

def Config.nftContractAddress (cfg : Config) : String :=
  envOr cfg.NFT_CONTRACT_ADDRESS "0xYourContractAddress"

/-! ## Request and response bodies -/

/-- The optional `metadata` object of the request body. -/
structure RequestMetadata where
  name : JsField
  description : JsField
  highRes : Bool
  styles : Option (List String)
  deriving DecidableEq, Repr

structure MintRequest where
  masterpieceId : JsField
  walletAddress : JsField
  paymentTxHash : JsField
  imageUrl : JsField
  metadata : Option RequestMetadata
  deriving DecidableEq, Repr

structure Attribute where
  trait_type : String
  value : String
  deriving DecidableEq, Repr

structure NftProperties where
  masterpieceId : String
  createdWith : String
  blockchain : String
  paymentToken : String
  deriving DecidableEq, Repr

/-- The metadata document `nftMetadata`. -/
structure NftMetadata where
  name : String
  description : String
  image : String
  attributes : List Attribute
  properties : NftProperties
  deriving DecidableEq, Repr

structure IpfsInfo where
  imageUrl : String
  imageHash : String
  metadataUrl : String
  metadataHash : String
  deriving DecidableEq, Repr

structure BlockchainInfo where
  chain : String
  contract : String
  explorer : String
  deriving DecidableEq, Repr

/-- The success body `response`. -/
structure MintSuccess where
  success : Bool
  masterpieceId : String
  transactionHash : String
  tokenId : String
  tokenURI : String
  ipfs : IpfsInfo
  blockchain : BlockchainInfo
  timestamp : String
  deriving DecidableEq, Repr

structure IpfsData where
  image : String
  metadata : String
  deriving DecidableEq, Repr

/-- The JSON bodies the full service sends. -/
inductive Body where
  | error (error : String)
  | mintFailed (error : String) (message : String) (ipfsData : IpfsData)
  | serviceError (error : String) (message : String) (service : String)
  | success (r : MintSuccess)
  deriving DecidableEq, Repr

structure Response where
  status : Nat
  body : Body
  deriving DecidableEq, Repr

/-- The `error` field of a response body, when it has one. -/
def Body.errorField : Body → Option String
  | .error e => some e
  | .mintFailed e _ _ => some e
  | .serviceError e _ _ => some e
  | .success _ => none

/-! ## The outside world -/

structure Log where
  address : String
  topics : List String
  data : String
  deriving DecidableEq, Repr

structure Receipt where
  hash : String
  logs : List Log
  deriving DecidableEq, Repr

/-- The decoded arguments of `event Transfer(address from, address to, uint256 value)`. -/
structure TransferArgs where
  src : String
  toAddr : String
  value : Nat
  deriving DecidableEq, Repr

structure FeeData where
  maxFeePerGas : Option Nat
  maxPriorityFeePerGas : Option Nat
  deriving DecidableEq, Repr

/-- The file handed to `pinFileToIPFS`. -/
inductive PinFile where
  | image (buffer : Bytes) (filename : String) (contentType : String)
  | metadata (doc : NftMetadata) (filename : String) (contentType : String)
  deriving DecidableEq, Repr

/-- The metadata object handed to `contract.erc721.mintTo`. -/
structure SdkMetadata where
  name : String
  description : String
  image : String
  attributes : List Attribute
  deriving DecidableEq, Repr

/-- The transaction overrides of the direct `mintNFT` call. -/
structure TxOverrides where
  gasLimit : Nat
  maxFeePerGas : Option Nat
  maxPriorityFeePerGas : Option Nat
  deriving DecidableEq, Repr

/-- The body posted to `<CLOUDFLARE_D1_API_URL>/update-mint`. -/
structure UpdateMint where
  masterpieceId : String
  mintTxHash : String
  tokenId : String
  tokenURI : String
  ipfsImageHash : String
  ipfsMetadataHash : String
  deriving DecidableEq, Repr

/-- The external calls of the handler, with their arguments. -/
inductive Call where
  | getTransaction (hash : String)
  | getTransactionReceipt (hash : String)
  | fileExists (bucket : String) (filename : String)
  | fileDownload (bucket : String) (filename : String)
  | httpGet (url : String)
  | pinFileToIPFS (url : String) (file : PinFile) (authorization : String)
  | sdkGetContract (address : String)
  | sdkMintTo (toAddr : String) (metadata : SdkMetadata)
  | estimateGas (contract : String) (toAddr : String) (tokenURI : String)
  | getFeeData
  | mintNFT (contract : String) (toAddr : String) (tokenURI : String) (overrides : TxOverrides)
  | wait (txHash : String) (confirms : Nat)
  | updateMint (url : String) (body : UpdateMint) (authorization : String)
  deriving DecidableEq, Repr

/-- The outcomes of everything outside the handler for one run.  Library functions whose
source is not part of the repository (`ethers`, the signing SDK) are fields as well; only
the network calls are recorded in the trace. -/
structure World where
  /-- The call `provider.getTransaction(hash)`; `none` is `null`. -/
  getTransaction : String → Except String (Option Unit)
  /-- The call `provider.getTransactionReceipt(hash)`; `none` is `null`. -/
  getTransactionReceipt : String → Except String (Option Receipt)
  /-- The library call `degenToken.interface.parseLog`; `none` is `null`. -/
  parseLog : List String → String → Except String (Option TransferArgs)
  /-- The call `file.exists()` of the object store. -/
  fileExists : String → String → Except String Bool
  /-- The call `file.download()` of the object store. -/
  fileDownload : String → String → Except String Bytes
  /-- The call `axios.get(imageUrl)`. -/
  httpGet : String → Except String Bytes
  /-- The call `axios.post` to the pinning service, giving `data.IpfsHash`. -/
  pinFileToIPFS : PinFile → String → Except String String
  /-- The library call `ThirdwebSDK.fromPrivateKey`. -/
  sdkFromPrivateKey : Option String → Option String → Except String Unit
  /-- The call `sdk.getContract(address)`. -/
  sdkGetContract : String → Except String Unit
  /-- The call `contract.erc721.mintTo`, giving `tx.receipt.transactionHash` and `tx.id`. -/
  sdkMintTo : String → SdkMetadata → Except String (String × Nat)
  /-- The library call `new ethers.Wallet(privateKey, provider)`. -/
  newWallet : Option String → Except String Unit
  /-- The call `nftContract.mintNFT.estimateGas`. -/
  estimateGas : String → String → String → Except String Nat
  /-- The call `provider.getFeeData()`. -/
  getFeeData : Except String FeeData
  /-- The call `nftContract.mintNFT(...)`, giving `tx.hash`. -/
  mintNFT : String → String → String → TxOverrides → Except String String
  /-- The call `tx.wait(confirms)`. -/
  wait : String → Nat → Except String Receipt
  /-- The library call `ethers.toBigInt`. -/
  toBigInt : String → Except String Nat
  /-- The call `axios.post` to the persistence service. -/
  updateMint : String → UpdateMint → String → Except String Unit
  /-- The value `new Date().toISOString()` when the metadata document is built. -/
  metadataDate : String
  /-- The value `new Date().toISOString()` when the success response is built. -/
  responseDate : String

/-! ## Handler control flow -/

/-- How a block of the handler ends: it falls through with a value, it returns a
response (`return c.json(...)`), or it throws. -/
inductive Step (α : Type) where
  | next (a : α)
  | respond (r : Response)
  | raise (message : String)
  deriving DecidableEq, Repr

/-- A block of the handler: the external calls it made and how it ended. -/
abbrev Prog (α : Type) := List Call × Step α

def Prog.bind {α β : Type} (p : Prog α) (f : α → Prog β) : Prog β :=
  match p.2 with
  | .next a => (p.1 ++ (f a).1, (f a).2)
  | .respond r => (p.1, .respond r)
  | .raise e => (p.1, .raise e)

instance : Monad Prog where
  pure a := ([], .next a)
  bind := Prog.bind

/-- The statement `return c.json(body, status)`. -/
def respond {α : Type} (status : Nat) (body : Body) : Prog α :=
  ([], .respond { status := status, body := body })

/-- A thrown error. -/
def raise {α : Type} (message : String) : Prog α := ([], .raise message)

/-- An awaited external call: it is recorded, and a rejection is thrown. -/
def call {α : Type} (c : Call) (outcome : Except String α) : Prog α :=
  match outcome with
  | .ok a => ([c], .next a)
  | .error e => ([c], .raise e)

/-- A library call that may throw; it is not recorded. -/
def lib {α : Type} (outcome : Except String α) : Prog α :=
  match outcome with
  | .ok a => ([], .next a)
  | .error e => ([], .raise e)

/-- The statement `try { p } catch (e) { handler(e) }`. -/
def tryCatch {α : Type} (p : Prog α) (handler : String → Prog α) : Prog α :=
  match p.2 with
  | .raise e => (p.1 ++ (handler e).1, (handler e).2)
  | _ => p

/-- Template-literal rendering of a body field. -/
def JsField.toStr : JsField → String
  | .undefined => "undefined"
  | .null => "null"
  | .str s => s

/-- The expression `v || fallback` on a body field. -/
def JsField.orElse (v : JsField) (fallback : String) : String :=
  if v.truthy then v.toStr else fallback

/-- The expression `metadata?.field`. -/
def optField (metadata : Option RequestMetadata) (field : RequestMetadata → JsField) : JsField :=
  match metadata with
  | none => .undefined
  | some m => field m

/-! ## `POST /mint` of `minting-service/src/index.js` -/

/-- The predicate of `receipt.logs.find`: the log was emitted by `address`, ignoring case. -/
def emittedBy (address : String) (log : Log) : Bool :=
  toLowerCase log.address == toLowerCase address

/-- Lines 108-147: the body of the payment `try` block. -/
def verifyPaymentTry (cfg : Config) (w : World) (paymentTxHash : String) : Prog Unit := do
  let tx ← call (.getTransaction paymentTxHash) (w.getTransaction paymentTxHash)
  match tx with
  | none => respond 400 (.error "Payment transaction not found")
  | some _ =>
    let receipt ← call (.getTransactionReceipt paymentTxHash)
      (w.getTransactionReceipt paymentTxHash)
    match receipt with
    | none => raise "TypeError: Cannot read properties of null (reading logs)"
    | some receipt =>
      match receipt.logs.find? (emittedBy DEGEN_TOKEN_ADDRESS) with
      | none => respond 400 (.error "Invalid payment transaction")
      | some transferEvent =>
        let decoded ← lib (w.parseLog transferEvent.topics transferEvent.data)
        match decoded with
        | none => raise "TypeError: Cannot read properties of null (reading args)"
        | some args =>
          let amount := args.value
          let toAddr := args.toAddr
          if amount < expectedAmount then
            respond 400 (.error "Insufficient payment amount")
          else
            match cfg.TREASURY_WALLET_ADDRESS with
            | none => raise "TypeError: Cannot read properties of undefined (reading toLowerCase)"
            | some treasuryAddress =>
              if toLowerCase toAddr != toLowerCase treasuryAddress then
                respond 400 (.error "Payment not sent to treasury")
              else
                pure ()

/-- Lines 107-151: step 1, payment verification, with its `catch`. -/
def verifyPayment (cfg : Config) (w : World) (paymentTxHash : String) : Prog Unit :=
  tryCatch (verifyPaymentTry cfg w paymentTxHash)
    (fun _ => respond 400 (.error "Payment verification failed"))

/-- The storage key of line 160. -/
def storageFilename (walletAddress masterpieceId : String) : String :=
  "creations/" ++ walletAddress ++ "/" ++ masterpieceId ++ ".png"

/-- Lines 155-174: step 2, asset resolution. -/
def resolveAsset (cfg : Config) (w : World) (masterpieceId walletAddress : String)
    (imageUrl : JsField) : Prog Bytes :=
  if !imageUrl.truthy then do
    let filename := storageFilename walletAddress masterpieceId
    let found ← call (.fileExists cfg.bucketName filename) (w.fileExists cfg.bucketName filename)
    if !found then
      respond 404 (.error "Image not found in storage")
    else
      call (.fileDownload cfg.bucketName filename) (w.fileDownload cfg.bucketName filename)
  else
    call (.httpGet imageUrl.toStr) (w.httpGet imageUrl.toStr)

/-- Lines 202-230: the metadata document `nftMetadata`. -/
def nftMetadata (w : World) (req : MintRequest) (masterpieceId walletAddress : String)
    (imageIpfsUrl : String) : NftMetadata :=
  { name := (optField req.metadata (·.name)).orElse
      ("PIXLMIXR Masterpiece #" ++ slice8 masterpieceId)
    description := (optField req.metadata (·.description)).orElse
      "AI-generated art masterpiece created with PIXLMIXR"
    image := imageIpfsUrl
    attributes :=
      [ { trait_type := "Artist", value := walletAddress },
        { trait_type := "Creation Date", value := w.metadataDate },
        { trait_type := "High Resolution",
          value := if (req.metadata.map (·.highRes)).getD false then "Yes" else "No" } ]
      ++ (((req.metadata.bind (·.styles)).getD []).map
            fun style => { trait_type := "Style", value := style })
    properties :=
      { masterpieceId := masterpieceId
        createdWith := "PIXLMIXR"
        blockchain := "Base"
        paymentToken := if req.paymentTxHash.truthy then "DEGEN" else "FREE" } }

/-- What step 3 leaves in scope for the later steps. -/
structure Pinned where
  imageIpfsHash : String
  imageIpfsUrl : String
  nftMetadata : NftMetadata
  metadataIpfsHash : String
  tokenURI : String
  deriving DecidableEq, Repr

/-- The pinned image file of lines 180-184. -/
def imageFile (masterpieceId : String) (imageBuffer : Bytes) : PinFile :=
  .image imageBuffer (masterpieceId ++ ".png") "image/png"

/-- The pinned metadata file of lines 232-237. -/
def metadataFile (masterpieceId : String) (doc : NftMetadata) : PinFile :=
  .metadata doc (masterpieceId ++ "-metadata.json") "application/json"

/-- Lines 177-252: step 3, pinning the image and then the metadata document. -/
def pinToIpfs (cfg : Config) (w : World) (req : MintRequest)
    (masterpieceId walletAddress : String) (imageBuffer : Bytes) : Prog Pinned := do
  let authorization := "Bearer " ++ envTemplate cfg.PINATA_JWT
  let imageIpfsHash ← call
    (.pinFileToIPFS pinataEndpoint (imageFile masterpieceId imageBuffer) authorization)
    (w.pinFileToIPFS (imageFile masterpieceId imageBuffer) authorization)
  let imageIpfsUrl := pinataGateway ++ imageIpfsHash
  let doc := nftMetadata w req masterpieceId walletAddress imageIpfsUrl
  let metadataIpfsHash ← call
    (.pinFileToIPFS pinataEndpoint (metadataFile masterpieceId doc) authorization)
    (w.pinFileToIPFS (metadataFile masterpieceId doc) authorization)
  let tokenURI := pinataGateway ++ metadataIpfsHash
  pure { imageIpfsHash := imageIpfsHash, imageIpfsUrl := imageIpfsUrl, nftMetadata := doc,
         metadataIpfsHash := metadataIpfsHash, tokenURI := tokenURI }

/-- Line 262: the SDK strategy is selected. -/
def useThirdweb (cfg : Config) : Bool :=
  cfg.USE_THIRDWEB == some "true" && envTruthy cfg.THIRDWEB_SECRET_KEY

/-- Line 290: `estimatedGas * 120n / 100n`, in `BigInt` arithmetic. -/
def gasLimit (estimatedGas : Nat) : Nat := estimatedGas * 120 / 100

/-- Lines 309-317: the token id read from the confirmed receipt. -/
def tokenIdOf (cfg : Config) (w : World) (receipt : Receipt) : Prog String :=
  match receipt.logs.find? (emittedBy cfg.nftContractAddress) with
  | none => pure "unknown"
  | some mintEvent =>
    if mintEvent.topics.length > 3 then do
      let n ← lib (w.toBigInt (mintEvent.topics.getD 3 ""))
      pure (toString n)
    else
      pure "unknown"

/-- Lines 263-280: option 1, the SDK strategy. -/
def mintThirdweb (cfg : Config) (w : World) (walletAddress : String) (p : Pinned) :
    Prog (String × String) := do
  lib (w.sdkFromPrivateKey cfg.MINTER_PRIVATE_KEY cfg.THIRDWEB_SECRET_KEY)
  call (.sdkGetContract cfg.nftContractAddress) (w.sdkGetContract cfg.nftContractAddress)
  let metadata : SdkMetadata :=
    { name := p.nftMetadata.name, description := p.nftMetadata.description,
      image := p.imageIpfsUrl, attributes := p.nftMetadata.attributes }
  let tx ← call (.sdkMintTo walletAddress metadata) (w.sdkMintTo walletAddress metadata)
  pure (tx.1, toString tx.2)

/-- Lines 283-317: option 2, the direct strategy. -/
def mintDirect (cfg : Config) (w : World) (walletAddress : String) (p : Pinned) :
    Prog (String × String) := do
  lib (w.newWallet cfg.MINTER_PRIVATE_KEY)
  let estimatedGas ← call (.estimateGas cfg.nftContractAddress walletAddress p.tokenURI)
    (w.estimateGas cfg.nftContractAddress walletAddress p.tokenURI)
  let feeData ← call .getFeeData w.getFeeData
  let overrides : TxOverrides :=
    { gasLimit := gasLimit estimatedGas, maxFeePerGas := feeData.maxFeePerGas,
      maxPriorityFeePerGas := feeData.maxPriorityFeePerGas }
  let txHash ← call (.mintNFT cfg.nftContractAddress walletAddress p.tokenURI overrides)
    (w.mintNFT cfg.nftContractAddress walletAddress p.tokenURI overrides)
  let receipt ← call (.wait txHash 2) (w.wait txHash 2)
  let tokenId ← tokenIdOf cfg w receipt
  pure (receipt.hash, tokenId)

/-- Lines 260-332: step 4, minting, with its `catch`; gives `mintTxHash` and `tokenId`. -/
def mintStep (cfg : Config) (w : World) (walletAddress : String) (p : Pinned) :
    Prog (String × String) :=
  tryCatch
    (if useThirdweb cfg then mintThirdweb cfg w walletAddress p
     else mintDirect cfg w walletAddress p)
    (fun message => respond 500
      (.mintFailed "NFT minting failed" message
        { image := p.imageIpfsUrl, metadata := p.tokenURI }))

/-- Lines 336-360: step 5, the best-effort database update. -/
def updateDatabase (cfg : Config) (w : World) (masterpieceId mintTxHash tokenId : String)
    (p : Pinned) : Prog Unit :=
  if envTruthy cfg.CLOUDFLARE_D1_API_URL then
    let url := envTemplate cfg.CLOUDFLARE_D1_API_URL ++ "/update-mint"
    let body : UpdateMint :=
      { masterpieceId := masterpieceId, mintTxHash := mintTxHash, tokenId := tokenId,
        tokenURI := p.tokenURI, ipfsImageHash := p.imageIpfsHash,
        ipfsMetadataHash := p.metadataIpfsHash }
    let authorization := "Bearer " ++ envTemplate cfg.CLOUDFLARE_API_TOKEN
    tryCatch (call (.updateMint url body authorization) (w.updateMint url body authorization))
      (fun _ => pure ())
  else
    pure ()

/-- Lines 363-381: the success body. -/
def successResponse (cfg : Config) (w : World) (masterpieceId mintTxHash tokenId : String)
    (p : Pinned) : MintSuccess :=
  { success := true
    masterpieceId := masterpieceId
    transactionHash := mintTxHash
    tokenId := tokenId
    tokenURI := p.tokenURI
    ipfs := { imageUrl := p.imageIpfsUrl, imageHash := p.imageIpfsHash,
              metadataUrl := p.tokenURI, metadataHash := p.metadataIpfsHash }
    blockchain := { chain := "Base", contract := cfg.nftContractAddress,
                    explorer := "https://basescan.org/tx/" ++ mintTxHash }
    timestamp := w.responseDate }

/-- Lines 154-384: steps 2 to 5 and the success response. -/
def mintPipeline (cfg : Config) (w : World) (req : MintRequest)
    (masterpieceId walletAddress : String) : Prog Response := do
  let imageBuffer ← resolveAsset cfg w masterpieceId walletAddress req.imageUrl
  let p ← pinToIpfs cfg w req masterpieceId walletAddress imageBuffer
  let minted ← mintStep cfg w walletAddress p
  updateDatabase cfg w masterpieceId minted.1 minted.2 p
  pure { status := 200, body := .success (successResponse cfg w masterpieceId minted.1 minted.2 p) }

/-- Lines 88-384: the body of the outer `try` block. -/
def postMintTry (cfg : Config) (w : World) (req : MintRequest) : Prog Response :=
  if !req.masterpieceId.truthy || !req.walletAddress.truthy then
    respond 400 (.error "Missing required fields")
  else do
    if req.paymentTxHash.truthy then
      verifyPayment cfg w req.paymentTxHash.toStr
    mintPipeline cfg w req req.masterpieceId.toStr req.walletAddress.toStr

/-- Lines 84-394: the handler `app.post('/mint', ...)`, as the trace of external calls and
the response sent. -/
def postMint (cfg : Config) (w : World) (req : MintRequest) : List Call × Response :=
  match postMintTry cfg w req with
  | (calls, .next r) => (calls, r)
  | (calls, .respond r) => (calls, r)
  | (calls, .raise message) =>
    (calls, { status := 500,
              body := .serviceError "Minting failed" message "minting-service" })

/-! ## `POST /mint` of `minting-service-minimal/index.js` -/

/-- The request body fields the minimal service reads. -/
structure MinimalRequest where
  masterpieceId : JsField
  walletAddress : JsField
  deriving DecidableEq, Repr

/-- The mock body `mockResponse`. -/
structure MockResponse where
  success : Bool
  masterpieceId : String
  walletAddress : String
  transactionHash : String
  tokenId : String
  message : String
  timestamp : String
  deriving DecidableEq, Repr

inductive MinimalBody where
  | error (error : String) (message : String)
  | mock (r : MockResponse)
  deriving DecidableEq, Repr

structure MinimalResponse where
  status : Nat
  body : MinimalBody
  deriving DecidableEq, Repr

/-- What the minimal handler draws from the runtime: the two `Math.random()` renderings
and the clock. -/
structure MinimalWorld where
  /-- The value `Math.random().toString(36).substring(2, 15)`. -/
  randomBase36 : String
  /-- The value `Math.floor(Math.random() * 10000)`. -/
  randomToken : Nat
  timestamp : String

/-- Lines 28-63 of the minimal service.  The handler has no external call at all, so its
trace is always empty. -/
def postMintMinimal (w : MinimalWorld) (req : MinimalRequest) : List Call × MinimalResponse :=
  if !req.masterpieceId.truthy || !req.walletAddress.truthy then
    ([], { status := 400,
           body := .error "Missing required fields"
             "masterpieceId and walletAddress are required" })
  else
    ([], { status := 200,
           body := .mock
             { success := true
               masterpieceId := req.masterpieceId.toStr
               walletAddress := req.walletAddress.toStr
               transactionHash := "0x" ++ w.randomBase36
               tokenId := toString w.randomToken
               message := "Minting service is running in minimal mode - this is a mock response"
               timestamp := w.timestamp } })

/-! ## Auxiliary definitions for the statements -/

/-- The pipeline stage an external call belongs to. -/
inductive Stage where
  | payment
  | asset
  | pin
  | mint
  | report
  deriving DecidableEq, Repr

def Call.stage : Call → Stage
  | .getTransaction _ => .payment
  | .getTransactionReceipt _ => .payment
  | .fileExists _ _ => .asset
  | .fileDownload _ _ => .asset
  | .httpGet _ => .asset
  | .pinFileToIPFS _ _ _ => .pin
  | .sdkGetContract _ => .mint
  | .sdkMintTo _ _ => .mint
  | .estimateGas _ _ _ => .mint
  | .getFeeData => .mint
  | .mintNFT _ _ _ _ => .mint
  | .wait _ _ => .mint
  | .updateMint _ _ _ => .report

/-- The response of a failed payment check. -/
def paymentError (error : String) : Step Unit := .respond { status := 400, body := .error error }

/-- The outcome of the checks on a decoded transfer (lines 137-147). -/
def decodedOutcome (cfg : Config) (args : TransferArgs) : Step Unit :=
  if args.value < expectedAmount then paymentError "Insufficient payment amount"
  else match cfg.TREASURY_WALLET_ADDRESS with
    | none => paymentError "Payment verification failed"
    | some treasury =>
      if toLowerCase args.toAddr = toLowerCase treasury then .next ()
      else paymentError "Payment not sent to treasury"

/-- The `Authorization` header of the pinning uploads. -/
def pinataAuthorization (cfg : Config) : String := "Bearer " ++ envTemplate cfg.PINATA_JWT

/-- The image upload of lines 186-195. -/
def imagePinCall (cfg : Config) (masterpieceId : String) (imageBuffer : Bytes) : Call :=
  .pinFileToIPFS pinataEndpoint (imageFile masterpieceId imageBuffer) (pinataAuthorization cfg)

/-- The metadata upload of lines 239-248, for the image identifier `imageIpfsHash`. -/
def metadataPinCall (cfg : Config) (w : World) (req : MintRequest)
    (masterpieceId walletAddress : String) (imageIpfsHash : String) : Call :=
  .pinFileToIPFS pinataEndpoint
    (metadataFile masterpieceId
      (nftMetadata w req masterpieceId walletAddress (pinataGateway ++ imageIpfsHash)))
    (pinataAuthorization cfg)

/-- The strategy block selected by line 262. -/
def mintStrategy (cfg : Config) (w : World) (walletAddress : String) (p : Pinned) :
    Prog (String × String) :=
  if useThirdweb cfg then mintThirdweb cfg w walletAddress p
  else mintDirect cfg w walletAddress p

/-- The response of the `catch` of step 4. -/
def mintFailure (p : Pinned) (message : String) : Response :=
  { status := 500,
    body := .mintFailed "NFT minting failed" message
      { image := p.imageIpfsUrl, metadata := p.tokenURI } }

/-- The end of the handler (lines 384-393): a finished `try` block sends its response, and
the outer `catch` turns a thrown error into the 500 response. -/
def sendResponse (p : Prog Response) : List Call × Response :=
  match p with
  | (calls, .next r) => (calls, r)
  | (calls, .respond r) => (calls, r)
  | (calls, .raise message) =>
    (calls, { status := 500,
              body := .serviceError "Minting failed" message "minting-service" })

/-- Lines 98: the request passes the required-field validation. -/
def validRequest (req : MintRequest) : Bool :=
  req.masterpieceId.truthy && req.walletAddress.truthy

/-! ## Concrete runs -/

/-- A configuration of the direct strategy with a treasury address in upper-case hex. -/
def demoConfig : Config :=
  { GCS_BUCKET_NAME := none
    NFT_CONTRACT_ADDRESS := some "0xNFT0000000000000000000000000000000000001"
    TREASURY_WALLET_ADDRESS := some "0xABC0000000000000000000000000000000000002"
    PINATA_JWT := some "jwt"
    USE_THIRDWEB := none
    THIRDWEB_SECRET_KEY := none
    MINTER_PRIVATE_KEY := some "key"
    CLOUDFLARE_D1_API_URL := some "https://d1.example"
    CLOUDFLARE_API_TOKEN := some "token" }

/-- The same configuration with `TREASURY_WALLET_ADDRESS` unset. -/
def noTreasuryConfig : Config := { demoConfig with TREASURY_WALLET_ADDRESS := none }

/-- A transfer log of the payment token. -/
def demoTransferLog (data : String) : Log :=
  { address := "0x4ed4e862860bed51a9570b96d89af5e1b0efefed", topics := ["0xddf252ad"], data := data }

/-- A world in which every call succeeds.  The payment receipt holds the logs `paymentLogs`,
and a log decodes to a transfer to the lower-case treasury address whose amount is
`amountOf data`. -/
def demoWorld (paymentLogs : List Log) (amountOf : String → Nat) (estimatedGas : Nat) : World :=
  { getTransaction := fun _ => .ok (some ())
    getTransactionReceipt := fun hash => .ok (some { hash := hash, logs := paymentLogs })
    parseLog := fun _ data =>
      .ok (some { src := "0x1110000000000000000000000000000000000003",
                  toAddr := "0xabc0000000000000000000000000000000000002",
                  value := amountOf data })
    fileExists := fun _ _ => .ok true
    fileDownload := fun _ _ => .ok [137, 80, 78, 71]
    httpGet := fun _ => .ok [137, 80, 78, 71]
    pinFileToIPFS := fun file _ =>
      match file with
      | .image _ _ _ => .ok "QmImage"
      | .metadata _ _ _ => .ok "QmMeta"
    sdkFromPrivateKey := fun _ _ => .ok ()
    sdkGetContract := fun _ => .ok ()
    sdkMintTo := fun _ _ => .ok ("0xsdk", 7)
    newWallet := fun _ => .ok ()
    estimateGas := fun _ _ _ => .ok estimatedGas
    getFeeData := .ok { maxFeePerGas := some 5, maxPriorityFeePerGas := some 1 }
    mintNFT := fun _ _ _ _ => .ok "0xmint"
    wait := fun txHash _ => .ok { hash := txHash, logs := [] }
    toBigInt := fun _ => .ok 42
    updateMint := fun _ _ _ => .error "persistence service unreachable"
    metadataDate := "2025-01-01T00:00:00.000Z"
    responseDate := "2025-01-01T00:00:30.000Z" }

/-- The amount a demo log carries: `exact` is the required amount, `short` one unit less. -/
def demoAmount (data : String) : Nat :=
  if data = "short" then 10 ^ 19 - 1 else 10 ^ 19

/-- A world whose payment receipt holds one transfer log of the given data. -/
def paidWorld (data : String) : World := demoWorld [demoTransferLog data] demoAmount 21001

/-- A request that pays and leaves the image to the object store. -/
def paidRequest : MintRequest :=
  { masterpieceId := .str "abc123", walletAddress := .str "0xOwner",
    paymentTxHash := .str "0xpay", imageUrl := .undefined, metadata := none }

/-- The free mint of the end-to-end test: `paymentTxHash: null`. -/
def freeRequest : MintRequest :=
  { masterpieceId := .str "abc123", walletAddress := .str "0xOwner",
    paymentTxHash := .null, imageUrl := .undefined,
    metadata := some { name := .str "Test NFT", description := .str "Test minting",
                       highRes := false, styles := none } }

def demoMinimalWorld : MinimalWorld :=
  { randomBase36 := "4fzyo82mvyr", randomToken := 4711, timestamp := "2025-01-01T00:00:00.000Z" }

/-- A world whose payment receipt holds two payment-token logs: the first carries the
full amount, the second one unit less. -/
def twoLogsWorld : World :=
  demoWorld [demoTransferLog "exact", demoTransferLog "short"] demoAmount 21001

/-- The gas limit as the specification words it: `ceil(estimatedGas * 1.2)`. -/
def specGasLimit (estimatedGas : Nat) : Int := ⌈(estimatedGas : ℚ) * 12 / 10⌉

/-- Whether a call reads the object store. -/
def Call.isObjectStore : Call → Bool
  | .fileExists _ _ => true
  | .fileDownload _ _ => true
  | _ => false

/-- Whether a call fetches the image URL of the request. -/
def Call.isUrlFetch : Call → Bool
  | .httpGet _ => true
  | _ => false

/-- A log emitted by the NFT contract of `demoConfig`, in lower-case hex. -/
def demoNftLog (topics : List String) : Log :=
  { address := "0xnft0000000000000000000000000000000000001", topics := topics, data := "0x" }

/-- The demo world with the given logs in the confirmed mint receipt. -/
def mintedWorld (mintLogs : List Log) : World :=
  { paidWorld "exact" with wait := fun txHash _ => .ok { hash := txHash, logs := mintLogs } }

/-- The demo world with a gas estimation that reverts. -/
def revertingWorld : World :=
  { paidWorld "exact" with estimateGas := fun _ _ _ => .error "execution reverted" }

/-- What step 3 leaves in scope in a free mint of the demo world. -/
def demoPinned : Pinned :=
  { imageIpfsHash := "QmImage"
    imageIpfsUrl := "https://gateway.pinata.cloud/ipfs/QmImage"
    nftMetadata := nftMetadata (paidWorld "exact") freeRequest "abc123" "0xOwner"
      "https://gateway.pinata.cloud/ipfs/QmImage"
    metadataIpfsHash := "QmMeta"
    tokenURI := "https://gateway.pinata.cloud/ipfs/QmMeta" }

/-- The demo world with a metadata upload that the pinning service rejects. -/
def metadataPinFailsWorld : World :=
  { paidWorld "exact" with
    pinFileToIPFS := fun file _ =>
      match file with
      | .image _ _ _ => .ok "QmImage"
      | .metadata _ _ _ => .error "Request failed with status code 500" }

/-- The string fields of a response body. -/
def Body.strings : Body → List String
  | .error e => [e]
  | .mintFailed e m d => [e, m, d.image, d.metadata]
  | .serviceError e m s => [e, m, s]
  | .success r =>
    [r.masterpieceId, r.transactionHash, r.tokenId, r.tokenURI, r.ipfs.imageUrl,
      r.ipfs.imageHash, r.ipfs.metadataUrl, r.ipfs.metadataHash, r.blockchain.chain,
      r.blockchain.contract, r.blockchain.explorer, r.timestamp]

/-- The field `ipfsData` of an error body. -/
def Body.ipfsData : Body → Option IpfsData
  | .mintFailed _ _ d => some d
  | _ => none

/-- The position of a call in the stage order of the handler: payment verification, asset
resolution, image pin, metadata pin, mint, reporter. -/
def Call.rank : Call → Nat
  | .getTransaction _ => 0
  | .getTransactionReceipt _ => 0
  | .fileExists _ _ => 1
  | .fileDownload _ _ => 1
  | .httpGet _ => 1
  | .pinFileToIPFS _ (.image _ _ _) _ => 2
  | .pinFileToIPFS _ (.metadata _ _ _) _ => 3
  | .sdkGetContract _ => 4
  | .sdkMintTo _ _ => 4
  | .estimateGas _ _ _ => 4
  | .getFeeData => 4
  | .mintNFT _ _ _ _ => 4
  | .wait _ _ => 4
  | .updateMint _ _ _ => 5

/-- The handler after a successful mint: step 5 and the success response. -/
def afterMint (cfg : Config) (w : World) (masterpieceId : String) (p : Pinned)
    (minted : String × String) : Prog Response :=
  Prog.bind (updateDatabase cfg w masterpieceId minted.1 minted.2 p) fun _ =>
    ([], .next { status := 200,
                 body := .success (successResponse cfg w masterpieceId minted.1 minted.2 p) })

/-- The handler after both uploads: steps 4 and 5 and the success response. -/
def afterPin (cfg : Config) (w : World) (masterpieceId walletAddress : String) (p : Pinned) :
    Prog Response :=
  Prog.bind (mintStep cfg w walletAddress p) (afterMint cfg w masterpieceId p)

/-- The handler after asset resolution: steps 3 to 5 and the success response. -/
def afterAsset (cfg : Config) (w : World) (req : MintRequest)
    (masterpieceId walletAddress : String) (imageBuffer : Bytes) : Prog Response :=
  Prog.bind (pinToIpfs cfg w req masterpieceId walletAddress imageBuffer)
    (afterPin cfg w masterpieceId walletAddress)

/-- Whether a call belongs to the SDK strategy. -/
def Call.isSdk : Call → Bool
  | .sdkGetContract _ => true
  | .sdkMintTo _ _ => true
  | _ => false

/-- Whether a call belongs to the direct strategy: gas estimation, fee lookup, the contract
transaction and the wait for its confirmations. -/
def Call.isDirect : Call → Bool
  | .estimateGas _ _ _ => true
  | .getFeeData => true
  | .mintNFT _ _ _ _ => true
  | .wait _ _ => true
  | _ => false

/-- The token URI a call of the minting step hands to the chain, when it hands one. -/
def Call.tokenURI : Call → Option String
  | .estimateGas _ _ tokenURI => some tokenURI
  | .mintNFT _ _ tokenURI _ => some tokenURI
  | _ => none

/-- The demo configuration with the SDK strategy selected. -/
def sdkConfig : Config :=
  { demoConfig with USE_THIRDWEB := some "true", THIRDWEB_SECRET_KEY := some "secret" }

/-- The SDK configuration with `TREASURY_WALLET_ADDRESS` unset. -/
def sdkNoTreasuryConfig : Config := { sdkConfig with TREASURY_WALLET_ADDRESS := none }

/-! ## The fallback gradient of the creation services -/

/-- The image size of the gradient: `highRes ? 1920 : 1024` by `highRes ? 1080 : 1024`. -/
def gradientSize (highRes : Bool) : Nat × Nat :=
  (if highRes then 1920 else 1024, if highRes then 1080 else 1024)

/-- The value `(x / width + y / height) / 2`, as an exact rational. -/
def gradientFactor (width height x y : Nat) : ℚ :=
  ((x : ℚ) / width + (y : ℚ) / height) / 2

/-- The colour channels handed to `Jimp.rgbaToInt`. -/
structure Channels where
  r : Int
  g : Int
  b : Int
  deriving DecidableEq, Repr

/-- Lines 198-201 of `creation-service/src/index.js` (and lines 21-24 of `test-jimp.js`):
the channels of the pixel `(x, y)`; `Math.floor` is the integer floor. -/
def creationChannels (width height x y : Nat) : Channels :=
  let gradientFactor := gradientFactor width height x y
  { r := ⌊147 + (255 - 147) * gradientFactor⌋
    g := ⌊51 + (100 - 51) * gradientFactor⌋
    b := ⌊234 - (234 - 180) * gradientFactor⌋ }

/-- Lines 62-65 of `creation-service-cors-fix/index.js`: the channels computed at
`(x, y)`. -/
def corsFixChannels (width height x y : Nat) : Channels :=
  let gradientFactor := gradientFactor width height x y
  { r := ⌊147 + 108 * gradientFactor⌋
    g := ⌊51 + 49 * gradientFactor⌋
    b := ⌊234 - 54 * gradientFactor⌋ }

/-- A call `image.setPixelColor(color, x, y)`; the colour is kept as the channels it was
packed from. -/
structure PixelWrite where
  color : Channels
  x : Nat
  y : Nat
  deriving DecidableEq, Repr

/-- The statement `for (let i = start; cond(i); i += step) body(i)` as the list of the
writes it makes in order.  `fuel` bounds the number of iterations; the loops below are
given a bound their condition reaches first. -/
def forLoop (cond : Nat → Bool) (step : Nat) (body : Nat → List PixelWrite) :
    Nat → Nat → List PixelWrite
  | 0, _ => []
  | fuel + 1, i =>
    if cond i then body i ++ forLoop cond step body fuel (i + step) else []

/-- Lines 69-73 of `creation-service-cors-fix/index.js`: the two inner loops, which fill
the block of origin `(x, y)` with `color`. -/
def fillBlock (width height : Nat) (color : Channels) (x y : Nat) : List PixelWrite :=
  forLoop (fun dy => decide (dy < 10) && decide (y + dy < height)) 1
    (fun dy =>
      forLoop (fun dx => decide (dx < 10) && decide (x + dx < width)) 1
        (fun dx => [{ color := color, x := x + dx, y := y + dy }]) 10 0)
    10 0

/-- Lines 59-75 of `creation-service-cors-fix/index.js`: the gradient loop, as the list of
pixel writes of a `width` by `height` image. -/
def gradientWrites (width height : Nat) : List PixelWrite :=
  forLoop (fun y => decide (y < height)) 10
    (fun y =>
      forLoop (fun x => decide (x < width)) 10
        (fun x => fillBlock width height (corsFixChannels width height x y) x y) width 0)
    height 0

/-! # Theorems -/

/-! ## Normal forms of the payment step -/

theorem Prog.bind_eq {α β : Type} (p : Prog α) (f : α → Prog β) :
    (p >>= f) = Prog.bind p f := rfl

theorem Prog.pure_eq {α : Type} (a : α) : (pure a : Prog α) = ([], .next a) := rfl

theorem verifyPayment_tx_error (cfg : Config) (w : World) (hash e : String)
    (htx : w.getTransaction hash = .error e) :
    verifyPayment cfg w hash =
      ([.getTransaction hash], paymentError "Payment verification failed") := by
  simp [verifyPayment, verifyPaymentTry, Prog.bind_eq, Prog.bind, call, respond, tryCatch,
    htx, paymentError]

theorem verifyPayment_tx_null (cfg : Config) (w : World) (hash : String)
    (htx : w.getTransaction hash = .ok none) :
    verifyPayment cfg w hash =
      ([.getTransaction hash], paymentError "Payment transaction not found") := by
  simp [verifyPayment, verifyPaymentTry, Prog.bind_eq, Prog.bind, call, respond, tryCatch,
    htx, paymentError]

theorem verifyPayment_receipt_error (cfg : Config) (w : World) (hash e : String) (tx : Unit)
    (htx : w.getTransaction hash = .ok (some tx))
    (hrc : w.getTransactionReceipt hash = .error e) :
    verifyPayment cfg w hash =
      ([.getTransaction hash, .getTransactionReceipt hash],
        paymentError "Payment verification failed") := by
  simp [verifyPayment, verifyPaymentTry, Prog.bind_eq, Prog.bind, call, respond, tryCatch,
    htx, hrc, paymentError]

theorem verifyPayment_receipt_null (cfg : Config) (w : World) (hash : String) (tx : Unit)
    (htx : w.getTransaction hash = .ok (some tx))
    (hrc : w.getTransactionReceipt hash = .ok none) :
    verifyPayment cfg w hash =
      ([.getTransaction hash, .getTransactionReceipt hash],
        paymentError "Payment verification failed") := by
  simp [verifyPayment, verifyPaymentTry, Prog.bind_eq, Prog.bind, call, respond, raise,
    tryCatch, htx, hrc, paymentError]

theorem verifyPayment_no_log (cfg : Config) (w : World) (hash : String) (tx : Unit)
    (receipt : Receipt)
    (htx : w.getTransaction hash = .ok (some tx))
    (hrc : w.getTransactionReceipt hash = .ok (some receipt))
    (hlog : receipt.logs.find? (emittedBy DEGEN_TOKEN_ADDRESS) = none) :
    verifyPayment cfg w hash =
      ([.getTransaction hash, .getTransactionReceipt hash],
        paymentError "Invalid payment transaction") := by
  simp only [verifyPayment, verifyPaymentTry, Prog.bind_eq, Prog.bind, call, respond, raise,
    tryCatch, htx, hrc, hlog, paymentError]
  simp

theorem verifyPayment_decode_error (cfg : Config) (w : World) (hash e : String) (tx : Unit)
    (receipt : Receipt) (ev : Log)
    (htx : w.getTransaction hash = .ok (some tx))
    (hrc : w.getTransactionReceipt hash = .ok (some receipt))
    (hlog : receipt.logs.find? (emittedBy DEGEN_TOKEN_ADDRESS) = some ev)
    (hdec : w.parseLog ev.topics ev.data = .error e) :
    verifyPayment cfg w hash =
      ([.getTransaction hash, .getTransactionReceipt hash],
        paymentError "Payment verification failed") := by
  simp only [verifyPayment, verifyPaymentTry, Prog.bind_eq, Prog.bind, call, lib, respond,
    raise, tryCatch, htx, hrc, hlog, hdec, paymentError]
  simp

theorem verifyPayment_decode_null (cfg : Config) (w : World) (hash : String) (tx : Unit)
    (receipt : Receipt) (ev : Log)
    (htx : w.getTransaction hash = .ok (some tx))
    (hrc : w.getTransactionReceipt hash = .ok (some receipt))
    (hlog : receipt.logs.find? (emittedBy DEGEN_TOKEN_ADDRESS) = some ev)
    (hdec : w.parseLog ev.topics ev.data = .ok none) :
    verifyPayment cfg w hash =
      ([.getTransaction hash, .getTransactionReceipt hash],
        paymentError "Payment verification failed") := by
  simp only [verifyPayment, verifyPaymentTry, Prog.bind_eq, Prog.bind, call, lib, respond,
    raise, tryCatch, htx, hrc, hlog, hdec, paymentError]
  simp

/-- Once the first payment-token log is decoded, the step is the two lookups followed by
the amount and recipient checks. -/
theorem verifyPayment_decoded (cfg : Config) (w : World) (hash : String) (tx : Unit)
    (receipt : Receipt) (ev : Log) (args : TransferArgs)
    (htx : w.getTransaction hash = .ok (some tx))
    (hrc : w.getTransactionReceipt hash = .ok (some receipt))
    (hlog : receipt.logs.find? (emittedBy DEGEN_TOKEN_ADDRESS) = some ev)
    (hdec : w.parseLog ev.topics ev.data = .ok (some args)) :
    verifyPayment cfg w hash =
      ([.getTransaction hash, .getTransactionReceipt hash], decodedOutcome cfg args) := by
  simp only [verifyPayment, verifyPaymentTry, Prog.bind_eq, Prog.bind, call, lib, respond,
    raise, tryCatch, htx, hrc, hlog, hdec, paymentError, decodedOutcome]
  by_cases hlt : args.value < expectedAmount
  · simp [hlt]
  · cases htre : cfg.TREASURY_WALLET_ADDRESS with
    | none => simp [hlt]
    | some t =>
      by_cases hto : toLowerCase args.toAddr = toLowerCase t
      · simp [hlt, hto, Prog.pure_eq]
      · simp [hlt, hto]

/-! ## Traces of composed blocks -/

theorem Prog.mem_bind {α β : Type} (p : Prog α) (f : α → Prog β) (c : Call)
    (h : c ∈ (Prog.bind p f).1) : c ∈ p.1 ∨ ∃ a, p.2 = .next a ∧ c ∈ (f a).1 := by
  obtain ⟨t, s⟩ := p
  cases s with
  | next a =>
    simp only [Prog.bind, List.mem_append] at h
    rcases h with h | h
    · exact Or.inl h
    · exact Or.inr ⟨a, rfl, h⟩
  | respond r => exact Or.inl (by simpa [Prog.bind] using h)
  | raise e => exact Or.inl (by simpa [Prog.bind] using h)

theorem mem_tryCatch_respond {α : Type} (p : Prog α) (r : String → Response) (c : Call)
    (h : c ∈ (tryCatch p (fun e => ([], .respond (r e)))).1) : c ∈ p.1 := by
  obtain ⟨t, s⟩ := p
  cases s <;> simpa [tryCatch] using h

theorem postMintTry_eq (cfg : Config) (w : World) (req : MintRequest) :
    postMintTry cfg w req =
      if (!req.masterpieceId.truthy || !req.walletAddress.truthy) = true then
        respond 400 (.error "Missing required fields")
      else
        Prog.bind (if req.paymentTxHash.truthy = true then
            verifyPayment cfg w req.paymentTxHash.toStr else ([], .next ()))
          (fun _ => mintPipeline cfg w req req.masterpieceId.toStr req.walletAddress.toStr) := by
  unfold postMintTry
  split
  · rfl
  · split <;> rfl

theorem verifyPayment_cases (cfg : Config) (w : World) (hash : String) :
    ∃ calls step, verifyPayment cfg w hash = (calls, step) ∧
      (∀ c ∈ calls, c = .getTransaction hash ∨ c = .getTransactionReceipt hash) ∧
      (step = .next () ∨ ∃ e, step = paymentError e) := by
  cases htx : w.getTransaction hash with
  | error e => exact ⟨_, _, verifyPayment_tx_error cfg w hash e htx, by simp, Or.inr ⟨_, rfl⟩⟩
  | ok tx =>
    cases tx with
    | none => exact ⟨_, _, verifyPayment_tx_null cfg w hash htx, by simp, Or.inr ⟨_, rfl⟩⟩
    | some tx =>
      cases hrc : w.getTransactionReceipt hash with
      | error e =>
        exact ⟨_, _, verifyPayment_receipt_error cfg w hash e tx htx hrc, by simp, Or.inr ⟨_, rfl⟩⟩
      | ok rc =>
        cases rc with
        | none =>
          exact ⟨_, _, verifyPayment_receipt_null cfg w hash tx htx hrc, by simp, Or.inr ⟨_, rfl⟩⟩
        | some receipt =>
          cases hlog : receipt.logs.find? (emittedBy DEGEN_TOKEN_ADDRESS) with
          | none =>
            exact ⟨_, _, verifyPayment_no_log cfg w hash tx receipt htx hrc hlog, by simp,
              Or.inr ⟨_, rfl⟩⟩
          | some ev =>
            cases hdec : w.parseLog ev.topics ev.data with
            | error e =>
              exact ⟨_, _, verifyPayment_decode_error cfg w hash e tx receipt ev htx hrc hlog hdec,
                by simp, Or.inr ⟨_, rfl⟩⟩
            | ok d =>
              cases d with
              | none =>
                exact ⟨_, _, verifyPayment_decode_null cfg w hash tx receipt ev htx hrc hlog hdec,
                  by simp, Or.inr ⟨_, rfl⟩⟩
              | some args =>
                refine ⟨_, _, verifyPayment_decoded cfg w hash tx receipt ev args htx hrc hlog hdec,
                  by simp, ?_⟩
                unfold decodedOutcome
                split
                · exact Or.inr ⟨_, rfl⟩
                · split
                  · exact Or.inr ⟨_, rfl⟩
                  · split
                    · exact Or.inl rfl
                    · exact Or.inr ⟨_, rfl⟩

theorem Prog.bind_next {α β : Type} (p : Prog α) (f : α → Prog β) (a : α)
    (h : p.2 = .next a) : Prog.bind p f = (p.1 ++ (f a).1, (f a).2) := by
  simp [Prog.bind, h]

theorem Prog.bind_respond {α β : Type} (p : Prog α) (f : α → Prog β) (r : Response)
    (h : p.2 = .respond r) : Prog.bind p f = (p.1, .respond r) := by
  simp [Prog.bind, h]

theorem Prog.bind_raise {α β : Type} (p : Prog α) (f : α → Prog β) (e : String)
    (h : p.2 = .raise e) : Prog.bind p f = (p.1, .raise e) := by
  simp [Prog.bind, h]

theorem Prog.bind_eq_next {α β : Type} (p : Prog α) (f : α → Prog β) (b : β)
    (h : (Prog.bind p f).2 = .next b) : ∃ a, p.2 = .next a ∧ (f a).2 = .next b := by
  obtain ⟨t, s⟩ := p
  cases s with
  | next a => exact ⟨a, rfl, by simpa [Prog.bind] using h⟩
  | respond r => simp [Prog.bind] at h
  | raise e => simp [Prog.bind] at h

theorem Prog.bind_eq_respond {α β : Type} (p : Prog α) (f : α → Prog β) (r : Response)
    (h : (Prog.bind p f).2 = .respond r) :
    p.2 = .respond r ∨ ∃ a, p.2 = .next a ∧ (f a).2 = .respond r := by
  obtain ⟨t, s⟩ := p
  cases s with
  | next a => exact Or.inr ⟨a, rfl, by simpa [Prog.bind] using h⟩
  | respond r' => exact Or.inl (by simpa [Prog.bind] using h)
  | raise e => simp [Prog.bind] at h

theorem mintPipeline_eq (cfg : Config) (w : World) (req : MintRequest)
    (masterpieceId walletAddress : String) :
    mintPipeline cfg w req masterpieceId walletAddress =
      Prog.bind (resolveAsset cfg w masterpieceId walletAddress req.imageUrl) fun imageBuffer =>
      Prog.bind (pinToIpfs cfg w req masterpieceId walletAddress imageBuffer) fun p =>
      Prog.bind (mintStep cfg w walletAddress p) fun minted =>
      Prog.bind (updateDatabase cfg w masterpieceId minted.1 minted.2 p) fun _ =>
        ([], .next { status := 200,
                     body := .success (successResponse cfg w masterpieceId minted.1 minted.2 p) }) :=
  rfl

/-! ### Step 2 -/

theorem resolveAsset_url (cfg : Config) (w : World) (m a : String) (imageUrl : JsField)
    (h : imageUrl.truthy = true) :
    resolveAsset cfg w m a imageUrl = call (.httpGet imageUrl.toStr) (w.httpGet imageUrl.toStr) := by
  simp [resolveAsset, h]

theorem resolveAsset_storage (cfg : Config) (w : World) (m a : String) (imageUrl : JsField)
    (h : imageUrl.truthy = false) :
    resolveAsset cfg w m a imageUrl =
      match w.fileExists cfg.bucketName (storageFilename a m) with
      | .error e => ([.fileExists cfg.bucketName (storageFilename a m)], .raise e)
      | .ok false => ([.fileExists cfg.bucketName (storageFilename a m)],
          .respond { status := 404, body := .error "Image not found in storage" })
      | .ok true =>
        match w.fileDownload cfg.bucketName (storageFilename a m) with
        | .error e => ([.fileExists cfg.bucketName (storageFilename a m),
            .fileDownload cfg.bucketName (storageFilename a m)], .raise e)
        | .ok buffer => ([.fileExists cfg.bucketName (storageFilename a m),
            .fileDownload cfg.bucketName (storageFilename a m)], .next buffer) := by
  simp only [resolveAsset, h, Prog.bind_eq, Prog.bind, call, respond]
  cases w.fileExists cfg.bucketName (storageFilename a m) with
  | error e => simp
  | ok b =>
    cases b with
    | false => simp
    | true =>
      cases w.fileDownload cfg.bucketName (storageFilename a m) <;> simp

theorem mem_resolveAsset (cfg : Config) (w : World) (m a : String) (imageUrl : JsField)
    (c : Call) (h : c ∈ (resolveAsset cfg w m a imageUrl).1) :
    (imageUrl.truthy = false ∧ (c = .fileExists cfg.bucketName (storageFilename a m) ∨
        c = .fileDownload cfg.bucketName (storageFilename a m))) ∨
    (imageUrl.truthy = true ∧ c = .httpGet imageUrl.toStr) := by
  cases hu : imageUrl.truthy with
  | true =>
    rw [resolveAsset_url cfg w m a imageUrl hu] at h
    right
    refine ⟨rfl, ?_⟩
    cases hg : w.httpGet imageUrl.toStr <;> simpa [call, hg] using h
  | false =>
    rw [resolveAsset_storage cfg w m a imageUrl hu] at h
    left
    refine ⟨rfl, ?_⟩
    cases he : w.fileExists cfg.bucketName (storageFilename a m) with
    | error e => simp [he] at h; exact Or.inl h
    | ok b =>
      cases b with
      | false => simp [he] at h; exact Or.inl h
      | true =>
        cases hd : w.fileDownload cfg.bucketName (storageFilename a m) <;>
          simpa [he, hd] using h

theorem resolveAsset_respond (cfg : Config) (w : World) (m a : String) (imageUrl : JsField)
    (r : Response) (h : (resolveAsset cfg w m a imageUrl).2 = .respond r) :
    r = { status := 404, body := .error "Image not found in storage" } ∧
      imageUrl.truthy = false ∧
      w.fileExists cfg.bucketName (storageFilename a m) = .ok false ∧
      (resolveAsset cfg w m a imageUrl).1 = [.fileExists cfg.bucketName (storageFilename a m)] := by
  cases hu : imageUrl.truthy with
  | true =>
    rw [resolveAsset_url cfg w m a imageUrl hu] at h
    cases hg : w.httpGet imageUrl.toStr <;> simp [call, hg] at h
  | false =>
    rw [resolveAsset_storage cfg w m a imageUrl hu] at h ⊢
    cases he : w.fileExists cfg.bucketName (storageFilename a m) with
    | error e => simp [he] at h
    | ok b =>
      cases b with
      | false => simp [he] at h ⊢; exact h.symm
      | true =>
        cases hd : w.fileDownload cfg.bucketName (storageFilename a m) <;> simp [he, hd] at h

theorem mem_call {α : Type} (c c' : Call) (o : Except String α) (h : c' ∈ (call c o).1) :
    c' = c := by
  cases o <;> simpa [call] using h

theorem call_next {α : Type} (c : Call) (o : Except String α) (a : α)
    (h : (call c o).2 = .next a) : o = .ok a := by
  cases o with
  | error e => simp [call] at h
  | ok b => simp [call] at h; rw [h]

theorem call_not_respond {α : Type} (c : Call) (o : Except String α) (r : Response) :
    (call c o).2 ≠ .respond r := by
  cases o <;> simp [call]

theorem lib_calls {α : Type} (o : Except String α) : (lib o).1 = [] := by
  cases o <;> rfl

theorem lib_next {α : Type} (o : Except String α) (a : α)
    (h : (lib o).2 = .next a) : o = .ok a := by
  cases o with
  | error e => simp [lib] at h
  | ok b => simp [lib] at h; rw [h]

theorem lib_not_respond {α : Type} (o : Except String α) (r : Response) :
    (lib o).2 ≠ .respond r := by
  cases o <;> simp [lib]

/-! ### Step 3 -/

theorem pinToIpfs_eq (cfg : Config) (w : World) (req : MintRequest) (m a : String)
    (buf : Bytes) :
    pinToIpfs cfg w req m a buf =
      match w.pinFileToIPFS (imageFile m buf) (pinataAuthorization cfg) with
      | .error e => ([imagePinCall cfg m buf], .raise e)
      | .ok imageIpfsHash =>
        match w.pinFileToIPFS
            (metadataFile m (nftMetadata w req m a (pinataGateway ++ imageIpfsHash)))
            (pinataAuthorization cfg) with
        | .error e =>
          ([imagePinCall cfg m buf, metadataPinCall cfg w req m a imageIpfsHash], .raise e)
        | .ok metadataIpfsHash =>
          ([imagePinCall cfg m buf, metadataPinCall cfg w req m a imageIpfsHash],
            .next { imageIpfsHash := imageIpfsHash
                    imageIpfsUrl := pinataGateway ++ imageIpfsHash
                    nftMetadata := nftMetadata w req m a (pinataGateway ++ imageIpfsHash)
                    metadataIpfsHash := metadataIpfsHash
                    tokenURI := pinataGateway ++ metadataIpfsHash }) := by
  simp only [pinToIpfs, Prog.bind_eq, Prog.bind, call, Prog.pure_eq, imagePinCall,
    metadataPinCall, pinataAuthorization]
  cases h1 : w.pinFileToIPFS (imageFile m buf) ("Bearer " ++ envTemplate cfg.PINATA_JWT) with
  | error e => simp
  | ok h =>
    cases h2 : w.pinFileToIPFS (metadataFile m (nftMetadata w req m a (pinataGateway ++ h)))
      ("Bearer " ++ envTemplate cfg.PINATA_JWT) <;> simp [h2]

theorem mem_pinToIpfs (cfg : Config) (w : World) (req : MintRequest) (m a : String)
    (buf : Bytes) (c : Call) (h : c ∈ (pinToIpfs cfg w req m a buf).1) :
    c = imagePinCall cfg m buf ∨
      ∃ imageIpfsHash,
        w.pinFileToIPFS (imageFile m buf) (pinataAuthorization cfg) = .ok imageIpfsHash ∧
        c = metadataPinCall cfg w req m a imageIpfsHash := by
  rw [pinToIpfs_eq] at h
  cases h1 : w.pinFileToIPFS (imageFile m buf) (pinataAuthorization cfg) with
  | error e => simp [h1] at h; exact Or.inl h
  | ok ih =>
    cases h2 : w.pinFileToIPFS (metadataFile m (nftMetadata w req m a (pinataGateway ++ ih)))
        (pinataAuthorization cfg) <;>
      · simp [h1, h2] at h
        rcases h with h | h
        · exact Or.inl h
        · exact Or.inr ⟨ih, rfl, h⟩

theorem pinToIpfs_next (cfg : Config) (w : World) (req : MintRequest) (m a : String)
    (buf : Bytes) (p : Pinned) (h : (pinToIpfs cfg w req m a buf).2 = .next p) :
    ∃ imageIpfsHash metadataIpfsHash,
      w.pinFileToIPFS (imageFile m buf) (pinataAuthorization cfg) = .ok imageIpfsHash ∧
      w.pinFileToIPFS (metadataFile m (nftMetadata w req m a (pinataGateway ++ imageIpfsHash)))
        (pinataAuthorization cfg) = .ok metadataIpfsHash ∧
      (pinToIpfs cfg w req m a buf).1 =
        [imagePinCall cfg m buf, metadataPinCall cfg w req m a imageIpfsHash] ∧
      p = { imageIpfsHash := imageIpfsHash
            imageIpfsUrl := pinataGateway ++ imageIpfsHash
            nftMetadata := nftMetadata w req m a (pinataGateway ++ imageIpfsHash)
            metadataIpfsHash := metadataIpfsHash
            tokenURI := pinataGateway ++ metadataIpfsHash } := by
  rw [pinToIpfs_eq] at h ⊢
  cases h1 : w.pinFileToIPFS (imageFile m buf) (pinataAuthorization cfg) with
  | error e => simp [h1] at h
  | ok ih =>
    cases h2 : w.pinFileToIPFS (metadataFile m (nftMetadata w req m a (pinataGateway ++ ih)))
        (pinataAuthorization cfg) with
    | error e => simp [h1, h2] at h
    | ok mh =>
      simp [h1, h2] at h
      exact ⟨ih, mh, rfl, h2, by simp [h2], h.symm⟩

theorem pinToIpfs_not_respond (cfg : Config) (w : World) (req : MintRequest) (m a : String)
    (buf : Bytes) (r : Response) : (pinToIpfs cfg w req m a buf).2 ≠ .respond r := by
  rw [pinToIpfs_eq]
  cases h1 : w.pinFileToIPFS (imageFile m buf) (pinataAuthorization cfg) with
  | error e => simp
  | ok ih =>
    cases h2 : w.pinFileToIPFS (metadataFile m (nftMetadata w req m a (pinataGateway ++ ih)))
        (pinataAuthorization cfg) <;> simp [h2]

/-! ### Step 4 -/

theorem tokenIdOf_calls (cfg : Config) (w : World) (receipt : Receipt) :
    (tokenIdOf cfg w receipt).1 = [] := by
  unfold tokenIdOf
  split
  · rfl
  · split
    · cases h : w.toBigInt _ <;> simp [Prog.bind_eq, Prog.bind, lib, h, Prog.pure_eq]
    · rfl

theorem tokenIdOf_not_respond (cfg : Config) (w : World) (receipt : Receipt) (r : Response) :
    (tokenIdOf cfg w receipt).2 ≠ .respond r := by
  unfold tokenIdOf
  split
  · simp [Prog.pure_eq]
  · split
    · cases h : w.toBigInt _ <;> simp [Prog.bind_eq, Prog.bind, lib, h, Prog.pure_eq]
    · simp [Prog.pure_eq]

theorem mintDirect_eq (cfg : Config) (w : World) (walletAddress : String) (p : Pinned) :
    mintDirect cfg w walletAddress p =
      Prog.bind (lib (w.newWallet cfg.MINTER_PRIVATE_KEY)) fun _ =>
      Prog.bind (call (.estimateGas cfg.nftContractAddress walletAddress p.tokenURI)
        (w.estimateGas cfg.nftContractAddress walletAddress p.tokenURI)) fun estimatedGas =>
      Prog.bind (call .getFeeData w.getFeeData) fun feeData =>
      Prog.bind (call (.mintNFT cfg.nftContractAddress walletAddress p.tokenURI
          { gasLimit := gasLimit estimatedGas, maxFeePerGas := feeData.maxFeePerGas,
            maxPriorityFeePerGas := feeData.maxPriorityFeePerGas })
        (w.mintNFT cfg.nftContractAddress walletAddress p.tokenURI
          { gasLimit := gasLimit estimatedGas, maxFeePerGas := feeData.maxFeePerGas,
            maxPriorityFeePerGas := feeData.maxPriorityFeePerGas })) fun txHash =>
      Prog.bind (call (.wait txHash 2) (w.wait txHash 2)) fun receipt =>
      Prog.bind (tokenIdOf cfg w receipt) fun tokenId =>
        ([], .next (receipt.hash, tokenId)) :=
  rfl

theorem mintThirdweb_eq (cfg : Config) (w : World) (walletAddress : String) (p : Pinned) :
    mintThirdweb cfg w walletAddress p =
      Prog.bind (lib (w.sdkFromPrivateKey cfg.MINTER_PRIVATE_KEY cfg.THIRDWEB_SECRET_KEY)) fun _ =>
      Prog.bind (call (.sdkGetContract cfg.nftContractAddress)
        (w.sdkGetContract cfg.nftContractAddress)) fun _ =>
      Prog.bind (call (.sdkMintTo walletAddress
          { name := p.nftMetadata.name, description := p.nftMetadata.description,
            image := p.imageIpfsUrl, attributes := p.nftMetadata.attributes })
        (w.sdkMintTo walletAddress
          { name := p.nftMetadata.name, description := p.nftMetadata.description,
            image := p.imageIpfsUrl, attributes := p.nftMetadata.attributes })) fun tx =>
        ([], .next (tx.1, toString tx.2)) :=
  rfl

/-- What a call of the direct strategy looks like: each one is made only after the calls
before it succeeded, with arguments computed from their results. -/
theorem mem_mintDirect (cfg : Config) (w : World) (walletAddress : String) (p : Pinned)
    (c : Call) (h : c ∈ (mintDirect cfg w walletAddress p).1) :
    c = .estimateGas cfg.nftContractAddress walletAddress p.tokenURI ∨
    ∃ estimatedGas,
      w.estimateGas cfg.nftContractAddress walletAddress p.tokenURI = .ok estimatedGas ∧
      (c = .getFeeData ∨
       ∃ feeData, w.getFeeData = .ok feeData ∧
        (c = .mintNFT cfg.nftContractAddress walletAddress p.tokenURI
              { gasLimit := gasLimit estimatedGas, maxFeePerGas := feeData.maxFeePerGas,
                maxPriorityFeePerGas := feeData.maxPriorityFeePerGas } ∨
         ∃ txHash, w.mintNFT cfg.nftContractAddress walletAddress p.tokenURI
              { gasLimit := gasLimit estimatedGas, maxFeePerGas := feeData.maxFeePerGas,
                maxPriorityFeePerGas := feeData.maxPriorityFeePerGas } = .ok txHash ∧
            c = .wait txHash 2)) := by
  rw [mintDirect_eq] at h
  rcases Prog.mem_bind _ _ _ h with h | ⟨_, _, h⟩
  · simp [lib_calls] at h
  rcases Prog.mem_bind _ _ _ h with h | ⟨estimatedGas, he, h⟩
  · exact Or.inl (mem_call _ _ _ h)
  refine Or.inr ⟨estimatedGas, call_next _ _ _ he, ?_⟩
  rcases Prog.mem_bind _ _ _ h with h | ⟨feeData, hf, h⟩
  · exact Or.inl (mem_call _ _ _ h)
  refine Or.inr ⟨feeData, call_next _ _ _ hf, ?_⟩
  rcases Prog.mem_bind _ _ _ h with h | ⟨txHash, ht, h⟩
  · exact Or.inl (mem_call _ _ _ h)
  refine Or.inr ⟨txHash, call_next _ _ _ ht, ?_⟩
  rcases Prog.mem_bind _ _ _ h with h | ⟨receipt, _, h⟩
  · exact mem_call _ _ _ h
  rcases Prog.mem_bind _ _ _ h with h | ⟨_, _, h⟩
  · simp [tokenIdOf_calls] at h
  · simp at h

theorem mem_mintThirdweb (cfg : Config) (w : World) (walletAddress : String) (p : Pinned)
    (c : Call) (h : c ∈ (mintThirdweb cfg w walletAddress p).1) :
    c = .sdkGetContract cfg.nftContractAddress ∨
    c = .sdkMintTo walletAddress
          { name := p.nftMetadata.name, description := p.nftMetadata.description,
            image := p.imageIpfsUrl, attributes := p.nftMetadata.attributes } := by
  rw [mintThirdweb_eq] at h
  rcases Prog.mem_bind _ _ _ h with h | ⟨_, _, h⟩
  · simp [lib_calls] at h
  rcases Prog.mem_bind _ _ _ h with h | ⟨_, _, h⟩
  · exact Or.inl (mem_call _ _ _ h)
  rcases Prog.mem_bind _ _ _ h with h | ⟨_, _, h⟩
  · exact Or.inr (mem_call _ _ _ h)
  · simp at h

theorem mintDirect_not_respond (cfg : Config) (w : World) (walletAddress : String) (p : Pinned)
    (r : Response) : (mintDirect cfg w walletAddress p).2 ≠ .respond r := by
  intro h
  rw [mintDirect_eq] at h
  rcases Prog.bind_eq_respond _ _ _ h with h | ⟨_, _, h⟩
  · exact lib_not_respond _ _ h
  rcases Prog.bind_eq_respond _ _ _ h with h | ⟨_, _, h⟩
  · exact call_not_respond _ _ _ h
  rcases Prog.bind_eq_respond _ _ _ h with h | ⟨_, _, h⟩
  · exact call_not_respond _ _ _ h
  rcases Prog.bind_eq_respond _ _ _ h with h | ⟨_, _, h⟩
  · exact call_not_respond _ _ _ h
  rcases Prog.bind_eq_respond _ _ _ h with h | ⟨_, _, h⟩
  · exact call_not_respond _ _ _ h
  rcases Prog.bind_eq_respond _ _ _ h with h | ⟨_, _, h⟩
  · exact tokenIdOf_not_respond _ _ _ _ h
  · simp at h

theorem mintThirdweb_not_respond (cfg : Config) (w : World) (walletAddress : String)
    (p : Pinned) (r : Response) : (mintThirdweb cfg w walletAddress p).2 ≠ .respond r := by
  intro h
  rw [mintThirdweb_eq] at h
  rcases Prog.bind_eq_respond _ _ _ h with h | ⟨_, _, h⟩
  · exact lib_not_respond _ _ h
  rcases Prog.bind_eq_respond _ _ _ h with h | ⟨_, _, h⟩
  · exact call_not_respond _ _ _ h
  rcases Prog.bind_eq_respond _ _ _ h with h | ⟨_, _, h⟩
  · exact call_not_respond _ _ _ h
  · simp at h

theorem mintStep_eq (cfg : Config) (w : World) (walletAddress : String) (p : Pinned) :
    mintStep cfg w walletAddress p =
      tryCatch (mintStrategy cfg w walletAddress p)
        (fun message => ([], .respond (mintFailure p message))) :=
  rfl

theorem mintStrategy_not_respond (cfg : Config) (w : World) (walletAddress : String)
    (p : Pinned) (r : Response) : (mintStrategy cfg w walletAddress p).2 ≠ .respond r := by
  unfold mintStrategy
  split
  · exact mintThirdweb_not_respond _ _ _ _ _
  · exact mintDirect_not_respond _ _ _ _ _

theorem mintStep_calls (cfg : Config) (w : World) (walletAddress : String) (p : Pinned) :
    (mintStep cfg w walletAddress p).1 = (mintStrategy cfg w walletAddress p).1 := by
  rw [mintStep_eq]
  generalize mintStrategy cfg w walletAddress p = q
  obtain ⟨t, s⟩ := q
  cases s <;> simp [tryCatch]

theorem mintStep_outcome (cfg : Config) (w : World) (walletAddress : String) (p : Pinned) :
    (∃ minted, (mintStrategy cfg w walletAddress p).2 = .next minted ∧
        (mintStep cfg w walletAddress p).2 = .next minted) ∨
    (∃ message, (mintStrategy cfg w walletAddress p).2 = .raise message ∧
        (mintStep cfg w walletAddress p).2 = .respond (mintFailure p message)) := by
  rw [mintStep_eq]
  have hr := mintStrategy_not_respond cfg w walletAddress p
  generalize mintStrategy cfg w walletAddress p = q at hr ⊢
  obtain ⟨t, s⟩ := q
  cases s with
  | next a => exact Or.inl ⟨a, rfl, by simp [tryCatch]⟩
  | respond r => exact absurd rfl (hr r)
  | raise e => exact Or.inr ⟨e, rfl, by simp [tryCatch]⟩

theorem mem_mintStep_stage (cfg : Config) (w : World) (walletAddress : String) (p : Pinned)
    (c : Call) (h : c ∈ (mintStep cfg w walletAddress p).1) : c.stage = .mint := by
  rw [mintStep_calls] at h
  unfold mintStrategy at h
  split at h
  · rcases mem_mintThirdweb _ _ _ _ _ h with h | h <;> rw [h] <;> rfl
  · rcases mem_mintDirect _ _ _ _ _ h with h | ⟨_, _, h | ⟨_, _, h | ⟨_, _, h⟩⟩⟩ <;>
      rw [h] <;> rfl

/-! ### Step 5 -/

theorem tryCatch_call_swallow (c : Call) (o : Except String Unit) :
    tryCatch (call c o) (fun _ => (pure () : Prog Unit)) = ([c], .next ()) := by
  cases o <;> simp [tryCatch, call, Prog.pure_eq]

theorem updateDatabase_outcome (cfg : Config) (w : World) (m tx id : String) (p : Pinned) :
    (updateDatabase cfg w m tx id p).2 = .next () := by
  unfold updateDatabase
  split
  · simp only [tryCatch_call_swallow]
  · rfl

theorem mem_updateDatabase (cfg : Config) (w : World) (m tx id : String) (p : Pinned)
    (c : Call) (h : c ∈ (updateDatabase cfg w m tx id p).1) :
    envTruthy cfg.CLOUDFLARE_D1_API_URL = true ∧
    c = .updateMint (envTemplate cfg.CLOUDFLARE_D1_API_URL ++ "/update-mint")
      { masterpieceId := m, mintTxHash := tx, tokenId := id, tokenURI := p.tokenURI,
        ipfsImageHash := p.imageIpfsHash, ipfsMetadataHash := p.metadataIpfsHash }
      ("Bearer " ++ envTemplate cfg.CLOUDFLARE_API_TOKEN) := by
  unfold updateDatabase at h
  split at h
  · rename_i hu
    simp only [tryCatch_call_swallow, List.mem_singleton] at h
    exact ⟨hu, h⟩
  · simp [Prog.pure_eq] at h

/-! ### The whole handler -/

theorem postMint_eq (cfg : Config) (w : World) (req : MintRequest) :
    postMint cfg w req = sendResponse (postMintTry cfg w req) := rfl

theorem sendResponse_calls (p : Prog Response) : (sendResponse p).1 = p.1 := by
  obtain ⟨t, s⟩ := p
  cases s <;> rfl

theorem postMint_invalid (cfg : Config) (w : World) (req : MintRequest)
    (h : validRequest req = false) :
    postMint cfg w req =
      ([], { status := 400, body := .error "Missing required fields" }) := by
  have h' : (!req.masterpieceId.truthy || !req.walletAddress.truthy) = true := by
    simp only [validRequest] at h
    cases hm : req.masterpieceId.truthy <;> cases ha : req.walletAddress.truthy <;>
      simp [hm, ha] at h ⊢
  rw [postMint_eq, postMintTry_eq, if_pos h']
  rfl

theorem postMintTry_valid (cfg : Config) (w : World) (req : MintRequest)
    (h : validRequest req = true) :
    postMintTry cfg w req =
      Prog.bind (if req.paymentTxHash.truthy = true then
          verifyPayment cfg w req.paymentTxHash.toStr else ([], .next ()))
        (fun _ => mintPipeline cfg w req req.masterpieceId.toStr req.walletAddress.toStr) := by
  have h' : ¬ (!req.masterpieceId.truthy || !req.walletAddress.truthy) = true := by
    simp only [validRequest] at h
    cases hm : req.masterpieceId.truthy <;> cases ha : req.walletAddress.truthy <;>
      simp [hm, ha] at h ⊢
  rw [postMintTry_eq, if_neg h']

theorem postMint_free (cfg : Config) (w : World) (req : MintRequest)
    (h : validRequest req = true) (hp : req.paymentTxHash.truthy = false) :
    postMint cfg w req =
      sendResponse (mintPipeline cfg w req req.masterpieceId.toStr req.walletAddress.toStr) := by
  rw [postMint_eq, postMintTry_valid cfg w req h]
  simp [hp, Prog.bind]

theorem postMint_paid (cfg : Config) (w : World) (req : MintRequest)
    (h : validRequest req = true) (hp : req.paymentTxHash.truthy = true)
    (hv : (verifyPayment cfg w req.paymentTxHash.toStr).2 = .next ()) :
    postMint cfg w req =
      ((verifyPayment cfg w req.paymentTxHash.toStr).1 ++
          (sendResponse
            (mintPipeline cfg w req req.masterpieceId.toStr req.walletAddress.toStr)).1,
        (sendResponse
            (mintPipeline cfg w req req.masterpieceId.toStr req.walletAddress.toStr)).2) := by
  rw [postMint_eq, postMintTry_valid cfg w req h, if_pos hp, Prog.bind_next _ _ () hv]
  generalize mintPipeline cfg w req req.masterpieceId.toStr req.walletAddress.toStr = q
  obtain ⟨t, s⟩ := q
  cases s <;> rfl

theorem postMint_payment_failed (cfg : Config) (w : World) (req : MintRequest)
    (h : validRequest req = true) (hp : req.paymentTxHash.truthy = true)
    (hv : (verifyPayment cfg w req.paymentTxHash.toStr).2 ≠ .next ()) :
    ∃ e, (verifyPayment cfg w req.paymentTxHash.toStr).2 = paymentError e ∧
      postMint cfg w req =
        ((verifyPayment cfg w req.paymentTxHash.toStr).1,
          { status := 400, body := .error e }) := by
  obtain ⟨calls, step, heq, -, hstep⟩ := verifyPayment_cases cfg w req.paymentTxHash.toStr
  rcases hstep with hs | ⟨e, hs⟩
  · exact absurd (by rw [heq, hs]) hv
  · refine ⟨e, by rw [heq, hs], ?_⟩
    have h2 : (verifyPayment cfg w req.paymentTxHash.toStr).2 =
        .respond { status := 400, body := .error e } := by rw [heq, hs]; rfl
    rw [postMint_eq, postMintTry_valid cfg w req h, if_pos hp, Prog.bind_respond _ _ _ h2]
    rfl

/-- Every call of steps 2 to 5 belongs to its own stage, in the shape its step gives it. -/
theorem mem_mintPipeline (cfg : Config) (w : World) (req : MintRequest) (m a : String)
    (c : Call) (h : c ∈ (mintPipeline cfg w req m a).1) :
    c ∈ (resolveAsset cfg w m a req.imageUrl).1 ∨
    ∃ buf, (resolveAsset cfg w m a req.imageUrl).2 = .next buf ∧
      (c ∈ (pinToIpfs cfg w req m a buf).1 ∨
       ∃ p, (pinToIpfs cfg w req m a buf).2 = .next p ∧
        (c ∈ (mintStep cfg w a p).1 ∨
         ∃ minted, (mintStep cfg w a p).2 = .next minted ∧
           c ∈ (updateDatabase cfg w m minted.1 minted.2 p).1)) := by
  rw [mintPipeline_eq] at h
  rcases Prog.mem_bind _ _ _ h with h | ⟨buf, hb, h⟩
  · exact Or.inl h
  refine Or.inr ⟨buf, hb, ?_⟩
  rcases Prog.mem_bind _ _ _ h with h | ⟨p, hp, h⟩
  · exact Or.inl h
  refine Or.inr ⟨p, hp, ?_⟩
  rcases Prog.mem_bind _ _ _ h with h | ⟨minted, hm, h⟩
  · exact Or.inl h
  refine Or.inr ⟨minted, hm, ?_⟩
  rcases Prog.mem_bind _ _ _ h with h | ⟨_, _, h⟩
  · exact h
  · simp at h

theorem mem_mintPipeline_stage (cfg : Config) (w : World) (req : MintRequest) (m a : String)
    (c : Call) (h : c ∈ (mintPipeline cfg w req m a).1) :
    (c.stage = .asset ∧ c ∈ (resolveAsset cfg w m a req.imageUrl).1) ∨
      c.stage = .pin ∨ c.stage = .mint ∨ c.stage = .report := by
  rcases mem_mintPipeline cfg w req m a c h with h | ⟨buf, _, h | ⟨p, _, h | ⟨mt, _, h⟩⟩⟩
  · refine Or.inl ⟨?_, h⟩
    rcases mem_resolveAsset _ _ _ _ _ _ h with ⟨_, h | h⟩ | ⟨_, h⟩ <;> rw [h] <;> rfl
  · right; left
    rcases mem_pinToIpfs _ _ _ _ _ _ _ h with h | ⟨_, _, h⟩ <;> rw [h] <;> rfl
  · right; right; left
    exact mem_mintStep_stage _ _ _ _ _ h
  · right; right; right
    rw [(mem_updateDatabase _ _ _ _ _ _ _ h).2]
    rfl

/-- The pipeline ends normally exactly through the success response of a run whose
steps 2, 3 and 4 all fell through. -/
theorem mintPipeline_next (cfg : Config) (w : World) (req : MintRequest) (m a : String)
    (r : Response) (h : (mintPipeline cfg w req m a).2 = .next r) :
    ∃ buf p minted,
      (resolveAsset cfg w m a req.imageUrl).2 = .next buf ∧
      (pinToIpfs cfg w req m a buf).2 = .next p ∧
      (mintStep cfg w a p).2 = .next minted ∧
      r = { status := 200,
            body := .success (successResponse cfg w m minted.1 minted.2 p) } := by
  rw [mintPipeline_eq] at h
  obtain ⟨buf, hb, h⟩ := Prog.bind_eq_next _ _ _ h
  obtain ⟨p, hp, h⟩ := Prog.bind_eq_next _ _ _ h
  obtain ⟨minted, hm, h⟩ := Prog.bind_eq_next _ _ _ h
  obtain ⟨_, _, h⟩ := Prog.bind_eq_next _ _ _ h
  refine ⟨buf, p, minted, hb, hp, hm, ?_⟩
  simp at h
  exact h.symm

/-- The pipeline returns early only with the 404 of step 2 or the 500 of step 4. -/
theorem mintPipeline_respond (cfg : Config) (w : World) (req : MintRequest) (m a : String)
    (r : Response) (h : (mintPipeline cfg w req m a).2 = .respond r) :
    r = { status := 404, body := .error "Image not found in storage" } ∨
    ∃ p message, r = mintFailure p message := by
  rw [mintPipeline_eq] at h
  rcases Prog.bind_eq_respond _ _ _ h with h | ⟨buf, _, h⟩
  · exact Or.inl (resolveAsset_respond _ _ _ _ _ _ h).1
  rcases Prog.bind_eq_respond _ _ _ h with h | ⟨p, _, h⟩
  · exact absurd h (pinToIpfs_not_respond _ _ _ _ _ _ _)
  rcases Prog.bind_eq_respond _ _ _ h with h | ⟨minted, _, h⟩
  · rcases mintStep_outcome cfg w a p with ⟨mt, _, h2⟩ | ⟨msg, _, h2⟩
    · rw [h2] at h; cases h
    · rw [h2] at h
      injection h with h
      exact Or.inr ⟨p, msg, h.symm⟩
  rcases Prog.bind_eq_respond _ _ _ h with h | ⟨_, _, h⟩
  · rw [updateDatabase_outcome] at h; cases h
  · simp at h

/-- When steps 2, 3 and 4 fall through, the pipeline ends with the success response. -/
theorem mintPipeline_success (cfg : Config) (w : World) (req : MintRequest) (m a : String)
    (buf : Bytes) (p : Pinned) (minted : String × String)
    (hb : (resolveAsset cfg w m a req.imageUrl).2 = .next buf)
    (hp : (pinToIpfs cfg w req m a buf).2 = .next p)
    (hm : (mintStep cfg w a p).2 = .next minted) :
    (mintPipeline cfg w req m a).2 =
      .next { status := 200,
              body := .success (successResponse cfg w m minted.1 minted.2 p) } := by
  rw [mintPipeline_eq, Prog.bind_next _ _ buf hb, Prog.bind_next _ _ p hp,
    Prog.bind_next _ _ minted hm, Prog.bind_next _ _ () (updateDatabase_outcome _ _ _ _ _ _)]

/-! ## The claims -/

theorem JsField.truthy_eq_false_iff (v : JsField) :
    v.truthy = false ↔ v ∈ [JsField.undefined, .null, .str ""] := by
  cases v with
  | undefined => simp [JsField.truthy]
  | null => simp [JsField.truthy]
  | str s => simp [JsField.truthy]

/-- C1: when `masterpieceId` or `walletAddress` is absent, `null` or the empty string, both
the full and the minimal service answer 400 `Missing required fields` and the run makes no
external call of any kind. -/
theorem C1_missing_required_fields (cfg : Config) (w : World) (mw : MinimalWorld)
    (req : MintRequest)
    (h : req.masterpieceId ∈ [JsField.undefined, .null, .str ""] ∨
      req.walletAddress ∈ [JsField.undefined, .null, .str ""]) :
    postMint cfg w req = ([], { status := 400, body := .error "Missing required fields" }) ∧
    postMintMinimal mw
        { masterpieceId := req.masterpieceId, walletAddress := req.walletAddress } =
      ([], { status := 400,
             body := .error "Missing required fields"
               "masterpieceId and walletAddress are required" }) := by
  have h' : req.masterpieceId.truthy = false ∨ req.walletAddress.truthy = false :=
    h.imp (JsField.truthy_eq_false_iff _).2 (JsField.truthy_eq_false_iff _).2
  constructor
  · apply postMint_invalid
    rcases h' with h' | h' <;> simp [validRequest, h']
  · rcases h' with h' | h' <;> simp [postMintMinimal, h']

/-- C1, witness: a body whose `walletAddress` is the empty string, posted to both services. -/
theorem C1_missing_required_fields_witness :
    postMint demoConfig (paidWorld "exact") { paidRequest with walletAddress := .str "" } =
      ([], { status := 400, body := .error "Missing required fields" }) ∧
    postMintMinimal demoMinimalWorld
        { masterpieceId := .str "abc123", walletAddress := .str "" } =
      ([], { status := 400,
             body := .error "Missing required fields"
               "masterpieceId and walletAddress are required" }) :=
  C1_missing_required_fields demoConfig (paidWorld "exact") demoMinimalWorld
    { paidRequest with walletAddress := .str "" } (Or.inr (by decide))

/-- C2: with a found transaction whose first payment-token log decodes to a transfer to the
treasury, the payment step answers 400 `Insufficient payment amount` exactly when the
decoded amount is below `10 * 10^18 = 10^19`, and passes otherwise; so `10^19` is accepted
and `10^19 - 1` is rejected. -/
theorem C2_amount_threshold (cfg : Config) (w : World) (hash : String) (receipt : Receipt)
    (ev : Log) (args : TransferArgs) (treasury : String)
    (htx : w.getTransaction hash = .ok (some ()))
    (hrc : w.getTransactionReceipt hash = .ok (some receipt))
    (hlog : receipt.logs.find? (emittedBy DEGEN_TOKEN_ADDRESS) = some ev)
    (hdec : w.parseLog ev.topics ev.data = .ok (some args))
    (htre : cfg.TREASURY_WALLET_ADDRESS = some treasury)
    (hto : toLowerCase args.toAddr = toLowerCase treasury) :
    expectedAmount = 10 * 10 ^ 18 ∧
    ((verifyPayment cfg w hash).2 =
        .respond { status := 400, body := .error "Insufficient payment amount" } ↔
      args.value < 10 ^ 19) ∧
    ((verifyPayment cfg w hash).2 = .next () ↔ ¬ args.value < 10 ^ 19) ∧
    (args.value = 10 ^ 19 → (verifyPayment cfg w hash).2 = .next ()) ∧
    (args.value = 10 ^ 19 - 1 → (verifyPayment cfg w hash).2 =
        .respond { status := 400, body := .error "Insufficient payment amount" }) := by
  have he : expectedAmount = 10 ^ 19 := by norm_num [expectedAmount]
  have hv := verifyPayment_decoded cfg w hash () receipt ev args htx hrc hlog hdec
  have hlt : (verifyPayment cfg w hash).2 =
      if args.value < 10 ^ 19 then paymentError "Insufficient payment amount"
      else .next () := by
    rw [hv]
    simp only [decodedOutcome, htre, hto, he, if_true]
  refine ⟨rfl, ?_, ?_, ?_, ?_⟩
  · rw [hlt]
    by_cases h : args.value < 10 ^ 19
    · simp only [h, if_true, paymentError]
    · simp only [h, if_false, iff_false]
      intro hc; cases hc
  · rw [hlt]
    by_cases h : args.value < 10 ^ 19
    · simp only [h, if_true, paymentError, not_true, iff_false]
      intro hc; cases hc
    · simp only [h, if_false, not_false_iff]
  · intro h
    rw [hlt, if_neg (by rw [h]; exact lt_irrefl _)]
  · intro h
    rw [hlt, if_pos (by rw [h]; norm_num)]
    rfl

/-- C2, witness: a transfer of exactly `10^19` units to the treasury passes the payment step. -/
theorem C2_amount_threshold_witness :
    (verifyPayment demoConfig (paidWorld "exact") "0xpay").2 = .next () :=
  (C2_amount_threshold demoConfig (paidWorld "exact") "0xpay"
    { hash := "0xpay", logs := [demoTransferLog "exact"] } (demoTransferLog "exact")
    { src := "0x1110000000000000000000000000000000000003",
      toAddr := "0xabc0000000000000000000000000000000000002", value := 10 ^ 19 }
    "0xABC0000000000000000000000000000000000002" rfl rfl (by decide) rfl rfl
    (by decide)).2.2.2.1 rfl

/-- C3: once the transaction is found, its first payment-token log is decoded, the amount
suffices and a treasury address is configured, the recipient check compares lower-cased
addresses: equal lower-cased addresses pass, and the step answers 400
`Payment not sent to treasury` exactly when the lower-cased addresses differ. -/
theorem C3_recipient_case_insensitive (cfg : Config) (w : World) (hash : String)
    (receipt : Receipt) (ev : Log) (args : TransferArgs) (treasury : String)
    (htx : w.getTransaction hash = .ok (some ()))
    (hrc : w.getTransactionReceipt hash = .ok (some receipt))
    (hlog : receipt.logs.find? (emittedBy DEGEN_TOKEN_ADDRESS) = some ev)
    (hdec : w.parseLog ev.topics ev.data = .ok (some args))
    (hamt : ¬ args.value < expectedAmount)
    (htre : cfg.TREASURY_WALLET_ADDRESS = some treasury) :
    (toLowerCase args.toAddr = toLowerCase treasury →
      (verifyPayment cfg w hash).2 = .next ()) ∧
    ((verifyPayment cfg w hash).2 =
        .respond { status := 400, body := .error "Payment not sent to treasury" } ↔
      toLowerCase args.toAddr ≠ toLowerCase treasury) := by
  have hv := verifyPayment_decoded cfg w hash () receipt ev args htx hrc hlog hdec
  have hlt : (verifyPayment cfg w hash).2 =
      if toLowerCase args.toAddr = toLowerCase treasury then .next ()
      else paymentError "Payment not sent to treasury" := by
    rw [hv]
    simp only [decodedOutcome, htre, hamt, if_false]
  constructor
  · intro h
    rw [hlt, if_pos h]
  · rw [hlt]
    by_cases h : toLowerCase args.toAddr = toLowerCase treasury
    · simp only [h, if_true, ne_eq, not_true, iff_false]
      intro hc; cases hc
    · simp only [h, if_false, ne_eq, not_false_iff, iff_true]
      rfl

/-- C3, witness: a lower-case recipient matches the upper-case treasury address. -/
theorem C3_recipient_case_insensitive_witness :
    toLowerCase "0xabc0000000000000000000000000000000000002" =
        toLowerCase "0xABC0000000000000000000000000000000000002" ∧
      (verifyPayment demoConfig (paidWorld "exact") "0xpay").2 = .next () :=
  ⟨by decide,
   (C3_recipient_case_insensitive demoConfig (paidWorld "exact") "0xpay"
    { hash := "0xpay", logs := [demoTransferLog "exact"] } (demoTransferLog "exact")
    { src := "0x1110000000000000000000000000000000000003",
      toAddr := "0xabc0000000000000000000000000000000000002", value := 10 ^ 19 }
    "0xABC0000000000000000000000000000000000002" rfl rfl (by decide) rfl (by decide) rfl).1
    (by decide)⟩

/-- C4 as stated fails: with `TREASURY_WALLET_ADDRESS` unset, a found transaction whose
payment-token log carries the full amount is answered 400 `Payment verification failed`,
which is neither success nor the answer of any of the four checks. -/
theorem C4_counterexample :
    (paidWorld "exact").getTransaction "0xpay" = .ok (some ()) ∧
    (paidWorld "exact").getTransactionReceipt "0xpay" =
      .ok (some { hash := "0xpay", logs := [demoTransferLog "exact"] }) ∧
    emittedBy DEGEN_TOKEN_ADDRESS (demoTransferLog "exact") = true ∧
    (paidWorld "exact").parseLog (demoTransferLog "exact").topics
        (demoTransferLog "exact").data =
      .ok (some { src := "0x1110000000000000000000000000000000000003",
                  toAddr := "0xabc0000000000000000000000000000000000002",
                  value := 10 ^ 19 }) ∧
    ¬ (10 ^ 19 < expectedAmount) ∧
    verifyPayment noTreasuryConfig (paidWorld "exact") "0xpay" =
      ([.getTransaction "0xpay", .getTransactionReceipt "0xpay"],
        .respond { status := 400, body := .error "Payment verification failed" }) :=
  ⟨rfl, rfl, by decide, rfl, by decide, rfl⟩

/-- C4, amended: the four checks are applied in their order, each only after the ones
before it passed, and when neither lookup throws, the receipt is not `null`, the first
payment-token log decodes and a treasury address is configured, verification succeeds
exactly when none of the four checks fails; a transfer that is too small is reported as
insufficient whatever its recipient.  Whenever the `try` block throws instead, the answer is
400 `Payment verification failed`. -/
theorem C4_checks_in_order (cfg : Config) (w : World) (hash : String) :
    (w.getTransaction hash = .ok none →
      (verifyPayment cfg w hash).2 = paymentError "Payment transaction not found") ∧
    (∀ receipt, w.getTransaction hash = .ok (some ()) →
      w.getTransactionReceipt hash = .ok (some receipt) →
      ((∀ log ∈ receipt.logs, toLowerCase log.address ≠ toLowerCase DEGEN_TOKEN_ADDRESS) →
        (verifyPayment cfg w hash).2 = paymentError "Invalid payment transaction") ∧
      (∀ ev args, receipt.logs.find? (emittedBy DEGEN_TOKEN_ADDRESS) = some ev →
        w.parseLog ev.topics ev.data = .ok (some args) →
        (args.value < expectedAmount →
          (verifyPayment cfg w hash).2 = paymentError "Insufficient payment amount") ∧
        (∀ treasury, cfg.TREASURY_WALLET_ADDRESS = some treasury →
          (¬ args.value < expectedAmount →
            toLowerCase args.toAddr ≠ toLowerCase treasury →
            (verifyPayment cfg w hash).2 = paymentError "Payment not sent to treasury") ∧
          ((verifyPayment cfg w hash).2 = .next () ↔
            ¬ args.value < expectedAmount ∧
              toLowerCase args.toAddr = toLowerCase treasury)))) ∧
    (∀ message, (verifyPaymentTry cfg w hash).2 = .raise message →
      (verifyPayment cfg w hash).2 = paymentError "Payment verification failed") := by
  refine ⟨fun htx => ?_, fun receipt htx hrc => ⟨fun hno => ?_, fun ev args hlog hdec => ?_⟩,
    fun message hr => ?_⟩
  · rw [verifyPayment_tx_null cfg w hash htx]
  · have hlog : receipt.logs.find? (emittedBy DEGEN_TOKEN_ADDRESS) = none := by
      rw [List.find?_eq_none]
      intro log hmem
      simpa [emittedBy] using hno log hmem
    rw [verifyPayment_no_log cfg w hash () receipt htx hrc hlog]
  · have hv := verifyPayment_decoded cfg w hash () receipt ev args htx hrc hlog hdec
    refine ⟨fun hlt => ?_, fun treasury htre => ⟨fun hge hne => ?_, ?_⟩⟩
    · rw [hv]; simp only [decodedOutcome, hlt, if_true]
    · rw [hv]; simp only [decodedOutcome, hge, htre, hne, if_false]
    · rw [hv]
      simp only [decodedOutcome, htre]
      by_cases hlt : args.value < expectedAmount
      · simp only [hlt, if_true, not_true, false_and, iff_false, paymentError]
        intro hc; cases hc
      · by_cases hto : toLowerCase args.toAddr = toLowerCase treasury
        · simp only [hlt, hto, if_false, if_true, not_false_iff, and_self]
        · simp only [hlt, hto, if_false, and_false, iff_false, paymentError]
          intro hc; cases hc
  · unfold verifyPayment
    generalize verifyPaymentTry cfg w hash = q at hr ⊢
    obtain ⟨t, s⟩ := q
    simp only at hr
    subst hr
    rfl

/-- C4, witness: a transfer of `10^19 - 1` units is answered by the third check. -/
theorem C4_checks_in_order_witness :
    (verifyPayment demoConfig (paidWorld "short") "0xpay").2 =
      paymentError "Insufficient payment amount" :=
  (((C4_checks_in_order demoConfig (paidWorld "short") "0xpay").2.1
      { hash := "0xpay", logs := [demoTransferLog "short"] } rfl rfl).2
    (demoTransferLog "short")
    { src := "0x1110000000000000000000000000000000000003",
      toAddr := "0xabc0000000000000000000000000000000000002", value := 10 ^ 19 - 1 }
    (by decide) rfl).1 (by decide)

theorem head?_filter_eq_find? {α : Type} (p : α → Bool) (l : List α) :
    (l.filter p).head? = l.find? p := by
  induction l with
  | nil => rfl
  | cons x xs ih =>
    cases hx : p x
    · simp [List.filter, List.find?, hx, ih]
    · simp [List.filter, List.find?, hx]

theorem verifyPayment_next (cfg : Config) (w : World) (hash : String)
    (h : (verifyPayment cfg w hash).2 = .next ()) :
    ∃ receipt ev args treasury,
      w.getTransaction hash = .ok (some ()) ∧
      w.getTransactionReceipt hash = .ok (some receipt) ∧
      receipt.logs.find? (emittedBy DEGEN_TOKEN_ADDRESS) = some ev ∧
      w.parseLog ev.topics ev.data = .ok (some args) ∧
      ¬ args.value < expectedAmount ∧
      cfg.TREASURY_WALLET_ADDRESS = some treasury ∧
      toLowerCase args.toAddr = toLowerCase treasury := by
  cases htx : w.getTransaction hash with
  | error e => rw [verifyPayment_tx_error cfg w hash e htx] at h; cases h
  | ok tx =>
    cases tx with
    | none => rw [verifyPayment_tx_null cfg w hash htx] at h; cases h
    | some tx =>
      cases hrc : w.getTransactionReceipt hash with
      | error e => rw [verifyPayment_receipt_error cfg w hash e tx htx hrc] at h; cases h
      | ok rc =>
        cases rc with
        | none => rw [verifyPayment_receipt_null cfg w hash tx htx hrc] at h; cases h
        | some receipt =>
          cases hlog : receipt.logs.find? (emittedBy DEGEN_TOKEN_ADDRESS) with
          | none => rw [verifyPayment_no_log cfg w hash tx receipt htx hrc hlog] at h; cases h
          | some ev =>
            cases hdec : w.parseLog ev.topics ev.data with
            | error e =>
              rw [verifyPayment_decode_error cfg w hash e tx receipt ev htx hrc hlog hdec] at h
              cases h
            | ok d =>
              cases d with
              | none =>
                rw [verifyPayment_decode_null cfg w hash tx receipt ev htx hrc hlog hdec] at h
                cases h
              | some args =>
                rw [verifyPayment_decoded cfg w hash tx receipt ev args htx hrc hlog hdec] at h
                simp only [decodedOutcome] at h
                by_cases hlt : args.value < expectedAmount
                · rw [if_pos hlt] at h; cases h
                · rw [if_neg hlt] at h
                  cases htre : cfg.TREASURY_WALLET_ADDRESS with
                  | none => rw [htre] at h; cases h
                  | some treasury =>
                    rw [htre] at h
                    by_cases hto : toLowerCase args.toAddr = toLowerCase treasury
                    · exact ⟨receipt, ev, args, treasury, rfl, rfl, hlog, hdec, hlt, rfl, hto⟩
                    · simp only [hto, if_false] at h
                      cases h

/-- C5 as stated fails: a receipt holding two payment-token logs passes verification. -/
theorem C5_counterexample :
    twoLogsWorld.getTransactionReceipt "0xpay" =
      .ok (some { hash := "0xpay",
                  logs := [demoTransferLog "exact", demoTransferLog "short"] }) ∧
    ([demoTransferLog "exact", demoTransferLog "short"].filter
        (emittedBy DEGEN_TOKEN_ADDRESS)).length = 2 ∧
    verifyPayment demoConfig twoLogsWorld "0xpay" =
      ([.getTransaction "0xpay", .getTransactionReceipt "0xpay"], .next ()) :=
  ⟨rfl, by decide, by decide⟩

/-- C6: when a request carries a `paymentTxHash` and payment verification does not pass,
whatever the reason, the response has status 400 and the only external calls of the run are
the two chain lookups of the payment step: nothing is read from the object store or a URL,
nothing is pinned, no mint call is made and the reporter is not called. -/
theorem C6_failed_payment_short_circuits (cfg : Config) (w : World) (req : MintRequest)
    (hpay : req.paymentTxHash.truthy = true)
    (hfail : (verifyPayment cfg w req.paymentTxHash.toStr).2 ≠ .next ()) :
    (postMint cfg w req).2.status = 400 ∧
    (∀ c ∈ (postMint cfg w req).1,
      c = .getTransaction req.paymentTxHash.toStr ∨
      c = .getTransactionReceipt req.paymentTxHash.toStr) ∧
    (∀ c ∈ (postMint cfg w req).1,
      c.stage ≠ .asset ∧ c.stage ≠ .pin ∧ c.stage ≠ .mint ∧ c.stage ≠ .report) := by
  have key : (postMint cfg w req).2.status = 400 ∧
      ∀ c ∈ (postMint cfg w req).1,
        c = .getTransaction req.paymentTxHash.toStr ∨
        c = .getTransactionReceipt req.paymentTxHash.toStr := by
    cases hv : validRequest req with
    | false =>
      rw [postMint_invalid cfg w req hv]
      exact ⟨rfl, by simp⟩
    | true =>
      obtain ⟨e, -, heq⟩ := postMint_payment_failed cfg w req hv hpay hfail
      obtain ⟨calls, step, hvp, hcalls, -⟩ := verifyPayment_cases cfg w req.paymentTxHash.toStr
      rw [heq, hvp]
      exact ⟨rfl, hcalls⟩
  refine ⟨key.1, key.2, fun c hc => ?_⟩
  rcases key.2 c hc with h | h <;> rw [h] <;> simp [Call.stage]

/-- C6, witness: an underpaid request ends with status 400 after the two lookups. -/
theorem C6_failed_payment_short_circuits_witness :
    (postMint demoConfig (paidWorld "short") paidRequest).2.status = 400 ∧
    ∀ c ∈ (postMint demoConfig (paidWorld "short") paidRequest).1,
      c.stage ≠ .asset ∧ c.stage ≠ .pin ∧ c.stage ≠ .mint ∧ c.stage ≠ .report :=
  have h := C6_failed_payment_short_circuits demoConfig (paidWorld "short") paidRequest
    (by decide) (by decide)
  ⟨h.1, h.2.2⟩

theorem Prog.bind_calls {α β : Type} (p : Prog α) (f : α → Prog β) :
    ∃ rest, (Prog.bind p f).1 = p.1 ++ rest := by
  obtain ⟨t, s⟩ := p
  cases s with
  | next a => exact ⟨(f a).1, rfl⟩
  | respond r => exact ⟨[], by simp [Prog.bind]⟩
  | raise e => exact ⟨[], by simp [Prog.bind]⟩

theorem resolveAsset_calls (cfg : Config) (w : World) (m a : String) (imageUrl : JsField) :
    ∃ rest, (resolveAsset cfg w m a imageUrl).1 =
      (if imageUrl.truthy = true then Call.httpGet imageUrl.toStr
        else Call.fileExists cfg.bucketName (storageFilename a m)) :: rest := by
  cases hu : imageUrl.truthy with
  | true =>
    rw [resolveAsset_url cfg w m a imageUrl hu]
    cases hg : w.httpGet imageUrl.toStr <;> exact ⟨[], by simp [call]⟩
  | false =>
    rw [resolveAsset_storage cfg w m a imageUrl hu]
    cases he : w.fileExists cfg.bucketName (storageFilename a m) with
    | error e => exact ⟨[], by simp⟩
    | ok b =>
      cases b with
      | false => exact ⟨[], by simp⟩
      | true =>
        cases hd : w.fileDownload cfg.bucketName (storageFilename a m) <;>
          exact ⟨[Call.fileDownload cfg.bucketName (storageFilename a m)], by simp⟩

theorem mintPipeline_calls (cfg : Config) (w : World) (req : MintRequest) (m a : String) :
    ∃ rest, (mintPipeline cfg w req m a).1 =
      (resolveAsset cfg w m a req.imageUrl).1 ++ rest := by
  rw [mintPipeline_eq]
  exact Prog.bind_calls _ _

theorem mintPipeline_head (cfg : Config) (w : World) (req : MintRequest) (m a : String) :
    (mintPipeline cfg w req m a).1.head? =
      some (if req.imageUrl.truthy = true then Call.httpGet req.imageUrl.toStr
        else Call.fileExists cfg.bucketName (storageFilename a m)) := by
  obtain ⟨rest, h⟩ := mintPipeline_calls cfg w req m a
  obtain ⟨rest', h'⟩ := resolveAsset_calls cfg w m a req.imageUrl
  rw [h, h']
  rfl

/-- The status of the response that ends a run of steps 2 to 5. -/
theorem sendResponse_mintPipeline_status (cfg : Config) (w : World) (req : MintRequest)
    (m a : String) :
    (sendResponse (mintPipeline cfg w req m a)).2.status = 200 ∨
    (sendResponse (mintPipeline cfg w req m a)).2.status = 404 ∨
    (sendResponse (mintPipeline cfg w req m a)).2.status = 500 := by
  have hn := mintPipeline_next cfg w req m a
  have hr := mintPipeline_respond cfg w req m a
  generalize mintPipeline cfg w req m a = q at hn hr
  obtain ⟨t, s⟩ := q
  cases s with
  | next r =>
    obtain ⟨_, _, _, _, _, _, h⟩ := hn r rfl
    left; rw [h]; rfl
  | respond r =>
    rcases hr r rfl with h | ⟨_, _, h⟩
    · right; left; rw [h]; rfl
    · right; right; rw [h]; rfl
  | raise e => right; right; rfl

/-- C7: for a valid request whose `paymentTxHash` is absent, `null` or empty, the handler
is the pipeline of steps 2 to 5 alone: no call of the payment step is made, the response is
never a 400, the first external call is the one of asset resolution, and when steps 2, 3
and 4 fall through the response is the 200 success body with the mint's `transactionHash`
and `tokenId`, the pinned `tokenURI`, and `ipfs.metadataUrl` equal to `tokenURI`. -/
theorem C7_free_mint_skips_payment (cfg : Config) (w : World) (req : MintRequest)
    (hm : req.masterpieceId.truthy = true) (ha : req.walletAddress.truthy = true)
    (hp : req.paymentTxHash ∈ [JsField.undefined, .null, .str ""]) :
    postMint cfg w req =
      sendResponse (mintPipeline cfg w req req.masterpieceId.toStr req.walletAddress.toStr) ∧
    (∀ c ∈ (postMint cfg w req).1, c.stage ≠ .payment) ∧
    (postMint cfg w req).2.status ≠ 400 ∧
    (postMint cfg w req).1.head? =
      some (if req.imageUrl.truthy = true then Call.httpGet req.imageUrl.toStr
        else Call.fileExists cfg.bucketName
          ("creations/" ++ req.walletAddress.toStr ++ "/" ++ req.masterpieceId.toStr ++
            ".png")) ∧
    (∀ buf p minted,
      (resolveAsset cfg w req.masterpieceId.toStr req.walletAddress.toStr req.imageUrl).2 =
          .next buf →
      (pinToIpfs cfg w req req.masterpieceId.toStr req.walletAddress.toStr buf).2 = .next p →
      (mintStep cfg w req.walletAddress.toStr p).2 = .next minted →
      ∃ r, (postMint cfg w req).2 = { status := 200, body := .success r } ∧
        r.success = true ∧ r.masterpieceId = req.masterpieceId.toStr ∧
        r.transactionHash = minted.1 ∧ r.tokenId = minted.2 ∧
        r.tokenURI = p.tokenURI ∧ r.ipfs.metadataUrl = r.tokenURI) := by
  have hv : validRequest req = true := by simp [validRequest, hm, ha]
  have hfree := postMint_free cfg w req hv ((JsField.truthy_eq_false_iff _).2 hp)
  refine ⟨hfree, ?_, ?_, ?_, ?_⟩
  · intro c hc
    rw [hfree, sendResponse_calls] at hc
    rcases mem_mintPipeline_stage _ _ _ _ _ _ hc with ⟨h, _⟩ | h | h | h <;> rw [h] <;> decide
  · rw [hfree]
    rcases sendResponse_mintPipeline_status cfg w req req.masterpieceId.toStr
      req.walletAddress.toStr with h | h | h <;> rw [h] <;> decide
  · rw [hfree, sendResponse_calls, mintPipeline_head]
    rfl
  · intro buf p minted hb hpin hmint
    have h := mintPipeline_success cfg w req _ _ buf p minted hb hpin hmint
    refine ⟨successResponse cfg w req.masterpieceId.toStr minted.1 minted.2 p, ?_,
      rfl, rfl, rfl, rfl, rfl, rfl⟩
    rw [hfree]
    generalize mintPipeline cfg w req req.masterpieceId.toStr req.walletAddress.toStr = q at h
    obtain ⟨t, s⟩ := q
    simp only at h
    subst h
    rfl

/-- C7, witness: the free mint of the end-to-end test succeeds without a payment lookup. -/
theorem C7_free_mint_skips_payment_witness :
    ∃ r, (postMint demoConfig (paidWorld "exact") freeRequest).2 =
        { status := 200, body := .success r } ∧
      r.success = true ∧ r.masterpieceId = "abc123" ∧
      r.transactionHash = "0xmint" ∧ r.tokenId = "unknown" ∧
      r.tokenURI = "https://gateway.pinata.cloud/ipfs/QmMeta" ∧
      r.ipfs.metadataUrl = r.tokenURI :=
  (C7_free_mint_skips_payment demoConfig (paidWorld "exact") freeRequest (by decide)
    (by decide) (by decide)).2.2.2.2 [137, 80, 78, 71]
    { imageIpfsHash := "QmImage"
      imageIpfsUrl := "https://gateway.pinata.cloud/ipfs/QmImage"
      nftMetadata := nftMetadata (paidWorld "exact") freeRequest "abc123" "0xOwner"
        "https://gateway.pinata.cloud/ipfs/QmImage"
      metadataIpfsHash := "QmMeta"
      tokenURI := "https://gateway.pinata.cloud/ipfs/QmMeta" }
    ("0xmint", "unknown") (by decide) (by decide) (by decide)

theorem gasLimit_floor (e : Nat) : (gasLimit e : ℤ) = ⌊(e : ℚ) * 12 / 10⌋ := by
  symm
  rw [Int.floor_eq_iff]
  have h1 : gasLimit e * 100 ≤ e * 120 := Nat.div_mul_le_self _ _
  have h2 : e * 120 < (gasLimit e + 1) * 100 := by
    unfold gasLimit; omega
  have h1' : (gasLimit e : ℚ) * 100 ≤ (e : ℚ) * 120 := by exact_mod_cast h1
  have h2' : (e : ℚ) * 120 < ((gasLimit e : ℚ) + 1) * 100 := by exact_mod_cast h2
  constructor
  · push_cast
    rw [le_div_iff₀ (by norm_num)]
    linarith
  · push_cast
    rw [div_lt_iff₀ (by norm_num)]
    linarith

theorem gasLimit_eq_spec_iff (e : Nat) : (gasLimit e : ℤ) = specGasLimit e ↔ 5 ∣ e := by
  unfold specGasLimit
  have h1 : gasLimit e * 100 ≤ e * 120 := Nat.div_mul_le_self _ _
  constructor
  · intro h
    have hc := Int.le_ceil ((e : ℚ) * 12 / 10)
    rw [← h] at hc
    rw [div_le_iff₀ (by norm_num)] at hc
    have hc' : (e : ℚ) * 120 ≤ (gasLimit e : ℚ) * 100 := by push_cast at hc ⊢; linarith
    have hc2 : e * 120 ≤ gasLimit e * 100 := by exact_mod_cast hc'
    unfold gasLimit at hc2 h1
    omega
  · rintro ⟨k, rfl⟩
    have hq : gasLimit (5 * k) = 6 * k := by unfold gasLimit; omega
    rw [hq]
    symm
    rw [Int.ceil_eq_iff]
    push_cast
    constructor
    · rw [lt_div_iff₀ (by norm_num)]; linarith
    · rw [div_le_iff₀ (by norm_num)]; linarith

theorem mem_postMint (cfg : Config) (w : World) (req : MintRequest) (c : Call)
    (h : c ∈ (postMint cfg w req).1) :
    validRequest req = true ∧
    ((req.paymentTxHash.truthy = true ∧
        c ∈ (verifyPayment cfg w req.paymentTxHash.toStr).1) ∨
     ((req.paymentTxHash.truthy = true →
          (verifyPayment cfg w req.paymentTxHash.toStr).2 = .next ()) ∧
        c ∈ (mintPipeline cfg w req req.masterpieceId.toStr req.walletAddress.toStr).1)) := by
  cases hv : validRequest req with
  | false => rw [postMint_invalid cfg w req hv] at h; simp at h
  | true =>
    refine ⟨rfl, ?_⟩
    rw [postMint_eq, sendResponse_calls, postMintTry_valid cfg w req hv] at h
    cases hp : req.paymentTxHash.truthy with
    | false =>
      rw [hp] at h
      rcases Prog.mem_bind _ _ _ h with h | ⟨_, _, h⟩
      · simp at h
      · exact Or.inr ⟨fun hc => (by cases hc), h⟩
    | true =>
      rw [hp] at h
      rcases Prog.mem_bind _ _ _ h with h | ⟨_, hn, h⟩
      · exact Or.inl ⟨rfl, h⟩
      · exact Or.inr ⟨fun _ => hn, h⟩

theorem mem_verifyPayment_stage (cfg : Config) (w : World) (hash : String) (c : Call)
    (h : c ∈ (verifyPayment cfg w hash).1) : c.stage = .payment := by
  obtain ⟨calls, step, heq, hcalls, -⟩ := verifyPayment_cases cfg w hash
  rw [heq] at h
  rcases hcalls c h with h | h <;> rw [h] <;> rfl

theorem mem_postMint_asset (cfg : Config) (w : World) (req : MintRequest) (c : Call)
    (h : c ∈ (postMint cfg w req).1) (hs : c.stage = .asset) :
    c ∈ (resolveAsset cfg w req.masterpieceId.toStr req.walletAddress.toStr
      req.imageUrl).1 := by
  rcases (mem_postMint cfg w req c h).2 with ⟨_, h⟩ | ⟨_, h⟩
  · rw [mem_verifyPayment_stage _ _ _ _ h] at hs; cases hs
  · rcases mem_mintPipeline_stage _ _ _ _ _ _ h with ⟨_, h⟩ | h | h | h
    · exact h
    all_goals rw [h] at hs; cases hs

theorem Call.stage_of_isObjectStore (c : Call) (h : c.isObjectStore = true) :
    c.stage = .asset := by
  cases c <;> first | rfl | simp [Call.isObjectStore] at h

theorem Call.stage_of_isUrlFetch (c : Call) (h : c.isUrlFetch = true) :
    c.stage = .asset := by
  cases c <;> first | rfl | simp [Call.isUrlFetch] at h

theorem sendResponse_mintPipeline_success (cfg : Config) (w : World) (req : MintRequest)
    (m a : String) (r : MintSuccess)
    (h : (sendResponse (mintPipeline cfg w req m a)).2.body = .success r) :
    ∃ buf p minted,
      (resolveAsset cfg w m a req.imageUrl).2 = .next buf ∧
      (pinToIpfs cfg w req m a buf).2 = .next p ∧
      (mintStep cfg w a p).2 = .next minted ∧
      r = successResponse cfg w m minted.1 minted.2 p := by
  have hn := mintPipeline_next cfg w req m a
  have hr := mintPipeline_respond cfg w req m a
  generalize mintPipeline cfg w req m a = q at hn hr h
  obtain ⟨t, s⟩ := q
  cases s with
  | next r' =>
    obtain ⟨buf, p, minted, hb, hp, hm, hr'⟩ := hn r' rfl
    refine ⟨buf, p, minted, hb, hp, hm, ?_⟩
    simp only [sendResponse] at h
    rw [hr'] at h
    injection h with h
    exact h.symm
  | respond r' =>
    simp only [sendResponse] at h
    rcases hr r' rfl with h' | ⟨_, _, h'⟩ <;> rw [h'] at h <;> cases h
  | raise e => cases h

/-- A success body is only ever sent by a run whose steps 2, 3 and 4 fell through, and it
is the body built from their results. -/
theorem postMint_success (cfg : Config) (w : World) (req : MintRequest) (r : MintSuccess)
    (h : (postMint cfg w req).2.body = .success r) :
    ∃ buf p minted,
      (resolveAsset cfg w req.masterpieceId.toStr req.walletAddress.toStr req.imageUrl).2 =
        .next buf ∧
      (pinToIpfs cfg w req req.masterpieceId.toStr req.walletAddress.toStr buf).2 = .next p ∧
      (mintStep cfg w req.walletAddress.toStr p).2 = .next minted ∧
      r = successResponse cfg w req.masterpieceId.toStr minted.1 minted.2 p := by
  cases hv : validRequest req with
  | false => rw [postMint_invalid cfg w req hv] at h; cases h
  | true =>
    cases hp : req.paymentTxHash.truthy with
    | false =>
      rw [postMint_free cfg w req hv hp] at h
      exact sendResponse_mintPipeline_success _ _ _ _ _ _ h
    | true =>
      by_cases hn : (verifyPayment cfg w req.paymentTxHash.toStr).2 = .next ()
      · rw [postMint_paid cfg w req hv hp hn] at h
        exact sendResponse_mintPipeline_success _ _ _ _ _ _ h
      · obtain ⟨e, -, heq⟩ := postMint_payment_failed cfg w req hv hp hn
        rw [heq] at h
        cases h

/-- Once the run reaches step 2, its trace is the payment lookups followed by the calls of
steps 2 to 5. -/
theorem postMint_reached (cfg : Config) (w : World) (req : MintRequest)
    (hv : validRequest req = true)
    (hpay : req.paymentTxHash.truthy = true →
      (verifyPayment cfg w req.paymentTxHash.toStr).2 = .next ()) :
    ∃ pre, (postMint cfg w req).1 =
      pre ++ (mintPipeline cfg w req req.masterpieceId.toStr req.walletAddress.toStr).1 := by
  cases hp : req.paymentTxHash.truthy with
  | false =>
    refine ⟨[], ?_⟩
    rw [postMint_free cfg w req hv hp, sendResponse_calls]
    rfl
  | true =>
    refine ⟨(verifyPayment cfg w req.paymentTxHash.toStr).1, ?_⟩
    rw [postMint_paid cfg w req hv hp (hpay hp), sendResponse_calls]

theorem pinToIpfs_calls (cfg : Config) (w : World) (req : MintRequest) (m a : String)
    (buf : Bytes) (imageIpfsHash : String)
    (h : w.pinFileToIPFS (imageFile m buf) (pinataAuthorization cfg) = .ok imageIpfsHash) :
    (pinToIpfs cfg w req m a buf).1 =
      [imagePinCall cfg m buf, metadataPinCall cfg w req m a imageIpfsHash] := by
  rw [pinToIpfs_eq]
  simp only [h]
  cases w.pinFileToIPFS (metadataFile m (nftMetadata w req m a (pinataGateway ++ imageIpfsHash)))
    (pinataAuthorization cfg) <;> rfl

theorem mintPipeline_calls_of_asset (cfg : Config) (w : World) (req : MintRequest)
    (m a : String) (buf : Bytes)
    (hb : (resolveAsset cfg w m a req.imageUrl).2 = .next buf) :
    ∃ rest, (mintPipeline cfg w req m a).1 =
      (resolveAsset cfg w m a req.imageUrl).1 ++ ((pinToIpfs cfg w req m a buf).1 ++ rest) := by
  rw [mintPipeline_eq, Prog.bind_next _ _ buf hb]
  exact (Prog.bind_calls _ _).imp fun rest hrest => congrArg (_ ++ ·) hrest

/-- C9: whenever a run uploads a metadata document, the upload directly follows the image
upload of the same run, the `image` field of the document is
`https://gateway.pinata.cloud/ipfs/` followed by the identifier that image upload returned,
whatever the request's metadata, and a success response of the run reports the same URL
as `ipfs.imageUrl`. -/
theorem C9_metadata_image_is_pinned_asset (cfg : Config) (w : World) (req : MintRequest)
    (doc : NftMetadata) (url filename contentType authorization : String)
    (h : Call.pinFileToIPFS url (.metadata doc filename contentType) authorization ∈
      (postMint cfg w req).1) :
    ∃ pre post imageBuffer imageIpfsHash,
      (postMint cfg w req).1 =
        pre ++
          Call.pinFileToIPFS pinataEndpoint
              (.image imageBuffer (req.masterpieceId.toStr ++ ".png") "image/png")
              ("Bearer " ++ envTemplate cfg.PINATA_JWT) ::
          Call.pinFileToIPFS url (.metadata doc filename contentType) authorization :: post ∧
      w.pinFileToIPFS (.image imageBuffer (req.masterpieceId.toStr ++ ".png") "image/png")
        ("Bearer " ++ envTemplate cfg.PINATA_JWT) = .ok imageIpfsHash ∧
      doc.image = "https://gateway.pinata.cloud/ipfs/" ++ imageIpfsHash ∧
      ∀ r, (postMint cfg w req).2.body = .success r →
        r.ipfs.imageUrl = doc.image ∧ r.ipfs.imageHash = imageIpfsHash := by
  obtain ⟨hv, hcase⟩ := mem_postMint cfg w req _ h
  rcases hcase with ⟨_, hc⟩ | ⟨hpay, hc⟩
  · have := mem_verifyPayment_stage _ _ _ _ hc
    cases this
  obtain ⟨pre, hpre⟩ := postMint_reached cfg w req hv hpay
  rcases mem_mintPipeline _ _ _ _ _ _ hc with hc | ⟨buf, hb, hc | ⟨p, _, hc | ⟨mt, _, hc⟩⟩⟩
  · rcases mem_resolveAsset _ _ _ _ _ _ hc with ⟨_, hc | hc⟩ | ⟨_, hc⟩ <;> cases hc
  · rcases mem_pinToIpfs _ _ _ _ _ _ _ hc with hc | ⟨ih, h1, hc⟩
    · simp [imagePinCall, imageFile] at hc
    · have hcalls := pinToIpfs_calls cfg w req req.masterpieceId.toStr
        req.walletAddress.toStr buf ih h1
      obtain ⟨rest, hmp⟩ := mintPipeline_calls_of_asset cfg w req req.masterpieceId.toStr
        req.walletAddress.toStr buf hb
      rw [hcalls] at hmp
      have hdoc : doc.image = pinataGateway ++ ih := by
        simp only [metadataPinCall, metadataFile, Call.pinFileToIPFS.injEq,
          PinFile.metadata.injEq] at hc
        rw [hc.2.1.1]
        rfl
      refine ⟨pre ++ (resolveAsset cfg w req.masterpieceId.toStr req.walletAddress.toStr
          req.imageUrl).1, rest, buf, ih, ?_, h1, hdoc, ?_⟩
      · rw [hpre, hmp, hc, List.append_assoc]
        rfl
      · intro r hr
        obtain ⟨buf', p, minted, hb', hp', _, hr'⟩ := postMint_success cfg w req r hr
        rw [hb] at hb'
        injection hb' with hb'
        subst hb'
        obtain ⟨ih', mh, h1', _, _, hp2⟩ := pinToIpfs_next _ _ _ _ _ _ _ hp'
        rw [h1] at h1'
        injection h1' with h1'
        subst h1'
        rw [hr', hp2, hdoc]
        exact ⟨rfl, rfl⟩
  · have := mem_mintStep_stage _ _ _ _ _ hc
    cases this
  · have := (mem_updateDatabase _ _ _ _ _ _ _ hc).2
    cases this

/-- C9, witness: the metadata upload of a free mint follows the image upload and embeds its URL. -/
theorem C9_metadata_image_is_pinned_asset_witness :
    ∃ pre post imageBuffer imageIpfsHash,
      (postMint demoConfig (paidWorld "exact") freeRequest).1 =
        pre ++
          Call.pinFileToIPFS pinataEndpoint (.image imageBuffer ("abc123" ++ ".png") "image/png")
              ("Bearer " ++ "jwt") ::
          Call.pinFileToIPFS pinataEndpoint
              (.metadata
                (nftMetadata (paidWorld "exact") freeRequest "abc123" "0xOwner"
                  "https://gateway.pinata.cloud/ipfs/QmImage")
                "abc123-metadata.json" "application/json")
              "Bearer jwt" :: post ∧
      (paidWorld "exact").pinFileToIPFS
        (.image imageBuffer ("abc123" ++ ".png") "image/png") ("Bearer " ++ "jwt") =
          .ok imageIpfsHash ∧
      (nftMetadata (paidWorld "exact") freeRequest "abc123" "0xOwner"
          "https://gateway.pinata.cloud/ipfs/QmImage").image =
        "https://gateway.pinata.cloud/ipfs/" ++ imageIpfsHash ∧
      ∀ r, (postMint demoConfig (paidWorld "exact") freeRequest).2.body = .success r →
        r.ipfs.imageUrl =
          (nftMetadata (paidWorld "exact") freeRequest "abc123" "0xOwner"
            "https://gateway.pinata.cloud/ipfs/QmImage").image ∧
        r.ipfs.imageHash = imageIpfsHash :=
  C9_metadata_image_is_pinned_asset demoConfig (paidWorld "exact") freeRequest
    (nftMetadata (paidWorld "exact") freeRequest "abc123" "0xOwner"
      "https://gateway.pinata.cloud/ipfs/QmImage")
    pinataEndpoint "abc123-metadata.json" "application/json" "Bearer jwt" (by decide)

/-- C10 as stated fails: for the gas estimate 21001 the run submits the gas limit 25201,
while `ceil(21001 * 1.2) = 25202`. -/
theorem C10_counterexample :
    (paidWorld "exact").estimateGas "0xNFT0000000000000000000000000000000000001" "0xOwner"
        "https://gateway.pinata.cloud/ipfs/QmMeta" = .ok 21001 ∧
    Call.mintNFT "0xNFT0000000000000000000000000000000000001" "0xOwner"
        "https://gateway.pinata.cloud/ipfs/QmMeta"
        { gasLimit := 25201, maxFeePerGas := some 5, maxPriorityFeePerGas := some 1 } ∈
      (postMint demoConfig (paidWorld "exact") freeRequest).1 ∧
    specGasLimit 21001 = 25202 ∧
    (gasLimit 21001 : ℤ) ≠ specGasLimit 21001 := by
  refine ⟨rfl, by decide, ?_, fun h => absurd ((gasLimit_eq_spec_iff 21001).1 h) (by decide)⟩
  unfold specGasLimit
  rw [Int.ceil_eq_iff]
  norm_num

/-- C10, amended: the gas limit submitted with the direct mint transaction is
`estimatedGas * 120 / 100` in integer arithmetic, that is `estimatedGas * 1.2` rounded
down; it equals `ceil(estimatedGas * 1.2)` exactly when `estimatedGas` is a multiple
of 5. -/
theorem C10_gas_limit_rounds_down (cfg : Config) (w : World) (req : MintRequest)
    (contract toAddr tokenURI : String) (overrides : TxOverrides)
    (h : Call.mintNFT contract toAddr tokenURI overrides ∈ (postMint cfg w req).1) :
    useThirdweb cfg = false ∧
    ∃ estimatedGas,
      w.estimateGas contract toAddr tokenURI = .ok estimatedGas ∧
      overrides.gasLimit = estimatedGas * 120 / 100 ∧
      (overrides.gasLimit : ℤ) = ⌊(estimatedGas : ℚ) * 12 / 10⌋ ∧
      ((overrides.gasLimit : ℤ) = specGasLimit estimatedGas ↔ 5 ∣ estimatedGas) := by
  obtain ⟨-, hcase⟩ := mem_postMint cfg w req _ h
  rcases hcase with ⟨_, hc⟩ | ⟨-, hc⟩
  · have := mem_verifyPayment_stage _ _ _ _ hc
    cases this
  rcases mem_mintPipeline _ _ _ _ _ _ hc with hc | ⟨buf, -, hc | ⟨p, -, hc | ⟨mt, -, hc⟩⟩⟩
  · rcases mem_resolveAsset _ _ _ _ _ _ hc with ⟨_, hc | hc⟩ | ⟨_, hc⟩ <;> cases hc
  · rcases mem_pinToIpfs _ _ _ _ _ _ _ hc with hc | ⟨_, _, hc⟩ <;> cases hc
  · rw [mintStep_calls] at hc
    unfold mintStrategy at hc
    cases hu : useThirdweb cfg with
    | true =>
      rw [hu, if_pos rfl] at hc
      rcases mem_mintThirdweb _ _ _ _ _ hc with hc | hc <;> cases hc
    | false =>
      rw [hu] at hc
      simp only [Bool.false_eq_true, if_false] at hc
      rcases mem_mintDirect _ _ _ _ _ hc with hc | ⟨e, he, hc | ⟨fee, _, hc | ⟨_, _, hc⟩⟩⟩
      · cases hc
      · cases hc
      · injection hc with h1 h2 h3 h4
        subst h1 h2 h3 h4
        exact ⟨rfl, e, he, rfl, gasLimit_floor e, gasLimit_eq_spec_iff e⟩
      · cases hc
  · have := (mem_updateDatabase _ _ _ _ _ _ _ hc).2
    cases this

/-- C10, witness: the mint transaction of a free mint carries the estimate times 1.2, rounded down. -/
theorem C10_gas_limit_rounds_down_witness :
    useThirdweb demoConfig = false ∧
    ∃ estimatedGas,
      (paidWorld "exact").estimateGas "0xNFT0000000000000000000000000000000000001" "0xOwner"
        "https://gateway.pinata.cloud/ipfs/QmMeta" = .ok estimatedGas ∧
      (25201 : Nat) = estimatedGas * 120 / 100 ∧
      ((25201 : Nat) : ℤ) = ⌊(estimatedGas : ℚ) * 12 / 10⌋ ∧
      (((25201 : Nat) : ℤ) = specGasLimit estimatedGas ↔ 5 ∣ estimatedGas) :=
  C10_gas_limit_rounds_down demoConfig (paidWorld "exact") freeRequest
    "0xNFT0000000000000000000000000000000000001" "0xOwner"
    "https://gateway.pinata.cloud/ipfs/QmMeta"
    { gasLimit := 25201, maxFeePerGas := some 5, maxPriorityFeePerGas := some 1 } (by decide)

/-! ### Reaching step 4 -/

theorem postMint_response_reached (cfg : Config) (w : World) (req : MintRequest)
    (hv : validRequest req = true)
    (hpay : req.paymentTxHash.truthy = true →
      (verifyPayment cfg w req.paymentTxHash.toStr).2 = .next ()) :
    (postMint cfg w req).2 =
      (sendResponse
        (mintPipeline cfg w req req.masterpieceId.toStr req.walletAddress.toStr)).2 := by
  cases hp : req.paymentTxHash.truthy with
  | false => rw [postMint_free cfg w req hv hp]
  | true => rw [postMint_paid cfg w req hv hp (hpay hp)]

theorem sendResponse_next (p : Prog Response) (r : Response) (h : p.2 = .next r) :
    (sendResponse p).2 = r := by
  obtain ⟨t, s⟩ := p
  simp only at h
  subst h
  rfl

theorem sendResponse_respond (p : Prog Response) (r : Response) (h : p.2 = .respond r) :
    (sendResponse p).2 = r := by
  obtain ⟨t, s⟩ := p
  simp only at h
  subst h
  rfl

/-- A run that reaches step 4 and mints answers with the success body. -/
theorem postMint_minted (cfg : Config) (w : World) (req : MintRequest) (buf : Bytes)
    (p : Pinned) (minted : String × String)
    (hv : validRequest req = true)
    (hpay : req.paymentTxHash.truthy = true →
      (verifyPayment cfg w req.paymentTxHash.toStr).2 = .next ())
    (hb : (resolveAsset cfg w req.masterpieceId.toStr req.walletAddress.toStr
      req.imageUrl).2 = .next buf)
    (hp : (pinToIpfs cfg w req req.masterpieceId.toStr req.walletAddress.toStr buf).2 =
      .next p)
    (hm : (mintStep cfg w req.walletAddress.toStr p).2 = .next minted) :
    (postMint cfg w req).2 =
      { status := 200,
        body := .success
          (successResponse cfg w req.masterpieceId.toStr minted.1 minted.2 p) } := by
  rw [postMint_response_reached cfg w req hv hpay]
  exact sendResponse_next _ _ (mintPipeline_success cfg w req _ _ buf p minted hb hp hm)

/-- A run that reaches step 4 and fails to mint answers with the response of its `catch`. -/
theorem postMint_mint_failed (cfg : Config) (w : World) (req : MintRequest) (buf : Bytes)
    (p : Pinned) (message : String)
    (hv : validRequest req = true)
    (hpay : req.paymentTxHash.truthy = true →
      (verifyPayment cfg w req.paymentTxHash.toStr).2 = .next ())
    (hb : (resolveAsset cfg w req.masterpieceId.toStr req.walletAddress.toStr
      req.imageUrl).2 = .next buf)
    (hp : (pinToIpfs cfg w req req.masterpieceId.toStr req.walletAddress.toStr buf).2 =
      .next p)
    (hm : (mintStep cfg w req.walletAddress.toStr p).2 = .respond (mintFailure p message)) :
    (postMint cfg w req).2 = mintFailure p message := by
  rw [postMint_response_reached cfg w req hv hpay]
  apply sendResponse_respond
  rw [mintPipeline_eq, Prog.bind_next _ _ buf hb, Prog.bind_next _ _ p hp,
    Prog.bind_respond _ _ _ hm]

/-! ### The token id of a confirmed receipt -/

theorem tokenIdOf_no_log (cfg : Config) (w : World) (receipt : Receipt)
    (h : receipt.logs.find? (emittedBy cfg.nftContractAddress) = none) :
    tokenIdOf cfg w receipt = ([], .next "unknown") := by
  unfold tokenIdOf
  rw [h]
  rfl

theorem tokenIdOf_short_log (cfg : Config) (w : World) (receipt : Receipt) (mintEvent : Log)
    (h : receipt.logs.find? (emittedBy cfg.nftContractAddress) = some mintEvent)
    (ht : ¬ mintEvent.topics.length > 3) :
    tokenIdOf cfg w receipt = ([], .next "unknown") := by
  unfold tokenIdOf
  rw [h]
  simp only [ht, if_false]
  rfl

theorem tokenIdOf_decoded (cfg : Config) (w : World) (receipt : Receipt) (mintEvent : Log)
    (topic : String) (n : Nat)
    (h : receipt.logs.find? (emittedBy cfg.nftContractAddress) = some mintEvent)
    (ht : mintEvent.topics[3]? = some topic)
    (hn : w.toBigInt topic = .ok n) :
    tokenIdOf cfg w receipt = ([], .next (toString n)) := by
  have hlen : mintEvent.topics.length > 3 := by
    rcases Nat.lt_or_ge 3 mintEvent.topics.length with hl | hl
    · exact hl
    · rw [List.getElem?_eq_none hl] at ht; cases ht
  have hget : mintEvent.topics.getD 3 "" = topic := by
    rw [List.getD_eq_getElem?_getD, ht]; rfl
  unfold tokenIdOf
  rw [h]
  simp only [hlen, if_true, hget, hn, Prog.bind_eq, Prog.bind, lib, Prog.pure_eq]
  rfl

/-- The direct strategy, once its four calls succeeded, ends as the token id extraction
does. -/
theorem mintDirect_confirmed (cfg : Config) (w : World) (walletAddress : String) (p : Pinned)
    (estimatedGas : Nat) (feeData : FeeData) (txHash : String) (receipt : Receipt)
    (tokenId : String)
    (hwallet : w.newWallet cfg.MINTER_PRIVATE_KEY = .ok ())
    (hgas : w.estimateGas cfg.nftContractAddress walletAddress p.tokenURI = .ok estimatedGas)
    (hfee : w.getFeeData = .ok feeData)
    (hsend : w.mintNFT cfg.nftContractAddress walletAddress p.tokenURI
      { gasLimit := gasLimit estimatedGas, maxFeePerGas := feeData.maxFeePerGas,
        maxPriorityFeePerGas := feeData.maxPriorityFeePerGas } = .ok txHash)
    (hwait : w.wait txHash 2 = .ok receipt)
    (hid : tokenIdOf cfg w receipt = ([], .next tokenId)) :
    (mintDirect cfg w walletAddress p).2 = .next (receipt.hash, tokenId) := by
  rw [mintDirect_eq]
  simp only [hwallet, hgas, hfee, hsend, hwait, hid, Prog.bind, lib, call]

theorem mintStep_direct_confirmed (cfg : Config) (w : World) (walletAddress : String)
    (p : Pinned) (estimatedGas : Nat) (feeData : FeeData) (txHash : String)
    (receipt : Receipt) (tokenId : String)
    (hdirect : useThirdweb cfg = false)
    (hwallet : w.newWallet cfg.MINTER_PRIVATE_KEY = .ok ())
    (hgas : w.estimateGas cfg.nftContractAddress walletAddress p.tokenURI = .ok estimatedGas)
    (hfee : w.getFeeData = .ok feeData)
    (hsend : w.mintNFT cfg.nftContractAddress walletAddress p.tokenURI
      { gasLimit := gasLimit estimatedGas, maxFeePerGas := feeData.maxFeePerGas,
        maxPriorityFeePerGas := feeData.maxPriorityFeePerGas } = .ok txHash)
    (hwait : w.wait txHash 2 = .ok receipt)
    (hid : tokenIdOf cfg w receipt = ([], .next tokenId)) :
    (mintStep cfg w walletAddress p).2 = .next (receipt.hash, tokenId) := by
  have hd := mintDirect_confirmed cfg w walletAddress p estimatedGas feeData txHash receipt
    tokenId hwallet hgas hfee hsend hwait hid
  rcases mintStep_outcome cfg w walletAddress p with ⟨minted, hs, hm⟩ | ⟨message, hs, -⟩
  · rw [hm]
    simp only [mintStrategy, hdirect, Bool.false_eq_true, if_false] at hs
    rw [hd] at hs
    exact hs.symm
  · simp only [mintStrategy, hdirect, Bool.false_eq_true, if_false] at hs
    rw [hd] at hs
    cases hs

/-- C11: in the direct strategy, when the mint transaction is confirmed and its receipt has
no log emitted by the NFT contract address (compared in lower case), the run still answers
200 with `success = true`, `transactionHash` the hash of the receipt and `tokenId` the
string `unknown`. -/
theorem C11_missing_log_still_succeeds (cfg : Config) (w : World) (req : MintRequest)
    (buf : Bytes) (p : Pinned) (estimatedGas : Nat) (feeData : FeeData) (txHash : String)
    (receipt : Receipt)
    (hv : validRequest req = true)
    (hpay : req.paymentTxHash.truthy = true →
      (verifyPayment cfg w req.paymentTxHash.toStr).2 = .next ())
    (hb : (resolveAsset cfg w req.masterpieceId.toStr req.walletAddress.toStr
      req.imageUrl).2 = .next buf)
    (hp : (pinToIpfs cfg w req req.masterpieceId.toStr req.walletAddress.toStr buf).2 =
      .next p)
    (hdirect : useThirdweb cfg = false)
    (hwallet : w.newWallet cfg.MINTER_PRIVATE_KEY = .ok ())
    (hgas : w.estimateGas cfg.nftContractAddress req.walletAddress.toStr p.tokenURI =
      .ok estimatedGas)
    (hfee : w.getFeeData = .ok feeData)
    (hsend : w.mintNFT cfg.nftContractAddress req.walletAddress.toStr p.tokenURI
      { gasLimit := gasLimit estimatedGas, maxFeePerGas := feeData.maxFeePerGas,
        maxPriorityFeePerGas := feeData.maxPriorityFeePerGas } = .ok txHash)
    (hwait : w.wait txHash 2 = .ok receipt)
    (hnolog : ∀ log ∈ receipt.logs,
      toLowerCase log.address ≠ toLowerCase cfg.nftContractAddress) :
    ∃ r, (postMint cfg w req).2 = { status := 200, body := .success r } ∧
      r.success = true ∧ r.transactionHash = receipt.hash ∧ r.tokenId = "unknown" := by
  have hfind : receipt.logs.find? (emittedBy cfg.nftContractAddress) = none := by
    rw [List.find?_eq_none]
    intro log hmem
    simpa [emittedBy] using hnolog log hmem
  have hm := mintStep_direct_confirmed cfg w req.walletAddress.toStr p estimatedGas feeData
    txHash receipt "unknown" hdirect hwallet hgas hfee hsend hwait
    (tokenIdOf_no_log cfg w receipt hfind)
  exact ⟨_, postMint_minted cfg w req buf p _ hv hpay hb hp hm, rfl, rfl, rfl⟩

/-- C11, witness: the free mint of the demo world, whose mint receipt has no log. -/
theorem C11_missing_log_still_succeeds_witness :
    ∃ r, (postMint demoConfig (mintedWorld []) freeRequest).2 =
        { status := 200, body := .success r } ∧
      r.success = true ∧ r.transactionHash = "0xmint" ∧ r.tokenId = "unknown" :=
  C11_missing_log_still_succeeds demoConfig (mintedWorld []) freeRequest [137, 80, 78, 71]
    demoPinned
    21001 { maxFeePerGas := some 5, maxPriorityFeePerGas := some 1 } "0xmint"
    { hash := "0xmint", logs := [] }
    (by decide) (fun _ => by decide) (by decide) (by decide) (by decide) rfl rfl rfl rfl rfl
    (fun _ h => nomatch h)

/-- C12 as stated fails: the receipt holds a log of the NFT contract with a fourth topic,
but an earlier log of the same contract has a single topic, and the reported token id is
`unknown`. -/
theorem C12_counterexample :
    demoNftLog ["0xddf252ad", "0x00", "0x0b", "0x2a"] ∈
      [demoNftLog ["0xf8e1a15a"], demoNftLog ["0xddf252ad", "0x00", "0x0b", "0x2a"]] ∧
    emittedBy demoConfig.nftContractAddress
      (demoNftLog ["0xddf252ad", "0x00", "0x0b", "0x2a"]) = true ∧
    (demoNftLog ["0xddf252ad", "0x00", "0x0b", "0x2a"]).topics[3]? = some "0x2a" ∧
    (mintedWorld [demoNftLog ["0xf8e1a15a"],
      demoNftLog ["0xddf252ad", "0x00", "0x0b", "0x2a"]]).toBigInt "0x2a" = .ok 42 ∧
    (postMint demoConfig
        (mintedWorld [demoNftLog ["0xf8e1a15a"],
          demoNftLog ["0xddf252ad", "0x00", "0x0b", "0x2a"]]) freeRequest).2 =
      { status := 200,
        body := .success
          { success := true
            masterpieceId := "abc123"
            transactionHash := "0xmint"
            tokenId := "unknown"
            tokenURI := "https://gateway.pinata.cloud/ipfs/QmMeta"
            ipfs := { imageUrl := "https://gateway.pinata.cloud/ipfs/QmImage"
                      imageHash := "QmImage"
                      metadataUrl := "https://gateway.pinata.cloud/ipfs/QmMeta"
                      metadataHash := "QmMeta" }
            blockchain := { chain := "Base"
                            contract := "0xNFT0000000000000000000000000000000000001"
                            explorer := "https://basescan.org/tx/0xmint" }
            timestamp := "2025-01-01T00:00:30.000Z" } } :=
  ⟨by decide, by decide, rfl, rfl, by decide⟩

/-- C12, amended: in the direct strategy the token id is read from the first log of the
confirmed receipt that the NFT contract emitted (address compared in lower case).  When
that log carries a fourth topic, the reported `tokenId` is the decimal rendering of the
unsigned integer `ethers.toBigInt` decodes from its topic of index 3; when it has fewer
than four topics the reported `tokenId` is `unknown`, whatever the later logs hold. -/
theorem C12_token_id_of_first_contract_log (cfg : Config) (w : World) (req : MintRequest)
    (buf : Bytes) (p : Pinned) (estimatedGas : Nat) (feeData : FeeData) (txHash : String)
    (receipt : Receipt) (mintEvent : Log)
    (hv : validRequest req = true)
    (hpay : req.paymentTxHash.truthy = true →
      (verifyPayment cfg w req.paymentTxHash.toStr).2 = .next ())
    (hb : (resolveAsset cfg w req.masterpieceId.toStr req.walletAddress.toStr
      req.imageUrl).2 = .next buf)
    (hp : (pinToIpfs cfg w req req.masterpieceId.toStr req.walletAddress.toStr buf).2 =
      .next p)
    (hdirect : useThirdweb cfg = false)
    (hwallet : w.newWallet cfg.MINTER_PRIVATE_KEY = .ok ())
    (hgas : w.estimateGas cfg.nftContractAddress req.walletAddress.toStr p.tokenURI =
      .ok estimatedGas)
    (hfee : w.getFeeData = .ok feeData)
    (hsend : w.mintNFT cfg.nftContractAddress req.walletAddress.toStr p.tokenURI
      { gasLimit := gasLimit estimatedGas, maxFeePerGas := feeData.maxFeePerGas,
        maxPriorityFeePerGas := feeData.maxPriorityFeePerGas } = .ok txHash)
    (hwait : w.wait txHash 2 = .ok receipt)
    (hfirst : (receipt.logs.filter (emittedBy cfg.nftContractAddress)).head? =
      some mintEvent) :
    (∀ topic n, mintEvent.topics[3]? = some topic → w.toBigInt topic = .ok n →
      ∃ r, (postMint cfg w req).2 = { status := 200, body := .success r } ∧
        r.transactionHash = receipt.hash ∧ r.tokenId = toString n) ∧
    (mintEvent.topics.length ≤ 3 →
      ∃ r, (postMint cfg w req).2 = { status := 200, body := .success r } ∧
        r.transactionHash = receipt.hash ∧ r.tokenId = "unknown") := by
  rw [head?_filter_eq_find?] at hfirst
  constructor
  · intro topic n ht hn
    have hm := mintStep_direct_confirmed cfg w req.walletAddress.toStr p estimatedGas feeData
      txHash receipt (toString n) hdirect hwallet hgas hfee hsend hwait
      (tokenIdOf_decoded cfg w receipt mintEvent topic n hfirst ht hn)
    exact ⟨_, postMint_minted cfg w req buf p _ hv hpay hb hp hm, rfl, rfl⟩
  · intro hlen
    have hm := mintStep_direct_confirmed cfg w req.walletAddress.toStr p estimatedGas feeData
      txHash receipt "unknown" hdirect hwallet hgas hfee hsend hwait
      (tokenIdOf_short_log cfg w receipt mintEvent hfirst (Nat.not_lt.2 hlen))
    exact ⟨_, postMint_minted cfg w req buf p _ hv hpay hb hp hm, rfl, rfl⟩

/-- C12, witness: a receipt whose only log of the NFT contract carries the topic `0x2a` at
index 3 is reported with token id `42`. -/
theorem C12_token_id_of_first_contract_log_witness :
    ∃ r, (postMint demoConfig
        (mintedWorld [demoNftLog ["0xddf252ad", "0x00", "0x0b", "0x2a"]]) freeRequest).2 =
        { status := 200, body := .success r } ∧
      r.transactionHash = "0xmint" ∧ r.tokenId = toString 42 :=
  (C12_token_id_of_first_contract_log demoConfig
    (mintedWorld [demoNftLog ["0xddf252ad", "0x00", "0x0b", "0x2a"]]) freeRequest
    [137, 80, 78, 71]
    demoPinned
    21001 { maxFeePerGas := some 5, maxPriorityFeePerGas := some 1 } "0xmint"
    { hash := "0xmint", logs := [demoNftLog ["0xddf252ad", "0x00", "0x0b", "0x2a"]] }
    (demoNftLog ["0xddf252ad", "0x00", "0x0b", "0x2a"])
    (by decide) (fun _ => by decide) (by decide) (by decide) (by decide) rfl rfl rfl rfl rfl
    (by decide)).1 "0x2a" 42 rfl rfl

/-- C13: when both uploads succeeded and the minting step does not produce a mint, at
whatever call of either strategy it failed, the response is 500 `NFT minting failed` whose
`ipfsData.image` is the gateway URL of the pinned image and whose `ipfsData.metadata` is the
gateway URL of the pinned metadata document. -/
theorem C13_failed_mint_returns_pins (cfg : Config) (w : World) (req : MintRequest)
    (buf : Bytes) (p : Pinned)
    (hv : validRequest req = true)
    (hpay : req.paymentTxHash.truthy = true →
      (verifyPayment cfg w req.paymentTxHash.toStr).2 = .next ())
    (hb : (resolveAsset cfg w req.masterpieceId.toStr req.walletAddress.toStr
      req.imageUrl).2 = .next buf)
    (hp : (pinToIpfs cfg w req req.masterpieceId.toStr req.walletAddress.toStr buf).2 =
      .next p)
    (hfail : ∀ minted, (mintStep cfg w req.walletAddress.toStr p).2 ≠ .next minted) :
    ∃ message imageIpfsHash metadataIpfsHash,
      (mintStrategy cfg w req.walletAddress.toStr p).2 = .raise message ∧
      w.pinFileToIPFS (.image buf (req.masterpieceId.toStr ++ ".png") "image/png")
        ("Bearer " ++ envTemplate cfg.PINATA_JWT) = .ok imageIpfsHash ∧
      w.pinFileToIPFS
        (.metadata
          (nftMetadata w req req.masterpieceId.toStr req.walletAddress.toStr
            ("https://gateway.pinata.cloud/ipfs/" ++ imageIpfsHash))
          (req.masterpieceId.toStr ++ "-metadata.json") "application/json")
        ("Bearer " ++ envTemplate cfg.PINATA_JWT) = .ok metadataIpfsHash ∧
      (postMint cfg w req).2 =
        { status := 500,
          body := .mintFailed "NFT minting failed" message
            { image := "https://gateway.pinata.cloud/ipfs/" ++ imageIpfsHash,
              metadata := "https://gateway.pinata.cloud/ipfs/" ++ metadataIpfsHash } } := by
  obtain ⟨ih, mh, h1, h2, -, hpin⟩ := pinToIpfs_next _ _ _ _ _ _ _ hp
  rcases mintStep_outcome cfg w req.walletAddress.toStr p with ⟨minted, -, hm⟩ | ⟨msg, hs, hm⟩
  · exact absurd hm (hfail minted)
  · refine ⟨msg, ih, mh, hs, h1, h2, ?_⟩
    rw [postMint_mint_failed cfg w req buf p msg hv hpay hb hp hm, hpin]
    rfl

/-- C13, witness: a gas estimation that reverts after both uploads succeeded. -/
theorem C13_failed_mint_returns_pins_witness :
    ∃ message imageIpfsHash metadataIpfsHash,
      (mintStrategy demoConfig revertingWorld "0xOwner"
        demoPinned).2 = .raise message ∧
      revertingWorld.pinFileToIPFS (.image [137, 80, 78, 71] ("abc123" ++ ".png") "image/png")
        ("Bearer " ++ "jwt") = .ok imageIpfsHash ∧
      revertingWorld.pinFileToIPFS
        (.metadata
          (nftMetadata revertingWorld freeRequest "abc123" "0xOwner"
            ("https://gateway.pinata.cloud/ipfs/" ++ imageIpfsHash))
          ("abc123" ++ "-metadata.json") "application/json")
        ("Bearer " ++ "jwt") = .ok metadataIpfsHash ∧
      (postMint demoConfig revertingWorld freeRequest).2 =
        { status := 500,
          body := .mintFailed "NFT minting failed" message
            { image := "https://gateway.pinata.cloud/ipfs/" ++ imageIpfsHash,
              metadata := "https://gateway.pinata.cloud/ipfs/" ++ metadataIpfsHash } } :=
  C13_failed_mint_returns_pins demoConfig revertingWorld freeRequest [137, 80, 78, 71]
    demoPinned
    (by decide) (fun _ => by decide) (by decide) (by decide)
    (fun minted h => Step.noConfusion
      ((show (mintStep demoConfig revertingWorld "0xOwner" demoPinned).2 =
          .respond (mintFailure demoPinned "execution reverted") from by decide).symm.trans h))

theorem sendResponse_raise (p : Prog Response) (e : String) (h : p.2 = .raise e) :
    (sendResponse p).2 =
      { status := 500, body := .serviceError "Minting failed" e "minting-service" } := by
  obtain ⟨t, s⟩ := p
  simp only at h
  subst h
  rfl

theorem pinToIpfs_metadata_error (cfg : Config) (w : World) (req : MintRequest) (m a : String)
    (buf : Bytes) (imageIpfsHash e : String)
    (h1 : w.pinFileToIPFS (imageFile m buf) (pinataAuthorization cfg) = .ok imageIpfsHash)
    (h2 : w.pinFileToIPFS
      (metadataFile m (nftMetadata w req m a (pinataGateway ++ imageIpfsHash)))
      (pinataAuthorization cfg) = .error e) :
    (pinToIpfs cfg w req m a buf).2 = .raise e := by
  rw [pinToIpfs_eq]
  simp only [h1, h2]

/-- C14 as stated fails: the image upload returned `QmImage`, the metadata upload is
rejected, and the response is the generic 500 body, none of whose fields contains the
identifier of the pinned image. -/
theorem C14_counterexample :
    metadataPinFailsWorld.pinFileToIPFS
      (.image [137, 80, 78, 71] "abc123.png" "image/png") "Bearer jwt" = .ok "QmImage" ∧
    (postMint demoConfig metadataPinFailsWorld freeRequest).2 =
      { status := 500,
        body := .serviceError "Minting failed" "Request failed with status code 500"
          "minting-service" } ∧
    (postMint demoConfig metadataPinFailsWorld freeRequest).2.body.ipfsData = none ∧
    ∀ s ∈ (postMint demoConfig metadataPinFailsWorld freeRequest).2.body.strings,
      ¬ "QmImage".data <:+: s.data := by
  refine ⟨rfl, by decide, by decide, ?_⟩
  rw [show (postMint demoConfig metadataPinFailsWorld freeRequest).2.body.strings =
    ["Minting failed", "Request failed with status code 500", "minting-service"] from
    by decide]
  decide

/-- C14, amended: when both uploads succeeded and a later step fails, the error response
carries `ipfsData` with the gateway URLs of the pinned image and of the pinned metadata
document; when the image upload succeeded and the metadata upload fails, the response is
the handler's generic 500 `Minting failed` body, which carries the thrown message and no
`ipfsData`. -/
theorem C14_pins_returned_after_both_uploads (cfg : Config) (w : World) (req : MintRequest)
    (buf : Bytes) (imageIpfsHash : String)
    (hv : validRequest req = true)
    (hpay : req.paymentTxHash.truthy = true →
      (verifyPayment cfg w req.paymentTxHash.toStr).2 = .next ())
    (hb : (resolveAsset cfg w req.masterpieceId.toStr req.walletAddress.toStr
      req.imageUrl).2 = .next buf)
    (himage : w.pinFileToIPFS (.image buf (req.masterpieceId.toStr ++ ".png") "image/png")
      ("Bearer " ++ envTemplate cfg.PINATA_JWT) = .ok imageIpfsHash) :
    (∀ metadataIpfsHash p,
      w.pinFileToIPFS
        (.metadata
          (nftMetadata w req req.masterpieceId.toStr req.walletAddress.toStr
            ("https://gateway.pinata.cloud/ipfs/" ++ imageIpfsHash))
          (req.masterpieceId.toStr ++ "-metadata.json") "application/json")
        ("Bearer " ++ envTemplate cfg.PINATA_JWT) = .ok metadataIpfsHash →
      (pinToIpfs cfg w req req.masterpieceId.toStr req.walletAddress.toStr buf).2 =
        .next p →
      (∀ minted, (mintStep cfg w req.walletAddress.toStr p).2 ≠ .next minted) →
      (postMint cfg w req).2.status = 500 ∧
      (postMint cfg w req).2.body.ipfsData =
        some { image := "https://gateway.pinata.cloud/ipfs/" ++ imageIpfsHash,
               metadata := "https://gateway.pinata.cloud/ipfs/" ++ metadataIpfsHash }) ∧
    (∀ e,
      w.pinFileToIPFS
        (.metadata
          (nftMetadata w req req.masterpieceId.toStr req.walletAddress.toStr
            ("https://gateway.pinata.cloud/ipfs/" ++ imageIpfsHash))
          (req.masterpieceId.toStr ++ "-metadata.json") "application/json")
        ("Bearer " ++ envTemplate cfg.PINATA_JWT) = .error e →
      (postMint cfg w req).2 =
        { status := 500,
          body := .serviceError "Minting failed" e "minting-service" }) := by
  constructor
  · intro mh p h2 hp hfail
    obtain ⟨ih', mh', h1', h2', -, hpin⟩ := pinToIpfs_next _ _ _ _ _ _ _ hp
    have hih : ih' = imageIpfsHash := by
      have := h1'.symm.trans himage
      injection this
    subst hih
    have hmh : mh' = mh := by
      have := h2'.symm.trans h2
      injection this
    subst hmh
    rcases mintStep_outcome cfg w req.walletAddress.toStr p with
      ⟨minted, -, hm⟩ | ⟨msg, -, hm⟩
    · exact absurd hm (hfail minted)
    · rw [postMint_mint_failed cfg w req buf p msg hv hpay hb hp hm, hpin]
      exact ⟨rfl, rfl⟩
  · intro e h2
    rw [postMint_response_reached cfg w req hv hpay]
    apply sendResponse_raise
    rw [mintPipeline_eq, Prog.bind_next _ _ buf hb,
      Prog.bind_raise _ _ e (pinToIpfs_metadata_error cfg w req _ _ buf imageIpfsHash e
        himage h2)]

/-- C14, witness: after both uploads a reverting gas estimation is answered with the two
gateway URLs. -/
theorem C14_pins_returned_after_both_uploads_witness :
    (postMint demoConfig revertingWorld freeRequest).2.status = 500 ∧
    (postMint demoConfig revertingWorld freeRequest).2.body.ipfsData =
      some { image := "https://gateway.pinata.cloud/ipfs/" ++ "QmImage",
             metadata := "https://gateway.pinata.cloud/ipfs/" ++ "QmMeta" } :=
  (C14_pins_returned_after_both_uploads demoConfig revertingWorld freeRequest
    [137, 80, 78, 71] "QmImage" (by decide) (fun _ => by decide) (by decide) rfl).1
    "QmMeta" demoPinned rfl (by decide)
    (fun minted h => Step.noConfusion
      ((show (mintStep demoConfig revertingWorld "0xOwner" demoPinned).2 =
          .respond (mintFailure demoPinned "execution reverted") from by decide).symm.trans h))

/-! ### Independence from the reporter -/

theorem Prog.bind_snd_congr {α β : Type} (p q : Prog α) (f g : α → Prog β)
    (hp : p.2 = q.2) (hf : ∀ a, (f a).2 = (g a).2) :
    (Prog.bind p f).2 = (Prog.bind q g).2 := by
  obtain ⟨t, s⟩ := p
  obtain ⟨t', s'⟩ := q
  simp only at hp
  subst hp
  cases s with
  | next a => exact hf a
  | respond r => rfl
  | raise e => rfl

theorem sendResponse_snd_congr (p q : Prog Response) (h : p.2 = q.2) :
    (sendResponse p).2 = (sendResponse q).2 := by
  obtain ⟨t, s⟩ := p
  obtain ⟨t', s'⟩ := q
  simp only at h
  subst h
  cases s <;> rfl

/-- The outcome of steps 2 to 5 is the outcome of steps 2 to 4 followed by the success
response: step 5 never changes it. -/
theorem mintPipeline_outcome (cfg : Config) (w : World) (req : MintRequest) (m a : String) :
    (mintPipeline cfg w req m a).2 =
      (Prog.bind (resolveAsset cfg w m a req.imageUrl) fun imageBuffer =>
        Prog.bind (pinToIpfs cfg w req m a imageBuffer) fun p =>
        Prog.bind (mintStep cfg w a p) fun minted =>
          (([], .next { status := 200,
                        body := .success (successResponse cfg w m minted.1 minted.2 p) }) :
            Prog Response)).2 := by
  rw [mintPipeline_eq]
  refine Prog.bind_snd_congr _ _ _ _ rfl fun buf => ?_
  refine Prog.bind_snd_congr _ _ _ _ rfl fun p => ?_
  refine Prog.bind_snd_congr _ _ _ _ rfl fun minted => ?_
  rw [Prog.bind_next _ _ () (updateDatabase_outcome _ _ _ _ _ _)]

/-- C15: the response of a run does not depend on the reporter: replacing the outcome of
the persistence call by any other outcome (success or any error), and the persistence URL
and token by any other values (set or unset), leaves the response unchanged; in
particular the 200 success body of a run that minted is the same in all these cases. -/
theorem C15_reporter_never_changes_response (cfg : Config) (w : World) (req : MintRequest)
    (url token : Option String)
    (outcome : String → UpdateMint → String → Except String Unit) :
    (postMint { cfg with CLOUDFLARE_D1_API_URL := url, CLOUDFLARE_API_TOKEN := token }
        { w with updateMint := outcome } req).2 =
      (postMint cfg w req).2 := by
  rw [postMint_eq, postMint_eq]
  apply sendResponse_snd_congr
  rw [postMintTry_eq, postMintTry_eq]
  split
  · rfl
  · refine Prog.bind_snd_congr _ _ _ _ rfl fun _ => ?_
    rw [mintPipeline_outcome, mintPipeline_outcome]
    rfl

/-! ### The order of the calls -/

theorem Call.rank_of_payment (c : Call) (h : c.stage = .payment) : c.rank = 0 := by
  cases c <;> first | rfl | cases h

theorem Call.rank_of_asset (c : Call) (h : c.stage = .asset) : c.rank = 1 := by
  cases c <;> first | rfl | cases h

theorem Call.rank_of_mint (c : Call) (h : c.stage = .mint) : c.rank = 4 := by
  cases c <;> first | rfl | cases h

theorem Call.rank_of_report (c : Call) (h : c.stage = .report) : c.rank = 5 := by
  cases c <;> first | rfl | cases h

theorem Prog.bind_ordered {α β : Type} (p : Prog α) (f : α → Prog β) (lo hi : Nat)
    (hp : p.1.Pairwise fun c d => c.rank ≤ d.rank)
    (hr : ∀ c ∈ p.1, lo ≤ c.rank ∧ c.rank ≤ hi)
    (hf : ∀ a, p.2 = .next a →
      ((f a).1.Pairwise fun c d => c.rank ≤ d.rank) ∧ ∀ c ∈ (f a).1, hi ≤ c.rank)
    (hlo : lo ≤ hi) :
    ((Prog.bind p f).1.Pairwise fun c d => c.rank ≤ d.rank) ∧
      ∀ c ∈ (Prog.bind p f).1, lo ≤ c.rank := by
  cases hs : p.2 with
  | next a =>
    rw [Prog.bind_next p f a hs]
    obtain ⟨hfp, hfr⟩ := hf a hs
    constructor
    · rw [List.pairwise_append]
      exact ⟨hp, hfp, fun c hc d hd => le_trans (hr c hc).2 (hfr d hd)⟩
    · intro c hc
      rcases List.mem_append.1 hc with hc | hc
      · exact (hr c hc).1
      · exact le_trans hlo (hfr c hc)
  | respond r =>
    rw [Prog.bind_respond p f r hs]
    exact ⟨hp, fun c hc => (hr c hc).1⟩
  | raise e =>
    rw [Prog.bind_raise p f e hs]
    exact ⟨hp, fun c hc => (hr c hc).1⟩

theorem pairwise_rank_of_const (l : List Call) (k : Nat) (h : ∀ c ∈ l, c.rank = k) :
    l.Pairwise fun c d => c.rank ≤ d.rank :=
  List.pairwise_of_forall_mem_list fun c hc d hd => by rw [h c hc, h d hd]

theorem mem_verifyPayment_rank (cfg : Config) (w : World) (hash : String) (c : Call)
    (h : c ∈ (verifyPayment cfg w hash).1) : c.rank = 0 :=
  Call.rank_of_payment c (mem_verifyPayment_stage cfg w hash c h)

theorem mem_resolveAsset_rank (cfg : Config) (w : World) (m a : String) (imageUrl : JsField)
    (c : Call) (h : c ∈ (resolveAsset cfg w m a imageUrl).1) : c.rank = 1 := by
  rcases mem_resolveAsset _ _ _ _ _ _ h with ⟨_, h | h⟩ | ⟨_, h⟩ <;> rw [h] <;> rfl

theorem pinToIpfs_ordered (cfg : Config) (w : World) (req : MintRequest) (m a : String)
    (buf : Bytes) :
    ((pinToIpfs cfg w req m a buf).1.Pairwise fun c d => c.rank ≤ d.rank) ∧
      ∀ c ∈ (pinToIpfs cfg w req m a buf).1, 2 ≤ c.rank ∧ c.rank ≤ 3 := by
  cases h1 : w.pinFileToIPFS (imageFile m buf) (pinataAuthorization cfg) with
  | error e =>
    rw [pinToIpfs_eq]
    simp only [h1]
    simp [imagePinCall, imageFile, Call.rank]
  | ok ih =>
    rw [pinToIpfs_calls cfg w req m a buf ih h1]
    simp [imagePinCall, imageFile, metadataPinCall, metadataFile, Call.rank]

theorem mem_mintStep_rank (cfg : Config) (w : World) (walletAddress : String) (p : Pinned)
    (c : Call) (h : c ∈ (mintStep cfg w walletAddress p).1) : c.rank = 4 :=
  Call.rank_of_mint c (mem_mintStep_stage cfg w walletAddress p c h)

theorem mem_updateDatabase_rank (cfg : Config) (w : World) (m tx id : String) (p : Pinned)
    (c : Call) (h : c ∈ (updateDatabase cfg w m tx id p).1) : c.rank = 5 := by
  rw [(mem_updateDatabase _ _ _ _ _ _ _ h).2]
  rfl

theorem mintPipeline_tails (cfg : Config) (w : World) (req : MintRequest) (m a : String) :
    mintPipeline cfg w req m a =
      Prog.bind (resolveAsset cfg w m a req.imageUrl) (afterAsset cfg w req m a) :=
  rfl

theorem afterMint_ordered (cfg : Config) (w : World) (m : String) (p : Pinned)
    (minted : String × String) :
    ((afterMint cfg w m p minted).1.Pairwise fun c d => c.rank ≤ d.rank) ∧
      ∀ c ∈ (afterMint cfg w m p minted).1, 5 ≤ c.rank :=
  Prog.bind_ordered _ _ 5 5
    (pairwise_rank_of_const _ 5 fun c hc => mem_updateDatabase_rank _ _ _ _ _ _ c hc)
    (fun c hc => by rw [mem_updateDatabase_rank _ _ _ _ _ _ c hc]; exact ⟨le_rfl, le_rfl⟩)
    (fun _ _ => ⟨List.Pairwise.nil, fun c hc => nomatch hc⟩) le_rfl

theorem afterPin_ordered (cfg : Config) (w : World) (m a : String) (p : Pinned) :
    ((afterPin cfg w m a p).1.Pairwise fun c d => c.rank ≤ d.rank) ∧
      ∀ c ∈ (afterPin cfg w m a p).1, 4 ≤ c.rank :=
  Prog.bind_ordered _ _ 4 4
    (pairwise_rank_of_const _ 4 fun c hc => mem_mintStep_rank _ _ _ _ c hc)
    (fun c hc => by rw [mem_mintStep_rank _ _ _ _ c hc]; exact ⟨le_rfl, le_rfl⟩)
    (fun minted _ => ⟨(afterMint_ordered cfg w m p minted).1,
      fun c hc => le_trans (by decide) ((afterMint_ordered cfg w m p minted).2 c hc)⟩) le_rfl

theorem afterAsset_ordered (cfg : Config) (w : World) (req : MintRequest) (m a : String)
    (buf : Bytes) :
    ((afterAsset cfg w req m a buf).1.Pairwise fun c d => c.rank ≤ d.rank) ∧
      ∀ c ∈ (afterAsset cfg w req m a buf).1, 2 ≤ c.rank :=
  Prog.bind_ordered _ _ 2 3 (pinToIpfs_ordered cfg w req m a buf).1
    (pinToIpfs_ordered cfg w req m a buf).2
    (fun p _ => ⟨(afterPin_ordered cfg w m a p).1,
      fun c hc => le_trans (by decide) ((afterPin_ordered cfg w m a p).2 c hc)⟩) (by decide)

theorem mintPipeline_ordered (cfg : Config) (w : World) (req : MintRequest) (m a : String) :
    ((mintPipeline cfg w req m a).1.Pairwise fun c d => c.rank ≤ d.rank) ∧
      ∀ c ∈ (mintPipeline cfg w req m a).1, 1 ≤ c.rank := by
  rw [mintPipeline_tails]
  exact Prog.bind_ordered _ _ 1 1
    (pairwise_rank_of_const _ 1 fun c hc => mem_resolveAsset_rank _ _ _ _ _ c hc)
    (fun c hc => by rw [mem_resolveAsset_rank _ _ _ _ _ c hc]; exact ⟨le_rfl, le_rfl⟩)
    (fun buf _ => ⟨(afterAsset_ordered cfg w req m a buf).1,
      fun c hc => le_trans (by decide) ((afterAsset_ordered cfg w req m a buf).2 c hc)⟩)
    le_rfl

theorem postMint_ordered (cfg : Config) (w : World) (req : MintRequest) :
    (postMint cfg w req).1.Pairwise fun c d => c.rank ≤ d.rank := by
  cases hv : validRequest req with
  | false =>
    rw [postMint_invalid cfg w req hv]
    exact List.Pairwise.nil
  | true =>
    rw [postMint_eq, sendResponse_calls, postMintTry_valid cfg w req hv]
    refine (Prog.bind_ordered _ _ 0 0 ?_ ?_
      (fun _ _ => ⟨(mintPipeline_ordered cfg w req _ _).1, fun c _ => Nat.zero_le _⟩)
      le_rfl).1
    · split
      · exact pairwise_rank_of_const _ 0 fun c hc => mem_verifyPayment_rank _ _ _ c hc
      · exact List.Pairwise.nil
    · intro c hc
      split at hc
      · rw [mem_verifyPayment_rank _ _ _ c hc]; exact ⟨le_rfl, le_rfl⟩
      · exact nomatch hc

/-- C16: in every run the external calls occur in the stage order payment verification,
asset resolution, image pin, metadata pin, mint, reporter, and a call of a stage is made
only after every earlier stage that ran succeeded: an asset call only if payment
verification was skipped or passed, a pin only if the asset was resolved, the metadata pin
only if the image pin succeeded, a mint call only if both pins succeeded, and the reporter
call only if the mint succeeded. -/
theorem C16_stage_order (cfg : Config) (w : World) (req : MintRequest) :
    ((postMint cfg w req).1.Pairwise fun c d => c.rank ≤ d.rank) ∧
    ∀ c ∈ (postMint cfg w req).1,
      validRequest req = true ∧
      (1 ≤ c.rank →
        (req.paymentTxHash.truthy = true →
          (verifyPayment cfg w req.paymentTxHash.toStr).2 = .next ())) ∧
      (2 ≤ c.rank →
        ∃ buf,
          (resolveAsset cfg w req.masterpieceId.toStr req.walletAddress.toStr
            req.imageUrl).2 = .next buf ∧
          (3 ≤ c.rank →
            ∃ imageIpfsHash,
              w.pinFileToIPFS (imageFile req.masterpieceId.toStr buf)
                (pinataAuthorization cfg) = .ok imageIpfsHash ∧
              (4 ≤ c.rank →
                ∃ p,
                  (pinToIpfs cfg w req req.masterpieceId.toStr req.walletAddress.toStr
                    buf).2 = .next p ∧
                  (5 ≤ c.rank →
                    ∃ minted,
                      (mintStep cfg w req.walletAddress.toStr p).2 = .next minted)))) := by
  refine ⟨postMint_ordered cfg w req, fun c hc => ?_⟩
  obtain ⟨hv, hcase⟩ := mem_postMint cfg w req c hc
  refine ⟨hv, ?_⟩
  rcases hcase with ⟨_, hc⟩ | ⟨hpay, hc⟩
  · have hr := mem_verifyPayment_rank _ _ _ c hc
    exact ⟨fun h => by omega, fun h => by omega⟩
  refine ⟨fun _ => hpay, ?_⟩
  rcases mem_mintPipeline _ _ _ _ _ _ hc with hc | ⟨buf, hb, hc | ⟨p, hp, hc | ⟨mt, hm, hc⟩⟩⟩
  · have hr := mem_resolveAsset_rank _ _ _ _ _ c hc
    exact fun h => by omega
  · refine fun _ => ⟨buf, hb, ?_⟩
    rcases mem_pinToIpfs _ _ _ _ _ _ _ hc with hc | ⟨ih, h1, hc⟩
    · have hr : c.rank = 2 := by rw [hc]; rfl
      exact fun h => by omega
    · have hr : c.rank = 3 := by rw [hc]; rfl
      exact fun _ => ⟨ih, h1, fun h => by omega⟩
  · obtain ⟨ih, _, h1, _, _, _⟩ := pinToIpfs_next _ _ _ _ _ _ _ hp
    have hr := mem_mintStep_rank _ _ _ _ c hc
    exact fun _ => ⟨buf, hb, fun _ => ⟨ih, h1, fun _ => ⟨p, hp, fun h => by omega⟩⟩⟩
  · obtain ⟨ih, _, h1, _, _, _⟩ := pinToIpfs_next _ _ _ _ _ _ _ hp
    exact fun _ => ⟨buf, hb, fun _ => ⟨ih, h1, fun _ => ⟨p, hp, fun _ => ⟨mt, hm⟩⟩⟩⟩

/-! ### The minting strategies -/

theorem mem_postMint_mint (cfg : Config) (w : World) (req : MintRequest) (c : Call)
    (h : c ∈ (postMint cfg w req).1) (hs : c.stage = .mint) :
    ∃ p, c ∈ (mintStrategy cfg w req.walletAddress.toStr p).1 := by
  rcases (mem_postMint cfg w req c h).2 with ⟨_, h⟩ | ⟨_, h⟩
  · rw [mem_verifyPayment_stage _ _ _ _ h] at hs; cases hs
  · rcases mem_mintPipeline _ _ _ _ _ _ h with h | ⟨buf, _, h | ⟨p, _, h | ⟨mt, _, h⟩⟩⟩
    · rcases mem_resolveAsset _ _ _ _ _ _ h with ⟨_, h | h⟩ | ⟨_, h⟩ <;>
        · rw [h] at hs; cases hs
    · rcases mem_pinToIpfs _ _ _ _ _ _ _ h with h | ⟨_, _, h⟩ <;>
        · rw [h] at hs; cases hs
    · rw [mintStep_calls] at h
      exact ⟨p, h⟩
    · rw [(mem_updateDatabase _ _ _ _ _ _ _ h).2] at hs; cases hs

theorem Call.stage_of_isSdk (c : Call) (h : c.isSdk = true) : c.stage = .mint := by
  cases c <;> first | rfl | cases h

theorem Call.stage_of_isDirect (c : Call) (h : c.isDirect = true) : c.stage = .mint := by
  cases c <;> first | rfl | cases h

theorem mem_mintStrategy_sdk (cfg : Config) (w : World) (a : String) (p : Pinned) (c : Call)
    (hu : useThirdweb cfg = true) (h : c ∈ (mintStrategy cfg w a p).1) :
    c.isSdk = true ∧ c.isDirect = false := by
  simp only [mintStrategy, hu, if_true] at h
  rcases mem_mintThirdweb _ _ _ _ _ h with h | h <;> rw [h] <;> exact ⟨rfl, rfl⟩

theorem mem_mintStrategy_direct (cfg : Config) (w : World) (a : String) (p : Pinned)
    (c : Call) (hu : useThirdweb cfg = false) (h : c ∈ (mintStrategy cfg w a p).1) :
    c.isDirect = true ∧ c.isSdk = false := by
  simp only [mintStrategy, hu, Bool.false_eq_true, if_false] at h
  rcases mem_mintDirect _ _ _ _ _ h with h | ⟨_, _, h | ⟨_, _, h | ⟨_, _, h⟩⟩⟩ <;>
    rw [h] <;> exact ⟨rfl, rfl⟩

theorem useThirdweb_iff (cfg : Config) :
    useThirdweb cfg = true ↔
      cfg.USE_THIRDWEB = some "true" ∧
        ∃ key, cfg.THIRDWEB_SECRET_KEY = some key ∧ key ≠ "" := by
  unfold useThirdweb
  cases hk : cfg.THIRDWEB_SECRET_KEY with
  | none => simp [envTruthy]
  | some key => simp [envTruthy]

/-- C18, the defect: under the SDK strategy the minting step hands the chain the metadata
object and not the token URI of the pinned metadata document: no call of the run carries
that URI, while the success response reports it as `tokenURI`.  Under the direct strategy
the same request mints for `0xOwner` with the URI of the pinned metadata document. -/
theorem C18_sdk_mint_without_token_uri :
    useThirdweb sdkConfig = true ∧
    (postMint sdkConfig (paidWorld "exact") freeRequest).1.filter
        (fun c => c.stage = .mint) =
      [.sdkGetContract "0xNFT0000000000000000000000000000000000001",
        .sdkMintTo "0xOwner"
          { name := "Test NFT", description := "Test minting",
            image := "https://gateway.pinata.cloud/ipfs/QmImage",
            attributes :=
              [{ trait_type := "Artist", value := "0xOwner" },
                { trait_type := "Creation Date", value := "2025-01-01T00:00:00.000Z" },
                { trait_type := "High Resolution", value := "No" }] }] ∧
    (∀ c ∈ (postMint sdkConfig (paidWorld "exact") freeRequest).1, c.tokenURI = none) ∧
    (∃ r, (postMint sdkConfig (paidWorld "exact") freeRequest).2 =
        { status := 200, body := .success r } ∧
      r.tokenId = "7" ∧ r.tokenURI = "https://gateway.pinata.cloud/ipfs/QmMeta") ∧
    useThirdweb demoConfig = false ∧
    Call.mintNFT "0xNFT0000000000000000000000000000000000001" "0xOwner"
        "https://gateway.pinata.cloud/ipfs/QmMeta"
        { gasLimit := 25201, maxFeePerGas := some 5, maxPriorityFeePerGas := some 1 } ∈
      (postMint demoConfig (paidWorld "exact") freeRequest).1 := by
  refine ⟨by decide, by decide, by decide, ⟨_, rfl, by decide, by decide⟩, by decide,
    by decide⟩

/-- C19 as stated fails: with the SDK strategy selected and no treasury address, a paid
request whose transfer carries the full amount is rejected by payment verification. -/
theorem C19_counterexample :
    useThirdweb sdkNoTreasuryConfig = true ∧
    sdkNoTreasuryConfig.TREASURY_WALLET_ADDRESS = none ∧
    paidRequest.paymentTxHash = .str "0xpay" ∧
    postMint sdkNoTreasuryConfig (paidWorld "exact") paidRequest =
      ([.getTransaction "0xpay", .getTransactionReceipt "0xpay"],
        { status := 400, body := .error "Payment verification failed" }) :=
  ⟨by decide, rfl, rfl, by decide⟩

/-- C19, amended: payment verification runs before, and independently of, the minting
strategy.  For a valid request carrying a `paymentTxHash` whose transaction is found and
whose first payment-token log decodes to a sufficient amount, an unset treasury address is
a hard failure, 400 `Payment verification failed` after the two lookups, under the direct
strategy and under the SDK strategy alike. -/
theorem C19_payment_ignores_strategy (cfg : Config) (w : World) (req : MintRequest)
    (receipt : Receipt) (ev : Log) (args : TransferArgs)
    (useThirdwebVar secretKey : Option String)
    (hv : validRequest req = true)
    (hpay : req.paymentTxHash.truthy = true)
    (htre : cfg.TREASURY_WALLET_ADDRESS = none)
    (htx : w.getTransaction req.paymentTxHash.toStr = .ok (some ()))
    (hrc : w.getTransactionReceipt req.paymentTxHash.toStr = .ok (some receipt))
    (hlog : receipt.logs.find? (emittedBy DEGEN_TOKEN_ADDRESS) = some ev)
    (hdec : w.parseLog ev.topics ev.data = .ok (some args))
    (hamt : ¬ args.value < expectedAmount) :
    verifyPayment { cfg with USE_THIRDWEB := useThirdwebVar, THIRDWEB_SECRET_KEY := secretKey }
        w req.paymentTxHash.toStr =
      verifyPayment cfg w req.paymentTxHash.toStr ∧
    postMint { cfg with USE_THIRDWEB := useThirdwebVar, THIRDWEB_SECRET_KEY := secretKey }
        w req =
      ([.getTransaction req.paymentTxHash.toStr,
          .getTransactionReceipt req.paymentTxHash.toStr],
        { status := 400, body := .error "Payment verification failed" }) := by
  have hvp : verifyPayment
      { cfg with USE_THIRDWEB := useThirdwebVar, THIRDWEB_SECRET_KEY := secretKey } w
      req.paymentTxHash.toStr = verifyPayment cfg w req.paymentTxHash.toStr := rfl
  have hd := verifyPayment_decoded cfg w req.paymentTxHash.toStr () receipt ev args htx hrc
    hlog hdec
  have hout : decodedOutcome cfg args = paymentError "Payment verification failed" := by
    simp only [decodedOutcome, hamt, htre, if_false]
  refine ⟨hvp, ?_⟩
  have hfail : (verifyPayment
      { cfg with USE_THIRDWEB := useThirdwebVar, THIRDWEB_SECRET_KEY := secretKey } w
      req.paymentTxHash.toStr).2 ≠ .next () := by
    rw [hvp, hd, hout]
    intro h
    cases h
  obtain ⟨e, he, hpost⟩ := postMint_payment_failed
    { cfg with USE_THIRDWEB := useThirdwebVar, THIRDWEB_SECRET_KEY := secretKey } w req hv
    hpay hfail
  rw [hpost, hvp, hd]
  rw [hvp, hd, hout] at he
  simp only [paymentError] at he
  injection he with he
  injection he with _ he
  injection he with he
  rw [← he]

/-- C19, witness: the paid demo request without a treasury address, under either value of
the strategy switch. -/
theorem C19_payment_ignores_strategy_witness :
    postMint { noTreasuryConfig with USE_THIRDWEB := some "true",
                                     THIRDWEB_SECRET_KEY := some "secret" }
        (paidWorld "exact") paidRequest =
      ([.getTransaction "0xpay", .getTransactionReceipt "0xpay"],
        { status := 400, body := .error "Payment verification failed" }) :=
  (C19_payment_ignores_strategy noTreasuryConfig (paidWorld "exact") paidRequest
    { hash := "0xpay", logs := [demoTransferLog "exact"] } (demoTransferLog "exact")
    { src := "0x1110000000000000000000000000000000000003",
      toAddr := "0xabc0000000000000000000000000000000000002", value := 10 ^ 19 }
    (some "true") (some "secret") (by decide) (by decide) rfl rfl rfl (by decide) rfl
    (by decide)).2

/-! ### The fallback gradient -/

theorem gradientFactor_nonneg (width height x y : Nat) :
    0 ≤ gradientFactor width height x y := by
  unfold gradientFactor
  positivity

theorem gradientFactor_lt_one (width height x y : Nat) (hw : 0 < width) (hh : 0 < height)
    (hx : x < width) (hy : y < height) : gradientFactor width height x y < 1 := by
  unfold gradientFactor
  have hw' : (0 : ℚ) < width := by exact_mod_cast hw
  have hh' : (0 : ℚ) < height := by exact_mod_cast hh
  have h1 : (x : ℚ) / width < 1 := by
    rw [div_lt_one hw']
    exact_mod_cast hx
  have h2 : (y : ℚ) / height < 1 := by
    rw [div_lt_one hh']
    exact_mod_cast hy
  linarith

theorem creationChannels_eq_corsFixChannels (width height x y : Nat) :
    creationChannels width height x y = corsFixChannels width height x y := by
  unfold creationChannels corsFixChannels
  norm_num

/-- C20: for every image size with positive width and height and every pixel inside it,
with the gradient factor taken as an exact rational, the channels of the fallback gradient
are integers with `147 ≤ r ≤ 254`, `51 ≤ g ≤ 99` and `180 ≤ b ≤ 234`, hence all in
`0..255`, and the formula of the creation service and the formula of the cors-fix service
give the same channels at the same pixel. -/
theorem C20_gradient_channels_in_range (width height x y : Nat)
    (hw : 0 < width) (hh : 0 < height) (hx : x < width) (hy : y < height) :
    (147 ≤ (creationChannels width height x y).r ∧
      (creationChannels width height x y).r ≤ 254) ∧
    (51 ≤ (creationChannels width height x y).g ∧
      (creationChannels width height x y).g ≤ 99) ∧
    (180 ≤ (creationChannels width height x y).b ∧
      (creationChannels width height x y).b ≤ 234) ∧
    (∀ v ∈ [(creationChannels width height x y).r, (creationChannels width height x y).g,
        (creationChannels width height x y).b], 0 ≤ v ∧ v ≤ 255) ∧
    corsFixChannels width height x y = creationChannels width height x y := by
  have h0 := gradientFactor_nonneg width height x y
  have h1 := gradientFactor_lt_one width height x y hw hh hx hy
  have hr : 147 ≤ (creationChannels width height x y).r ∧
      (creationChannels width height x y).r ≤ 254 := by
    constructor
    · show (147 : ℤ) ≤ ⌊_⌋
      rw [Int.le_floor]
      push_cast
      nlinarith
    · show ⌊_⌋ ≤ (254 : ℤ)
      rw [← Int.lt_add_one_iff, Int.floor_lt]
      push_cast
      nlinarith
  have hg : 51 ≤ (creationChannels width height x y).g ∧
      (creationChannels width height x y).g ≤ 99 := by
    constructor
    · show (51 : ℤ) ≤ ⌊_⌋
      rw [Int.le_floor]
      push_cast
      nlinarith
    · show ⌊_⌋ ≤ (99 : ℤ)
      rw [← Int.lt_add_one_iff, Int.floor_lt]
      push_cast
      nlinarith
  have hb : 180 ≤ (creationChannels width height x y).b ∧
      (creationChannels width height x y).b ≤ 234 := by
    constructor
    · show (180 : ℤ) ≤ ⌊_⌋
      rw [Int.le_floor]
      push_cast
      nlinarith
    · show ⌊_⌋ ≤ (234 : ℤ)
      rw [← Int.lt_add_one_iff, Int.floor_lt]
      push_cast
      nlinarith
  refine ⟨hr, hg, hb, ?_, (creationChannels_eq_corsFixChannels width height x y).symm⟩
  intro v hv
  simp only [List.mem_cons, List.mem_singleton, List.not_mem_nil, or_false] at hv
  rcases hv with rfl | rfl | rfl <;> omega

/-- C20, witness: the last pixel of the 1920 by 1080 image. -/
theorem C20_gradient_channels_in_range_witness :
    gradientSize true = (1920, 1080) ∧ gradientSize false = (1024, 1024) ∧
    (147 ≤ (creationChannels 1920 1080 1919 1079).r ∧
      (creationChannels 1920 1080 1919 1079).r ≤ 254) ∧
    (51 ≤ (creationChannels 1920 1080 1919 1079).g ∧
      (creationChannels 1920 1080 1919 1079).g ≤ 99) ∧
    (180 ≤ (creationChannels 1920 1080 1919 1079).b ∧
      (creationChannels 1920 1080 1919 1079).b ≤ 234) ∧
    (∀ v ∈ [(creationChannels 1920 1080 1919 1079).r, (creationChannels 1920 1080 1919 1079).g,
        (creationChannels 1920 1080 1919 1079).b], 0 ≤ v ∧ v ≤ 255) ∧
    corsFixChannels 1920 1080 1919 1079 = creationChannels 1920 1080 1919 1079 :=
  ⟨rfl, rfl, C20_gradient_channels_in_range 1920 1080 1919 1079 (by decide) (by decide)
    (by decide) (by decide)⟩

/-! ### The block-filling loop -/

/-- Enough fuel gives the result: once the condition is false from the value the fuel
reaches on, more fuel changes nothing. -/
theorem forLoop_more_fuel (cond : Nat → Bool) (step : Nat) (body : Nat → List PixelWrite)
    (fuel extra i : Nat) (h : ∀ j, i + fuel * step ≤ j → cond j = false) :
    forLoop cond step body (fuel + extra) i = forLoop cond step body fuel i := by
  induction fuel generalizing i with
  | zero =>
    have hi : cond i = false := h i (by simp)
    cases extra with
    | zero => rfl
    | succ e => simp [forLoop, hi]
  | succ n ih =>
    have hstep : ∀ j, i + step + n * step ≤ j → cond j = false := by
      intro j hj
      apply h
      rw [Nat.succ_mul]
      omega
    rw [Nat.succ_add]
    simp only [forLoop, ih (i + step) hstep]

/-- Every write of a loop is made by an iteration whose condition held. -/
theorem mem_forLoop (cond : Nat → Bool) (step : Nat) (body : Nat → List PixelWrite)
    (fuel i : Nat) (w : PixelWrite) (h : w ∈ forLoop cond step body fuel i) :
    ∃ k, k < fuel ∧ cond (i + k * step) = true ∧ w ∈ body (i + k * step) := by
  induction fuel generalizing i with
  | zero => simp [forLoop] at h
  | succ n ih =>
    simp only [forLoop] at h
    split at h
    · rename_i hc
      rcases List.mem_append.1 h with h | h
      · exact ⟨0, Nat.succ_pos n, by simpa using hc, by simpa using h⟩
      · obtain ⟨k, hk, hck, hw⟩ := ih (i + step) h
        have e : i + step + k * step = i + (k + 1) * step := by rw [Nat.succ_mul]; omega
        rw [e] at hck hw
        exact ⟨k + 1, Nat.succ_lt_succ hk, hck, hw⟩
    · simp at h

/-- Every iteration reached with the condition true all along makes its writes. -/
theorem mem_forLoop_of (cond : Nat → Bool) (step : Nat) (body : Nat → List PixelWrite)
    (fuel i k : Nat) (w : PixelWrite) (hk : k < fuel)
    (hc : ∀ m, m ≤ k → cond (i + m * step) = true) (hw : w ∈ body (i + k * step)) :
    w ∈ forLoop cond step body fuel i := by
  induction fuel generalizing i k with
  | zero => exact absurd hk (Nat.not_lt_zero k)
  | succ n ih =>
    have h0 : cond i = true := by simpa using hc 0 (Nat.zero_le k)
    simp only [forLoop, h0, if_true]
    cases k with
    | zero => exact List.mem_append_left _ (by simpa using hw)
    | succ k =>
      apply List.mem_append_right
      have e : ∀ m, i + step + m * step = i + (m + 1) * step := by
        intro m; rw [Nat.succ_mul]; omega
      apply ih (i + step) k (Nat.lt_of_succ_lt_succ hk)
      · intro m hm
        rw [e]
        exact hc (m + 1) (Nat.succ_le_succ hm)
      · rw [e]
        exact hw

/-- The writes of a loop are pairwise related when those of each iteration are, and those
of an earlier iteration are related to those of a later one. -/
theorem pairwise_forLoop (R : PixelWrite → PixelWrite → Prop) (cond : Nat → Bool)
    (step : Nat) (body : Nat → List PixelWrite) (fuel i : Nat)
    (hbody : ∀ k, (body (i + k * step)).Pairwise R)
    (hcross : ∀ k k' a b, k < k' → a ∈ body (i + k * step) → b ∈ body (i + k' * step) →
      R a b) :
    (forLoop cond step body fuel i).Pairwise R := by
  induction fuel generalizing i with
  | zero => exact List.Pairwise.nil
  | succ n ih =>
    have e : ∀ m, i + step + m * step = i + (m + 1) * step := by
      intro m; rw [Nat.succ_mul]; omega
    simp only [forLoop]
    split
    · rw [List.pairwise_append]
      refine ⟨by simpa using hbody 0, ?_, ?_⟩
      · apply ih (i + step)
        · intro k
          rw [e]
          exact hbody (k + 1)
        · intro k k' a b hkk ha hb
          rw [e] at ha hb
          exact hcross (k + 1) (k' + 1) a b (Nat.succ_lt_succ hkk) ha hb
      · intro a ha b hb
        obtain ⟨k, -, -, hb⟩ := mem_forLoop cond step body n (i + step) b hb
        rw [e] at hb
        exact hcross 0 (k + 1) a b (Nat.succ_pos k) (by simpa using ha) hb
    · exact List.Pairwise.nil

theorem mem_fillBlock (width height : Nat) (color : Channels) (x y : Nat) (w : PixelWrite) :
    w ∈ fillBlock width height color x y ↔
      ∃ dx dy, dx < 10 ∧ dy < 10 ∧ x + dx < width ∧ y + dy < height ∧
        w = { color := color, x := x + dx, y := y + dy } := by
  constructor
  · intro h
    obtain ⟨dy, -, hcy, h⟩ := mem_forLoop _ _ _ _ _ _ h
    obtain ⟨dx, -, hcx, h⟩ := mem_forLoop _ _ _ _ _ _ h
    simp only [Nat.zero_add, Nat.mul_one, Bool.and_eq_true, decide_eq_true_eq,
      List.mem_singleton] at hcy hcx h
    exact ⟨dx, dy, hcx.1, hcy.1, hcx.2, hcy.2, h⟩
  · rintro ⟨dx, dy, hdx, hdy, hx, hy, rfl⟩
    apply mem_forLoop_of _ _ _ _ _ dy _ hdy
    · intro m hm
      simp only [Nat.zero_add, Nat.mul_one, Bool.and_eq_true, decide_eq_true_eq]
      omega
    · apply mem_forLoop_of _ _ _ _ _ dx _ hdx
      · intro m hm
        simp only [Nat.zero_add, Nat.mul_one, Bool.and_eq_true, decide_eq_true_eq]
        omega
      · simp only [Nat.zero_add, Nat.mul_one, List.mem_singleton]

theorem mem_gradientWrites (width height : Nat) (w : PixelWrite) :
    w ∈ gradientWrites width height ↔
      ∃ kx ky dx dy, kx * 10 < width ∧ ky * 10 < height ∧ dx < 10 ∧ dy < 10 ∧
        kx * 10 + dx < width ∧ ky * 10 + dy < height ∧
        w = { color := corsFixChannels width height (kx * 10) (ky * 10),
              x := kx * 10 + dx, y := ky * 10 + dy } := by
  constructor
  · intro h
    obtain ⟨ky, -, hcy, h⟩ := mem_forLoop _ _ _ _ _ _ h
    obtain ⟨kx, -, hcx, h⟩ := mem_forLoop _ _ _ _ _ _ h
    simp only [Nat.zero_add, decide_eq_true_eq] at hcy hcx h
    obtain ⟨dx, dy, hdx, hdy, hx, hy, hw⟩ := (mem_fillBlock _ _ _ _ _ _).1 h
    exact ⟨kx, ky, dx, dy, hcx, hcy, hdx, hdy, hx, hy, hw⟩
  · rintro ⟨kx, ky, dx, dy, hkx, hky, hdx, hdy, hx, hy, rfl⟩
    apply mem_forLoop_of _ _ _ _ _ ky _ (by omega)
    · intro m hm
      simp only [Nat.zero_add, decide_eq_true_eq]
      omega
    · apply mem_forLoop_of _ _ _ _ _ kx _ (by omega)
      · intro m hm
        simp only [Nat.zero_add, decide_eq_true_eq]
        omega
      · simp only [Nat.zero_add]
        exact (mem_fillBlock _ _ _ _ _ _).2 ⟨dx, dy, hdx, hdy, hx, hy, rfl⟩

/-- No two writes of a block go to the same pixel. -/
theorem fillBlock_pairwise (width height : Nat) (color : Channels) (x y : Nat) :
    (fillBlock width height color x y).Pairwise fun a b => ¬ (a.x = b.x ∧ a.y = b.y) := by
  apply pairwise_forLoop
  · intro dy
    apply pairwise_forLoop
    · intro dx
      exact List.pairwise_singleton _ _
    · intro k k' a b hkk ha hb
      simp only [Nat.zero_add, Nat.mul_one, List.mem_singleton] at ha hb
      subst ha hb
      simp only [not_and]
      intro h
      omega
  · intro k k' a b hkk ha hb
    obtain ⟨_, -, -, ha⟩ := mem_forLoop _ _ _ _ _ _ ha
    obtain ⟨_, -, -, hb⟩ := mem_forLoop _ _ _ _ _ _ hb
    simp only [Nat.zero_add, Nat.mul_one, List.mem_singleton] at ha hb
    subst ha hb
    simp only [not_and]
    intro _ h
    omega

/-- No two writes of the gradient loop go to the same pixel. -/
theorem gradientWrites_pairwise (width height : Nat) :
    (gradientWrites width height).Pairwise fun a b => ¬ (a.x = b.x ∧ a.y = b.y) := by
  apply pairwise_forLoop
  · intro ky
    apply pairwise_forLoop
    · intro kx
      exact fillBlock_pairwise _ _ _ _ _
    · intro k k' a b hkk ha hb
      obtain ⟨dx, _, hdx, _, _, _, ha⟩ := (mem_fillBlock _ _ _ _ _ _).1 ha
      obtain ⟨dx', _, hdx', _, _, _, hb⟩ := (mem_fillBlock _ _ _ _ _ _).1 hb
      subst ha hb
      simp only [not_and]
      intro h
      omega
  · intro k k' a b hkk ha hb
    obtain ⟨_, -, -, ha⟩ := mem_forLoop _ _ _ _ _ _ ha
    obtain ⟨_, -, -, hb⟩ := mem_forLoop _ _ _ _ _ _ hb
    obtain ⟨_, dy, _, hdy, _, _, ha⟩ := (mem_fillBlock _ _ _ _ _ _).1 ha
    obtain ⟨_, dy', _, hdy', _, _, hb⟩ := (mem_fillBlock _ _ _ _ _ _).1 hb
    subst ha hb
    simp only [not_and]
    intro _ h
    omega

theorem filter_pixel_eq_singleton (l : List PixelWrite)
    (hp : l.Pairwise fun a b => ¬ (a.x = b.x ∧ a.y = b.y)) (w : PixelWrite) (hw : w ∈ l) :
    l.filter (fun v => decide (v.x = w.x ∧ v.y = w.y)) = [w] := by
  induction l with
  | nil => cases hw
  | cons a t ih =>
    rw [List.pairwise_cons] at hp
    rcases List.mem_cons.1 hw with rfl | hw
    · have ht : t.filter (fun v => decide (v.x = w.x ∧ v.y = w.y)) = [] := by
        rw [List.filter_eq_nil_iff]
        intro b hb
        have := hp.1 b hb
        simp only [decide_eq_true_eq]
        intro h
        exact this ⟨h.1.symm, h.2.symm⟩
      rw [List.filter_cons_of_pos (by simp), ht]
    · have ha : decide (a.x = w.x ∧ a.y = w.y) = false := by
        simp only [decide_eq_false_iff_not]
        exact hp.1 w hw
      rw [List.filter_cons_of_neg (by simp [ha])]
      exact ih hp.2 hw

/-- The loops stop by their conditions and not by their bounds: with larger bounds the
block loops make the same writes. -/
theorem fillBlock_enough_fuel (width height : Nat) (color : Channels) (x y extra : Nat) :
    forLoop (fun dy => decide (dy < 10) && decide (y + dy < height)) 1
      (fun dy =>
        forLoop (fun dx => decide (dx < 10) && decide (x + dx < width)) 1
          (fun dx => [{ color := color, x := x + dx, y := y + dy }]) (10 + extra) 0)
      (10 + extra) 0 = fillBlock width height color x y := by
  have hin : ∀ dy,
      forLoop (fun dx => decide (dx < 10) && decide (x + dx < width)) 1
          (fun dx => [{ color := color, x := x + dx, y := y + dy }]) (10 + extra) 0 =
        forLoop (fun dx => decide (dx < 10) && decide (x + dx < width)) 1
          (fun dx => [{ color := color, x := x + dx, y := y + dy }]) 10 0 := by
    intro dy
    apply forLoop_more_fuel
    intro j hj
    have : ¬ j < 10 := by omega
    simp [this]
  simp only [hin]
  apply forLoop_more_fuel
  intro j hj
  have : ¬ j < 10 := by omega
  simp [this]

/-- With larger bounds the two outer loops make the same writes. -/
theorem gradientWrites_enough_fuel (width height extra : Nat) :
    forLoop (fun y => decide (y < height)) 10
      (fun y =>
        forLoop (fun x => decide (x < width)) 10
          (fun x => fillBlock width height (corsFixChannels width height x y) x y)
          (width + extra) 0)
      (height + extra) 0 = gradientWrites width height := by
  have hin : ∀ y,
      forLoop (fun x => decide (x < width)) 10
          (fun x => fillBlock width height (corsFixChannels width height x y) x y)
          (width + extra) 0 =
        forLoop (fun x => decide (x < width)) 10
          (fun x => fillBlock width height (corsFixChannels width height x y) x y)
          width 0 := by
    intro y
    apply forLoop_more_fuel
    intro j hj
    have : ¬ j < width := by omega
    simp [this]
  simp only [hin]
  apply forLoop_more_fuel
  intro j hj
  have : ¬ j < height := by omega
  simp [this]

/-- C21: in the block-filling gradient loop of the cors-fix service, every pixel inside a
`width` by `height` image (whose width and height are then positive) is written exactly
once, with the colour computed at the origin
`(px - px mod 10, py - py mod 10)` of its block, and every write of the loop lands inside
the image. -/
theorem C21_block_fill_writes_each_pixel_once (width height px py : Nat)
    (hx : px < width) (hy : py < height) :
    (gradientWrites width height).filter (fun w => decide (w.x = px ∧ w.y = py)) =
      [{ color := corsFixChannels width height (px - px % 10) (py - py % 10),
         x := px, y := py }] ∧
    ∀ w ∈ gradientWrites width height, w.x < width ∧ w.y < height := by
  constructor
  · have hmem :
        PixelWrite.mk (corsFixChannels width height (px - px % 10) (py - py % 10)) px py ∈
          gradientWrites width height := by
      rw [mem_gradientWrites]
      refine ⟨px / 10, py / 10, px % 10, py % 10, by omega, by omega, by omega, by omega,
        by omega, by omega, ?_⟩
      have e1 : px / 10 * 10 = px - px % 10 := by omega
      have e2 : py / 10 * 10 = py - py % 10 := by omega
      have e3 : px / 10 * 10 + px % 10 = px := by omega
      have e4 : py / 10 * 10 + py % 10 = py := by omega
      rw [e3, e4, e1, e2]
    exact filter_pixel_eq_singleton _ (gradientWrites_pairwise width height) _ hmem
  · intro w hmem
    obtain ⟨kx, ky, dx, dy, -, -, -, -, hx', hy', rfl⟩ := (mem_gradientWrites _ _ _).1 hmem
    exact ⟨hx', hy'⟩

/-- C21, witness: the last pixel of the 1024 by 1024 image, whose last block is cut to
four columns and four rows. -/
theorem C21_block_fill_writes_each_pixel_once_witness :
    (1023 - 1023 % 10, 1024 - (1023 - 1023 % 10)) = (1020, 4) ∧
    (gradientWrites 1024 1024).filter (fun w => decide (w.x = 1023 ∧ w.y = 1023)) =
      [{ color := corsFixChannels 1024 1024 (1023 - 1023 % 10) (1023 - 1023 % 10),
         x := 1023, y := 1023 }] ∧
    ∀ w ∈ gradientWrites 1024 1024, w.x < 1024 ∧ w.y < 1024 :=
  ⟨by decide, C21_block_fill_writes_each_pixel_once 1024 1024 1023 1023 (by decide)
    (by decide)⟩

theorem find?_first_match {α : Type} (p : α → Bool) (before after : List α) (first : α)
    (hbefore : ∀ x ∈ before, p x = false) (hfirst : p first = true) :
    (before ++ first :: after).find? p = some first := by
  induction before with
  | nil => simp [List.find?, hfirst]
  | cons x xs ih =>
    have hx : p x = false := hbefore x (List.mem_cons_self x xs)
    simp only [List.cons_append, List.find?, hx]
    exact ih fun y hy => hbefore y (List.mem_cons_of_mem x hy)

/-- C5, amended: payment verification succeeds only when the receipt contains at least one
log emitted by the payment-token contract, and every receipt without such a log fails it.
More than one such log is no ground for rejection: whenever the first such log in receipt
order decodes to a transfer of at least the required amount to the treasury, verification
succeeds, whatever logs follow it. -/
theorem C5_at_least_one_token_log (cfg : Config) (w : World) (hash : String) :
    (∀ receipt, w.getTransactionReceipt hash = .ok (some receipt) →
      (receipt.logs.filter (emittedBy DEGEN_TOKEN_ADDRESS)).length = 0 →
      (verifyPayment cfg w hash).2 ≠ .next ()) ∧
    ((verifyPayment cfg w hash).2 = .next () →
      ∃ receipt, w.getTransactionReceipt hash = .ok (some receipt) ∧
        1 ≤ (receipt.logs.filter (emittedBy DEGEN_TOKEN_ADDRESS)).length) ∧
    (∀ receipt before first after args treasury,
      w.getTransaction hash = .ok (some ()) →
      w.getTransactionReceipt hash = .ok (some receipt) →
      receipt.logs = before ++ first :: after →
      (∀ log ∈ before, emittedBy DEGEN_TOKEN_ADDRESS log = false) →
      emittedBy DEGEN_TOKEN_ADDRESS first = true →
      w.parseLog first.topics first.data = .ok (some args) →
      ¬ args.value < expectedAmount →
      cfg.TREASURY_WALLET_ADDRESS = some treasury →
      toLowerCase args.toAddr = toLowerCase treasury →
      verifyPayment cfg w hash =
        ([.getTransaction hash, .getTransactionReceipt hash], .next ())) := by
  refine ⟨?_, ?_, ?_⟩
  · intro receipt hrc hnone hnext
    obtain ⟨receipt', ev, _, _, _, hrc', hlog, _⟩ := verifyPayment_next cfg w hash hnext
    rw [hrc] at hrc'
    injection hrc' with hrc'
    injection hrc' with hrc'
    subst hrc'
    rw [← head?_filter_eq_find?, List.length_eq_zero.1 hnone] at hlog
    cases hlog
  · intro hnext
    obtain ⟨receipt, ev, args, treasury, _, hrc, hlog, _⟩ :=
      verifyPayment_next cfg w hash hnext
    rw [← head?_filter_eq_find?] at hlog
    refine ⟨receipt, hrc, ?_⟩
    cases hf : receipt.logs.filter (emittedBy DEGEN_TOKEN_ADDRESS) with
    | nil => rw [hf] at hlog; cases hlog
    | cons x xs => simp
  · intro receipt before first after args treasury htx hrc hlogs hbefore hfirst hdec hamt
      htre hto
    have hfind : receipt.logs.find? (emittedBy DEGEN_TOKEN_ADDRESS) = some first := by
      rw [hlogs]
      exact find?_first_match _ before after first hbefore hfirst
    rw [verifyPayment_decoded cfg w hash () receipt first args htx hrc hfind hdec]
    simp only [decodedOutcome, hamt, htre, hto, if_false, if_true]

/-- C5, witness: a full transfer to the treasury passes although a second payment-token
log follows it in the receipt. -/
theorem C5_at_least_one_token_log_witness :
    ([demoTransferLog "exact", demoTransferLog "short"].filter
        (emittedBy DEGEN_TOKEN_ADDRESS)).length = 2 ∧
    verifyPayment demoConfig twoLogsWorld "0xpay" =
      ([.getTransaction "0xpay", .getTransactionReceipt "0xpay"], .next ()) :=
  ⟨by decide,
   (C5_at_least_one_token_log demoConfig twoLogsWorld "0xpay").2.2
    { hash := "0xpay", logs := [demoTransferLog "exact", demoTransferLog "short"] }
    [] (demoTransferLog "exact") [demoTransferLog "short"]
    { src := "0x1110000000000000000000000000000000000003",
      toAddr := "0xabc0000000000000000000000000000000000002", value := 10 ^ 19 }
    "0xABC0000000000000000000000000000000000002" rfl rfl rfl (fun _ h => nomatch h)
    (by decide) rfl (by decide) rfl (by decide)⟩

/-- The asset calls of a run are those of one path at most. -/
theorem asset_paths_at_most_one (cfg : Config) (w : World) (req : MintRequest) :
    (req.imageUrl.truthy = false →
      (∀ c ∈ (postMint cfg w req).1, c.stage = .asset →
        c = .fileExists cfg.bucketName
            ("creations/" ++ req.walletAddress.toStr ++ "/" ++ req.masterpieceId.toStr ++
              ".png") ∨
        c = .fileDownload cfg.bucketName
            ("creations/" ++ req.walletAddress.toStr ++ "/" ++ req.masterpieceId.toStr ++
              ".png")) ∧
      (validRequest req = true →
        (req.paymentTxHash.truthy = true →
          (verifyPayment cfg w req.paymentTxHash.toStr).2 = .next ()) →
        w.fileExists cfg.bucketName
            ("creations/" ++ req.walletAddress.toStr ++ "/" ++ req.masterpieceId.toStr ++
              ".png") = .ok false →
        (postMint cfg w req).2 =
          { status := 404, body := .error "Image not found in storage" } ∧
        ∀ c ∈ (postMint cfg w req).1,
          c.stage ≠ .pin ∧ c.stage ≠ .mint ∧ c.stage ≠ .report)) ∧
    (req.imageUrl.truthy = true →
      ∀ c ∈ (postMint cfg w req).1, c.stage = .asset → c = .httpGet req.imageUrl.toStr) ∧
    ¬ ((∃ c ∈ (postMint cfg w req).1, c.isObjectStore = true) ∧
       (∃ c ∈ (postMint cfg w req).1, c.isUrlFetch = true)) := by
  refine ⟨fun hu => ⟨fun c hc hs => ?_, fun hv hpay hex => ?_⟩, fun hu c hc hs => ?_, ?_⟩
  · rcases mem_resolveAsset _ _ _ _ _ _ (mem_postMint_asset cfg w req c hc hs) with
      ⟨_, h⟩ | ⟨h, _⟩
    · exact h
    · rw [hu] at h; cases h
  · have hra := resolveAsset_storage cfg w req.masterpieceId.toStr req.walletAddress.toStr
      req.imageUrl hu
    have hex' : w.fileExists cfg.bucketName
        (storageFilename req.walletAddress.toStr req.masterpieceId.toStr) = .ok false := hex
    rw [hex'] at hra
    have hmp : mintPipeline cfg w req req.masterpieceId.toStr req.walletAddress.toStr =
        ([.fileExists cfg.bucketName
            (storageFilename req.walletAddress.toStr req.masterpieceId.toStr)],
          .respond { status := 404, body := .error "Image not found in storage" }) := by
      rw [mintPipeline_eq, Prog.bind_respond _ _ _ (by rw [hra]), hra]
    have hsr : sendResponse
        (mintPipeline cfg w req req.masterpieceId.toStr req.walletAddress.toStr) =
        ([.fileExists cfg.bucketName
            (storageFilename req.walletAddress.toStr req.masterpieceId.toStr)],
          { status := 404, body := .error "Image not found in storage" }) := by
      rw [hmp]; rfl
    have hstage : ∀ c ∈ (postMint cfg w req).1,
        c.stage = .payment ∨ c.stage = .asset := by
      intro c hc
      rcases (mem_postMint cfg w req c hc).2 with ⟨_, h⟩ | ⟨_, h⟩
      · exact Or.inl (mem_verifyPayment_stage _ _ _ _ h)
      · rw [hmp] at h
        simp only [List.mem_singleton] at h
        rw [h]; exact Or.inr rfl
    constructor
    · cases hp : req.paymentTxHash.truthy with
      | false => rw [postMint_free cfg w req hv hp, hsr]
      | true => rw [postMint_paid cfg w req hv hp (hpay hp), hsr]
    · intro c hc
      rcases hstage c hc with h | h <;> rw [h] <;> decide
  · rcases mem_resolveAsset _ _ _ _ _ _ (mem_postMint_asset cfg w req c hc hs) with
      ⟨h, _⟩ | ⟨_, h⟩
    · rw [hu] at h; cases h
    · exact h
  · rintro ⟨⟨c, hc, hco⟩, ⟨d, hd, hdu⟩⟩
    have h1 := mem_resolveAsset _ _ _ _ _ _
      (mem_postMint_asset cfg w req c hc (Call.stage_of_isObjectStore c hco))
    have h2 := mem_resolveAsset _ _ _ _ _ _
      (mem_postMint_asset cfg w req d hd (Call.stage_of_isUrlFetch d hdu))
    rcases h1 with ⟨hf, _⟩ | ⟨_, h1⟩
    · rcases h2 with ⟨_, h2 | h2⟩ | ⟨ht, _⟩
      · rw [h2] at hdu; cases hdu
      · rw [h2] at hdu; cases hdu
      · rw [hf] at ht; cases ht
    · rw [h1] at hco; cases hco

theorem mem_postMint_of_pipeline (cfg : Config) (w : World) (req : MintRequest) (c : Call)
    (hv : validRequest req = true)
    (hpay : req.paymentTxHash.truthy = true →
      (verifyPayment cfg w req.paymentTxHash.toStr).2 = .next ())
    (h : c ∈ (mintPipeline cfg w req req.masterpieceId.toStr req.walletAddress.toStr).1) :
    c ∈ (postMint cfg w req).1 := by
  obtain ⟨pre, hpre⟩ := postMint_reached cfg w req hv hpay
  rw [hpre]
  exact List.mem_append_right _ h

theorem mem_postMint_of_resolveAsset (cfg : Config) (w : World) (req : MintRequest) (c : Call)
    (hv : validRequest req = true)
    (hpay : req.paymentTxHash.truthy = true →
      (verifyPayment cfg w req.paymentTxHash.toStr).2 = .next ())
    (h : c ∈ (resolveAsset cfg w req.masterpieceId.toStr req.walletAddress.toStr
      req.imageUrl).1) :
    c ∈ (postMint cfg w req).1 := by
  apply mem_postMint_of_pipeline cfg w req c hv hpay
  obtain ⟨rest, hrest⟩ := mintPipeline_calls cfg w req req.masterpieceId.toStr
    req.walletAddress.toStr
  rw [hrest]
  exact List.mem_append_left _ h

theorem imagePinCall_mem_pinToIpfs (cfg : Config) (w : World) (req : MintRequest)
    (m a : String) (buf : Bytes) :
    imagePinCall cfg m buf ∈ (pinToIpfs cfg w req m a buf).1 := by
  rw [pinToIpfs_eq]
  cases h1 : w.pinFileToIPFS (imageFile m buf) (pinataAuthorization cfg) with
  | error e => simp
  | ok ih =>
    cases h2 : w.pinFileToIPFS (metadataFile m (nftMetadata w req m a (pinataGateway ++ ih)))
        (pinataAuthorization cfg) <;> simp [h2]

/-- The bytes step 2 resolved are the bytes of the image upload of the run. -/
theorem imagePinCall_mem_postMint (cfg : Config) (w : World) (req : MintRequest)
    (buf : Bytes)
    (hv : validRequest req = true)
    (hpay : req.paymentTxHash.truthy = true →
      (verifyPayment cfg w req.paymentTxHash.toStr).2 = .next ())
    (hb : (resolveAsset cfg w req.masterpieceId.toStr req.walletAddress.toStr
      req.imageUrl).2 = .next buf) :
    imagePinCall cfg req.masterpieceId.toStr buf ∈ (postMint cfg w req).1 := by
  apply mem_postMint_of_pipeline cfg w req _ hv hpay
  obtain ⟨rest, hrest⟩ := mintPipeline_calls_of_asset cfg w req req.masterpieceId.toStr
    req.walletAddress.toStr buf hb
  rw [hrest]
  exact List.mem_append_right _
    (List.mem_append_left _ (imagePinCall_mem_pinToIpfs cfg w req _ _ buf))

theorem fileExists_mem_resolveAsset (cfg : Config) (w : World) (m a : String)
    (imageUrl : JsField) (hu : imageUrl.truthy = false) :
    Call.fileExists cfg.bucketName (storageFilename a m) ∈
      (resolveAsset cfg w m a imageUrl).1 := by
  obtain ⟨rest, hrest⟩ := resolveAsset_calls cfg w m a imageUrl
  rw [hrest, hu]
  exact List.mem_cons_self _ _

theorem httpGet_mem_resolveAsset (cfg : Config) (w : World) (m a : String)
    (imageUrl : JsField) (hu : imageUrl.truthy = true) :
    Call.httpGet imageUrl.toStr ∈ (resolveAsset cfg w m a imageUrl).1 := by
  obtain ⟨rest, hrest⟩ := resolveAsset_calls cfg w m a imageUrl
  rw [hrest, hu]
  exact List.mem_cons_self _ _

theorem resolveAsset_downloaded (cfg : Config) (w : World) (m a : String)
    (imageUrl : JsField) (hu : imageUrl.truthy = false)
    (hex : w.fileExists cfg.bucketName (storageFilename a m) = .ok true) :
    Call.fileDownload cfg.bucketName (storageFilename a m) ∈
        (resolveAsset cfg w m a imageUrl).1 ∧
      ∀ bytes, w.fileDownload cfg.bucketName (storageFilename a m) = .ok bytes →
        (resolveAsset cfg w m a imageUrl).2 = .next bytes := by
  rw [resolveAsset_storage cfg w m a imageUrl hu, hex]
  cases hd : w.fileDownload cfg.bucketName (storageFilename a m) with
  | error e => simp
  | ok b => simp

theorem resolveAsset_fetched (cfg : Config) (w : World) (m a : String)
    (imageUrl : JsField) (bytes : Bytes) (hu : imageUrl.truthy = true)
    (hg : w.httpGet imageUrl.toStr = .ok bytes) :
    (resolveAsset cfg w m a imageUrl).2 = .next bytes := by
  rw [resolveAsset_url cfg w m a imageUrl hu, hg]
  rfl

/-- A run answers 404 only from the missing object of step 2. -/
theorem postMint_status_404 (cfg : Config) (w : World) (req : MintRequest)
    (h : (postMint cfg w req).2.status = 404) : req.imageUrl.truthy = false := by
  cases hv : validRequest req with
  | false => rw [postMint_invalid cfg w req hv] at h; cases h
  | true =>
    have hmp : (sendResponse (mintPipeline cfg w req req.masterpieceId.toStr
        req.walletAddress.toStr)).2.status = 404 → req.imageUrl.truthy = false := by
      intro h
      have hn := mintPipeline_next cfg w req req.masterpieceId.toStr req.walletAddress.toStr
      have hr : ∀ r, (mintPipeline cfg w req req.masterpieceId.toStr
          req.walletAddress.toStr).2 = .respond r → r.status = 404 →
          req.imageUrl.truthy = false := by
        intro r hr hs
        rw [mintPipeline_eq] at hr
        rcases Prog.bind_eq_respond _ _ _ hr with hr | ⟨buf, _, hr⟩
        · exact (resolveAsset_respond _ _ _ _ _ _ hr).2.1
        rcases Prog.bind_eq_respond _ _ _ hr with hr | ⟨p, _, hr⟩
        · exact absurd hr (pinToIpfs_not_respond _ _ _ _ _ _ _)
        rcases Prog.bind_eq_respond _ _ _ hr with hr | ⟨minted, _, hr⟩
        · rcases mintStep_outcome cfg w req.walletAddress.toStr p with
            ⟨mt, _, h2⟩ | ⟨msg, _, h2⟩
          · rw [h2] at hr; cases hr
          · rw [h2] at hr
            injection hr with hr
            rw [← hr] at hs
            cases hs
        rcases Prog.bind_eq_respond _ _ _ hr with hr | ⟨_, _, hr⟩
        · rw [updateDatabase_outcome] at hr; cases hr
        · simp at hr
      generalize mintPipeline cfg w req req.masterpieceId.toStr req.walletAddress.toStr = q
        at hn hr h
      obtain ⟨t, s⟩ := q
      cases s with
      | next r =>
        obtain ⟨_, _, _, _, _, _, hr'⟩ := hn r rfl
        simp only [sendResponse] at h
        rw [hr'] at h
        cases h
      | respond r => exact hr r rfl h
      | raise e => cases h
    cases hp : req.paymentTxHash.truthy with
    | false =>
      rw [postMint_free cfg w req hv hp] at h
      exact hmp h
    | true =>
      by_cases hnx : (verifyPayment cfg w req.paymentTxHash.toStr).2 = .next ()
      · rw [postMint_paid cfg w req hv hp hnx] at h
        exact hmp h
      · obtain ⟨e, -, heq⟩ := postMint_payment_failed cfg w req hv hp hnx
        rw [heq] at h
        cases h

/-- C8: asset resolution takes exactly one path per request.  Without an `imageUrl` the
only asset calls are those of the object store at key
`creations/<walletAddress>/<masterpieceId>.png`, and when the run reaches step 2 and that
object does not exist the response is 404 `Image not found in storage` with nothing pinned,
minted or reported; with an `imageUrl` the only asset call is the fetch of that URL.  No
run uses both the object store and the URL.  And a run that reaches step 2 does take its
path: without an `imageUrl` it asks the object store whether the object exists and, when it
does, downloads it and uploads the downloaded bytes; with an `imageUrl` it fetches that
URL, never answers 404, and uploads the fetched bytes.  So such a run reads the object
store exactly when the request has no `imageUrl`, and fetches a URL exactly when it has
one. -/
theorem C8_one_resolution_path (cfg : Config) (w : World) (req : MintRequest) :
    ((req.imageUrl.truthy = false →
      (∀ c ∈ (postMint cfg w req).1, c.stage = .asset →
        c = .fileExists cfg.bucketName
            ("creations/" ++ req.walletAddress.toStr ++ "/" ++ req.masterpieceId.toStr ++
              ".png") ∨
        c = .fileDownload cfg.bucketName
            ("creations/" ++ req.walletAddress.toStr ++ "/" ++ req.masterpieceId.toStr ++
              ".png")) ∧
      (validRequest req = true →
        (req.paymentTxHash.truthy = true →
          (verifyPayment cfg w req.paymentTxHash.toStr).2 = .next ()) →
        w.fileExists cfg.bucketName
            ("creations/" ++ req.walletAddress.toStr ++ "/" ++ req.masterpieceId.toStr ++
              ".png") = .ok false →
        (postMint cfg w req).2 =
          { status := 404, body := .error "Image not found in storage" } ∧
        ∀ c ∈ (postMint cfg w req).1,
          c.stage ≠ .pin ∧ c.stage ≠ .mint ∧ c.stage ≠ .report)) ∧
    (req.imageUrl.truthy = true →
      ∀ c ∈ (postMint cfg w req).1, c.stage = .asset → c = .httpGet req.imageUrl.toStr) ∧
    ¬ ((∃ c ∈ (postMint cfg w req).1, c.isObjectStore = true) ∧
       (∃ c ∈ (postMint cfg w req).1, c.isUrlFetch = true))) ∧
    (validRequest req = true →
      (req.paymentTxHash.truthy = true →
        (verifyPayment cfg w req.paymentTxHash.toStr).2 = .next ()) →
      (req.imageUrl.truthy = false →
        Call.fileExists cfg.bucketName
            ("creations/" ++ req.walletAddress.toStr ++ "/" ++ req.masterpieceId.toStr ++
              ".png") ∈ (postMint cfg w req).1 ∧
        (w.fileExists cfg.bucketName
            ("creations/" ++ req.walletAddress.toStr ++ "/" ++ req.masterpieceId.toStr ++
              ".png") = .ok true →
          Call.fileDownload cfg.bucketName
              ("creations/" ++ req.walletAddress.toStr ++ "/" ++ req.masterpieceId.toStr ++
                ".png") ∈ (postMint cfg w req).1 ∧
          ∀ bytes,
            w.fileDownload cfg.bucketName
              ("creations/" ++ req.walletAddress.toStr ++ "/" ++ req.masterpieceId.toStr ++
                ".png") = .ok bytes →
            Call.pinFileToIPFS pinataEndpoint
                (.image bytes (req.masterpieceId.toStr ++ ".png") "image/png")
                ("Bearer " ++ envTemplate cfg.PINATA_JWT) ∈ (postMint cfg w req).1)) ∧
      (req.imageUrl.truthy = true →
        Call.httpGet req.imageUrl.toStr ∈ (postMint cfg w req).1 ∧
        (postMint cfg w req).2.status ≠ 404 ∧
        ∀ bytes,
          w.httpGet req.imageUrl.toStr = .ok bytes →
          Call.pinFileToIPFS pinataEndpoint
              (.image bytes (req.masterpieceId.toStr ++ ".png") "image/png")
              ("Bearer " ++ envTemplate cfg.PINATA_JWT) ∈ (postMint cfg w req).1) ∧
      ((∃ c ∈ (postMint cfg w req).1, c.isObjectStore = true) ↔
        req.imageUrl.truthy = false) ∧
      ((∃ c ∈ (postMint cfg w req).1, c.isUrlFetch = true) ↔
        req.imageUrl.truthy = true)) := by
  refine ⟨asset_paths_at_most_one cfg w req, fun hv hpay => ?_⟩
  have hfalse : req.imageUrl.truthy = false →
      Call.fileExists cfg.bucketName
          (storageFilename req.walletAddress.toStr req.masterpieceId.toStr) ∈
        (postMint cfg w req).1 := fun hu =>
    mem_postMint_of_resolveAsset cfg w req _ hv hpay
      (fileExists_mem_resolveAsset cfg w _ _ req.imageUrl hu)
  have htrue : req.imageUrl.truthy = true →
      Call.httpGet req.imageUrl.toStr ∈ (postMint cfg w req).1 := fun hu =>
    mem_postMint_of_resolveAsset cfg w req _ hv hpay
      (httpGet_mem_resolveAsset cfg w _ _ req.imageUrl hu)
  have hbound := asset_paths_at_most_one cfg w req
  refine ⟨fun hu => ⟨hfalse hu, fun hex => ?_⟩, fun hu => ⟨htrue hu, ?_, fun bytes hg => ?_⟩,
    ⟨?_, fun hu => ⟨_, hfalse hu, rfl⟩⟩, ⟨?_, fun hu => ⟨_, htrue hu, rfl⟩⟩⟩
  · obtain ⟨hmem, hnext⟩ := resolveAsset_downloaded cfg w req.masterpieceId.toStr
      req.walletAddress.toStr req.imageUrl hu hex
    exact ⟨mem_postMint_of_resolveAsset cfg w req _ hv hpay hmem, fun bytes hd =>
      imagePinCall_mem_postMint cfg w req bytes hv hpay (hnext bytes hd)⟩
  · intro h404
    have := postMint_status_404 cfg w req h404
    rw [hu] at this
    cases this
  · exact imagePinCall_mem_postMint cfg w req bytes hv hpay
      (resolveAsset_fetched cfg w _ _ req.imageUrl bytes hu hg)
  · rintro ⟨c, hc, hco⟩
    cases hu : req.imageUrl.truthy with
    | false => rfl
    | true => exact absurd ⟨⟨c, hc, hco⟩, ⟨_, htrue hu, rfl⟩⟩ hbound.2.2
  · rintro ⟨c, hc, hcu⟩
    cases hu : req.imageUrl.truthy with
    | true => rfl
    | false => exact absurd ⟨⟨_, hfalse hu, rfl⟩, ⟨c, hc, hcu⟩⟩ hbound.2.2

/-- C8, witness: a paid request whose image is not in the object store is answered 404
with nothing pinned, and the same request with the object in store downloads it and uploads
the downloaded bytes. -/
theorem C8_one_resolution_path_witness :
    ((postMint demoConfig
        { paidWorld "exact" with fileExists := fun _ _ => .ok false } paidRequest).2 =
      { status := 404, body := .error "Image not found in storage" } ∧
    ∀ c ∈ (postMint demoConfig
        { paidWorld "exact" with fileExists := fun _ _ => .ok false } paidRequest).1,
      c.stage ≠ .pin ∧ c.stage ≠ .mint ∧ c.stage ≠ .report) ∧
    Call.fileDownload "pixlmixr-images" "creations/0xOwner/abc123.png" ∈
      (postMint demoConfig (paidWorld "exact") paidRequest).1 ∧
    Call.pinFileToIPFS pinataEndpoint (.image [137, 80, 78, 71] "abc123.png" "image/png")
      "Bearer jwt" ∈ (postMint demoConfig (paidWorld "exact") paidRequest).1 :=
  ⟨((C8_one_resolution_path demoConfig
      { paidWorld "exact" with fileExists := fun _ _ => .ok false } paidRequest).1.1
    (by decide)).2 (by decide) (fun _ => by decide) rfl,
   ((((C8_one_resolution_path demoConfig (paidWorld "exact") paidRequest).2
      (by decide) (fun _ => by decide)).1 (by decide)).2 rfl).1,
   ((((C8_one_resolution_path demoConfig (paidWorld "exact") paidRequest).2
      (by decide) (fun _ => by decide)).1 (by decide)).2 rfl).2 _ rfl⟩

theorem Call.rank_of_strategy (c : Call) (h : (c.isSdk || c.isDirect) = true) : c.rank = 4 := by
  cases c <;> first | rfl | cases h

theorem filter_strategy_of_rank_ne (l : List Call) (h : ∀ c ∈ l, c.rank ≠ 4) :
    l.filter (fun c => c.isSdk || c.isDirect) = [] := by
  rw [List.filter_eq_nil_iff]
  intro c hc hs
  exact h c hc (Call.rank_of_strategy c hs)

theorem filter_strategy_mintStrategy (cfg : Config) (w : World) (a : String) (p : Pinned) :
    (mintStrategy cfg w a p).1.filter (fun c => c.isSdk || c.isDirect) =
      (mintStrategy cfg w a p).1 := by
  rw [List.filter_eq_self]
  intro c hc
  cases hu : useThirdweb cfg with
  | true => rw [(mem_mintStrategy_sdk cfg w a p c hu hc).1]; rfl
  | false => rw [(mem_mintStrategy_direct cfg w a p c hu hc).1, Bool.or_true]

/-- The calls of a run that reaches step 4: those before it, those of the selected
strategy, and those of the reporter. -/
theorem postMint_calls_reached_mint (cfg : Config) (w : World) (req : MintRequest)
    (buf : Bytes) (p : Pinned)
    (hv : validRequest req = true)
    (hpay : req.paymentTxHash.truthy = true →
      (verifyPayment cfg w req.paymentTxHash.toStr).2 = .next ())
    (hb : (resolveAsset cfg w req.masterpieceId.toStr req.walletAddress.toStr
      req.imageUrl).2 = .next buf)
    (hp : (pinToIpfs cfg w req req.masterpieceId.toStr req.walletAddress.toStr buf).2 =
      .next p) :
    ∃ pre post, (postMint cfg w req).1 =
        pre ++ ((mintStrategy cfg w req.walletAddress.toStr p).1 ++ post) ∧
      (∀ c ∈ pre, c.rank ≠ 4) ∧ (∀ c ∈ post, c.rank ≠ 4) := by
  have hpipe : ∃ post, (mintPipeline cfg w req req.masterpieceId.toStr
        req.walletAddress.toStr).1 =
      (resolveAsset cfg w req.masterpieceId.toStr req.walletAddress.toStr req.imageUrl).1 ++
        ((pinToIpfs cfg w req req.masterpieceId.toStr req.walletAddress.toStr buf).1 ++
          ((mintStrategy cfg w req.walletAddress.toStr p).1 ++ post)) ∧
      ∀ c ∈ post, c.rank ≠ 4 := by
    rw [mintPipeline_tails, Prog.bind_next _ _ buf hb]
    simp only [afterAsset]
    rw [Prog.bind_next _ _ p hp]
    simp only [afterPin]
    rcases mintStep_outcome cfg w req.walletAddress.toStr p with
      ⟨minted, -, hm⟩ | ⟨msg, -, hm⟩
    · rw [Prog.bind_next _ _ minted hm, mintStep_calls]
      refine ⟨(afterMint cfg w req.masterpieceId.toStr p minted).1, rfl, fun c hc h4 => ?_⟩
      have := (afterMint_ordered cfg w req.masterpieceId.toStr p minted).2 c hc
      omega
    · rw [Prog.bind_respond _ _ _ hm, mintStep_calls]
      exact ⟨[], by simp, fun c hc => nomatch hc⟩
  obtain ⟨post, hpost, hpost4⟩ := hpipe
  have hpre : ∀ c ∈ (resolveAsset cfg w req.masterpieceId.toStr req.walletAddress.toStr
        req.imageUrl).1 ++
      (pinToIpfs cfg w req req.masterpieceId.toStr req.walletAddress.toStr buf).1,
      c.rank ≠ 4 := by
    intro c hc h4
    rcases List.mem_append.1 hc with hc | hc
    · rw [mem_resolveAsset_rank _ _ _ _ _ c hc] at h4; cases h4
    · have := (pinToIpfs_ordered cfg w req _ _ buf).2 c hc
      omega
  cases hpt : req.paymentTxHash.truthy with
  | false =>
    refine ⟨_, post, ?_, hpre, hpost4⟩
    rw [postMint_free cfg w req hv hpt, sendResponse_calls, hpost, List.append_assoc]
  | true =>
    refine ⟨(verifyPayment cfg w req.paymentTxHash.toStr).1 ++
      ((resolveAsset cfg w req.masterpieceId.toStr req.walletAddress.toStr req.imageUrl).1 ++
        (pinToIpfs cfg w req req.masterpieceId.toStr req.walletAddress.toStr buf).1),
      post, ?_, ?_, hpost4⟩
    · rw [postMint_paid cfg w req hv hpt (hpay hpt), sendResponse_calls, hpost]
      simp only [List.append_assoc]
    · intro c hc h4
      rcases List.mem_append.1 hc with hc | hc
      · rw [mem_verifyPayment_rank _ _ _ c hc] at h4; cases h4
      · exact hpre c hc h4

/-- The strategy calls of a run that reaches step 4 are the calls of the selected strategy
block, and the outcome of that block decides the response. -/
theorem postMint_strategy (cfg : Config) (w : World) (req : MintRequest)
    (buf : Bytes) (p : Pinned)
    (hv : validRequest req = true)
    (hpay : req.paymentTxHash.truthy = true →
      (verifyPayment cfg w req.paymentTxHash.toStr).2 = .next ())
    (hb : (resolveAsset cfg w req.masterpieceId.toStr req.walletAddress.toStr
      req.imageUrl).2 = .next buf)
    (hp : (pinToIpfs cfg w req req.masterpieceId.toStr req.walletAddress.toStr buf).2 =
      .next p) :
    (postMint cfg w req).1.filter (fun c => c.isSdk || c.isDirect) =
        (mintStrategy cfg w req.walletAddress.toStr p).1 ∧
      (∀ minted, (mintStrategy cfg w req.walletAddress.toStr p).2 = .next minted →
        (postMint cfg w req).2 =
          { status := 200,
            body := .success
              (successResponse cfg w req.masterpieceId.toStr minted.1 minted.2 p) }) ∧
      (∀ message, (mintStrategy cfg w req.walletAddress.toStr p).2 = .raise message →
        (postMint cfg w req).2 = mintFailure p message) := by
  refine ⟨?_, fun minted hm => ?_, fun message hm => ?_⟩
  · obtain ⟨pre, post, hcalls, hpre, hpost⟩ :=
      postMint_calls_reached_mint cfg w req buf p hv hpay hb hp
    rw [hcalls, List.filter_append, List.filter_append, filter_strategy_of_rank_ne pre hpre,
      filter_strategy_of_rank_ne post hpost, filter_strategy_mintStrategy, List.nil_append,
      List.append_nil]
  · apply postMint_minted cfg w req buf p minted hv hpay hb hp
    rcases mintStep_outcome cfg w req.walletAddress.toStr p with ⟨m, h1, h2⟩ | ⟨m, h1, -⟩
    · rw [h2, ← h1, hm]
    · rw [hm] at h1; cases h1
  · apply postMint_mint_failed cfg w req buf p message hv hpay hb hp
    rcases mintStep_outcome cfg w req.walletAddress.toStr p with ⟨m, h1, -⟩ | ⟨m, h1, h2⟩
    · rw [hm] at h1; cases h1
    · rw [hm] at h1
      injection h1 with h1
      rw [h2, h1]

theorem mintThirdweb_started (cfg : Config) (w : World) (a : String) (p : Pinned)
    (h : w.sdkFromPrivateKey cfg.MINTER_PRIVATE_KEY cfg.THIRDWEB_SECRET_KEY = .ok ()) :
    (Call.sdkGetContract cfg.nftContractAddress ∈ (mintThirdweb cfg w a p).1) ∧
    (w.sdkGetContract cfg.nftContractAddress = .ok () →
      Call.sdkMintTo a
        { name := p.nftMetadata.name, description := p.nftMetadata.description,
          image := p.imageIpfsUrl, attributes := p.nftMetadata.attributes } ∈
        (mintThirdweb cfg w a p).1) := by
  rw [mintThirdweb_eq, h]
  constructor
  · cases hg : w.sdkGetContract cfg.nftContractAddress <;>
      simp [lib, call, Prog.bind, hg]
  · intro hg
    rw [hg]
    cases hm : w.sdkMintTo a
        { name := p.nftMetadata.name, description := p.nftMetadata.description,
          image := p.imageIpfsUrl, attributes := p.nftMetadata.attributes } <;>
      simp [lib, call, Prog.bind, hm]

theorem mintDirect_started (cfg : Config) (w : World) (a : String) (p : Pinned)
    (h : w.newWallet cfg.MINTER_PRIVATE_KEY = .ok ()) :
    Call.estimateGas cfg.nftContractAddress a p.tokenURI ∈ (mintDirect cfg w a p).1 := by
  have hc := Prog.bind_calls (call (.estimateGas cfg.nftContractAddress a p.tokenURI)
      (w.estimateGas cfg.nftContractAddress a p.tokenURI)) fun estimatedGas =>
    Prog.bind (call .getFeeData w.getFeeData) fun feeData =>
    Prog.bind (call (.mintNFT cfg.nftContractAddress a p.tokenURI
        { gasLimit := gasLimit estimatedGas, maxFeePerGas := feeData.maxFeePerGas,
          maxPriorityFeePerGas := feeData.maxPriorityFeePerGas })
      (w.mintNFT cfg.nftContractAddress a p.tokenURI
        { gasLimit := gasLimit estimatedGas, maxFeePerGas := feeData.maxFeePerGas,
          maxPriorityFeePerGas := feeData.maxPriorityFeePerGas })) fun txHash =>
    Prog.bind (call (.wait txHash 2) (w.wait txHash 2)) fun receipt =>
    Prog.bind (tokenIdOf cfg w receipt) fun tokenId =>
      ([], .next (receipt.hash, tokenId))
  obtain ⟨rest, hrest⟩ := hc
  rw [mintDirect_eq, h]
  have hl : (lib (Except.ok () : Except String Unit)).2 = .next () := rfl
  rw [Prog.bind_next _ _ () hl, hrest]
  cases w.estimateGas cfg.nftContractAddress a p.tokenURI <;> simp [lib, call]

/-- C17: one request uses exactly one minting strategy.  The SDK strategy is selected
exactly when `USE_THIRDWEB` is the string `true` and `THIRDWEB_SECRET_KEY` is set and not
empty; then no call of the run is a gas estimation, a fee lookup, a direct contract
transaction or a wait on one.  Otherwise no call of the run is an SDK call.  This holds
whatever the calls answer, so a failing strategy never falls back to the other, and no run
has calls of both.  And a run that reaches the minting step does use the selected strategy:
its strategy calls are, in order, exactly the calls of the SDK block when the SDK strategy
is selected and exactly the calls of the direct block otherwise, the first call of the
block is made once its signer is constructed, a result of the block is the transaction hash
and token id of the 200 response, and an error of the block is the message of the 500
`NFT minting failed` response. -/
theorem C17_one_strategy_per_request (cfg : Config) (w : World) (req : MintRequest) :
    (useThirdweb cfg = true ↔
      cfg.USE_THIRDWEB = some "true" ∧
        ∃ key, cfg.THIRDWEB_SECRET_KEY = some key ∧ key ≠ "") ∧
    (useThirdweb cfg = true → ∀ c ∈ (postMint cfg w req).1, c.isDirect = false) ∧
    (useThirdweb cfg = false → ∀ c ∈ (postMint cfg w req).1, c.isSdk = false) ∧
    ¬ ((∃ c ∈ (postMint cfg w req).1, c.isSdk = true) ∧
       (∃ c ∈ (postMint cfg w req).1, c.isDirect = true)) ∧
    (∀ buf p,
      validRequest req = true →
      (req.paymentTxHash.truthy = true →
        (verifyPayment cfg w req.paymentTxHash.toStr).2 = .next ()) →
      (resolveAsset cfg w req.masterpieceId.toStr req.walletAddress.toStr
        req.imageUrl).2 = .next buf →
      (pinToIpfs cfg w req req.masterpieceId.toStr req.walletAddress.toStr buf).2 =
        .next p →
      (useThirdweb cfg = true →
        (postMint cfg w req).1.filter (fun c => c.isSdk || c.isDirect) =
          (mintThirdweb cfg w req.walletAddress.toStr p).1 ∧
        (w.sdkFromPrivateKey cfg.MINTER_PRIVATE_KEY cfg.THIRDWEB_SECRET_KEY = .ok () →
          Call.sdkGetContract cfg.nftContractAddress ∈ (postMint cfg w req).1) ∧
        (∀ minted, (mintThirdweb cfg w req.walletAddress.toStr p).2 = .next minted →
          (postMint cfg w req).2 =
            { status := 200,
              body := .success
                (successResponse cfg w req.masterpieceId.toStr minted.1 minted.2 p) }) ∧
        (∀ message, (mintThirdweb cfg w req.walletAddress.toStr p).2 = .raise message →
          (postMint cfg w req).2 = mintFailure p message)) ∧
      (useThirdweb cfg = false →
        (postMint cfg w req).1.filter (fun c => c.isSdk || c.isDirect) =
          (mintDirect cfg w req.walletAddress.toStr p).1 ∧
        (w.newWallet cfg.MINTER_PRIVATE_KEY = .ok () →
          Call.estimateGas cfg.nftContractAddress req.walletAddress.toStr p.tokenURI ∈
            (postMint cfg w req).1) ∧
        (∀ minted, (mintDirect cfg w req.walletAddress.toStr p).2 = .next minted →
          (postMint cfg w req).2 =
            { status := 200,
              body := .success
                (successResponse cfg w req.masterpieceId.toStr minted.1 minted.2 p) }) ∧
        (∀ message, (mintDirect cfg w req.walletAddress.toStr p).2 = .raise message →
          (postMint cfg w req).2 = mintFailure p message))) := by
  have hsdk : useThirdweb cfg = true → ∀ c ∈ (postMint cfg w req).1, c.isDirect = false := by
    intro hu c hc
    cases hd : c.isDirect with
    | false => rfl
    | true =>
      obtain ⟨p, hp⟩ := mem_postMint_mint cfg w req c hc (Call.stage_of_isDirect c hd)
      rw [(mem_mintStrategy_sdk cfg w _ p c hu hp).2] at hd
      cases hd
  have hdir : useThirdweb cfg = false → ∀ c ∈ (postMint cfg w req).1, c.isSdk = false := by
    intro hu c hc
    cases hd : c.isSdk with
    | false => rfl
    | true =>
      obtain ⟨p, hp⟩ := mem_postMint_mint cfg w req c hc (Call.stage_of_isSdk c hd)
      rw [(mem_mintStrategy_direct cfg w _ p c hu hp).2] at hd
      cases hd
  refine ⟨useThirdweb_iff cfg, hsdk, hdir, ?_, fun buf p hv hpay hb hp => ?_⟩
  · rintro ⟨⟨c, hc, hcs⟩, ⟨d, hd, hdd⟩⟩
    cases hu : useThirdweb cfg with
    | true => rw [hsdk hu d hd] at hdd; cases hdd
    | false => rw [hdir hu c hc] at hcs; cases hcs
  · obtain ⟨hcalls, hok, herr⟩ := postMint_strategy cfg w req buf p hv hpay hb hp
    have hsub : ∀ c, c ∈ (mintStrategy cfg w req.walletAddress.toStr p).1 →
        c ∈ (postMint cfg w req).1 := fun c hc =>
      (List.mem_filter.1 (hcalls ▸ hc)).1
    constructor
    · intro hu
      have hs : mintStrategy cfg w req.walletAddress.toStr p =
          mintThirdweb cfg w req.walletAddress.toStr p := by
        simp only [mintStrategy, hu, if_true]
      rw [hs] at hcalls hok herr hsub
      exact ⟨hcalls, fun hk => hsub _ (mintThirdweb_started cfg w _ p hk).1, hok, herr⟩
    · intro hu
      have hs : mintStrategy cfg w req.walletAddress.toStr p =
          mintDirect cfg w req.walletAddress.toStr p := by
        simp only [mintStrategy, hu, Bool.false_eq_true, if_false]
      rw [hs] at hcalls hok herr hsub
      exact ⟨hcalls, fun hk => hsub _ (mintDirect_started cfg w _ p hk), hok, herr⟩

/-- C17, witness: with the SDK strategy selected, a free mint of the demo world makes the
two SDK calls and no other strategy call, and answers 200 with what the SDK returned. -/
theorem C17_one_strategy_per_request_witness :
    (postMint sdkConfig (paidWorld "exact") freeRequest).1.filter
        (fun c => c.isSdk || c.isDirect) =
      (mintThirdweb sdkConfig (paidWorld "exact") "0xOwner" demoPinned).1 ∧
    Call.sdkGetContract "0xNFT0000000000000000000000000000000000001" ∈
      (postMint sdkConfig (paidWorld "exact") freeRequest).1 ∧
    (postMint sdkConfig (paidWorld "exact") freeRequest).2 =
      { status := 200,
        body := .success
          (successResponse sdkConfig (paidWorld "exact") "abc123" "0xsdk" "7" demoPinned) } :=
  have h := (C17_one_strategy_per_request sdkConfig (paidWorld "exact") freeRequest).2.2.2.2
    [137, 80, 78, 71] demoPinned (by decide) (fun h => by cases h) rfl rfl
  ⟨(h.1 (by decide)).1, (h.1 (by decide)).2.1 rfl, (h.1 (by decide)).2.2.1 ("0xsdk", "7") rfl⟩

end PixlMixr
